import Mathlib

/-!
# WaylandPixelBuffer: format negotiation, format conversion, cursor conversion,
frame synchronization and the image-copy capture session

A shallow embedding of `unix/w0vncserver/wayland/WaylandPixelBuffer.cxx` and of
`unix/w0vncserver/wayland/objects/ImageCopyCaptureManager.cxx`.

Machine integers are natural numbers; where the source narrows a value the
narrowing is written out (`% 256` for `uint8_t`, `% 2 ^ 32` for `uint32_t`).
-/

namespace WaylandPixelBuffer

/-! ## The `wl_shm` format codes -/

/-- The six `WL_SHM_FORMAT_*` enumerators the source names.  They are declared
in `wayland-client-protocol.h`, outside the repository, so the functions below
take them as a parameter. -/
structure ShmFormatCodes where
  ARGB8888 : Nat
  XRGB8888 : Nat
  RGBA8888 : Nat
  RGBX8888 : Nat
  ABGR8888 : Nat
  XBGR8888 : Nat
deriving DecidableEq, Repr

/-- The values `enum wl_shm_format` gives the six enumerators in the Wayland
protocol (`argb8888 = 0`, `xrgb8888 = 1`, the others are fourcc codes). -/
def wl : ShmFormatCodes where
  ARGB8888 := 0
  XRGB8888 := 1
  RGBA8888 := 0x34324152
  RGBX8888 := 0x34325852
  ABGR8888 := 0x34324241
  XBGR8888 := 0x34324258

/-- What the source relies on about the enumerators: they are the labels of one
`switch` (so they are pairwise distinct), they are `uint32_t` values, and none
but `ARGB8888` coincides with the value `0` that the source replaces by
`ARGB8888`. -/
def ShmFormatCodes.Valid (c : ShmFormatCodes) : Prop :=
  [c.ARGB8888, c.XRGB8888, c.RGBA8888, c.RGBX8888, c.ABGR8888, c.XBGR8888].Nodup ∧
  (∀ x ∈ [c.ARGB8888, c.XRGB8888, c.RGBA8888, c.RGBX8888, c.ABGR8888, c.XBGR8888],
    x < 2 ^ 32) ∧
  (∀ x ∈ [c.XRGB8888, c.RGBA8888, c.RGBX8888, c.ABGR8888, c.XBGR8888], x ≠ 0)

instance (c : ShmFormatCodes) : Decidable c.Valid := by
  unfold ShmFormatCodes.Valid
  exact inferInstance

/-- The formats with a meaningful alpha channel: the labels of the outer
`switch` of `pickShmFormat`, and the disjuncts of `hasAlpha` in
`convertCursorBuffer`. -/
def isAlphaFormat (c : ShmFormatCodes) (f : Nat) : Bool :=
  f == c.ARGB8888 || f == c.RGBA8888 || f == c.ABGR8888

/-- The formats without alpha: the labels of the inner `switch` of
`pickShmFormat`. -/
def isOpaqueFormat (c : ShmFormatCodes) (f : Nat) : Bool :=
  f == c.XRGB8888 || f == c.RGBX8888 || f == c.XBGR8888

/-- One of the six recognized codes. -/
def isRecognized (c : ShmFormatCodes) (f : Nat) : Bool :=
  isAlphaFormat c f || isOpaqueFormat c f

/-! ## `pickShmFormat` -/

/-- The statement `if (out) *out = v;`: `out` is `none` for a null pointer and
`some x` for a pointer to a cell holding `x`. -/
def writeOut (out : Option Nat) (v : Nat) : Option Nat :=
  out.map (fun _ => v)

/-- `WaylandPixelBuffer::pickShmFormat(list, out)`: the returned flag and the
cell `out` points to after the call. -/
def pickShmFormat (c : ShmFormatCodes) : List Nat → Option Nat → Bool × Option Nat
  | [], out => (false, out)
  | shmFormat :: rest, out =>
    if shmFormat = 0 then
      (true, writeOut out c.ARGB8888)
    else if isAlphaFormat c shmFormat then
      (true, writeOut out shmFormat)
    else if isOpaqueFormat c shmFormat then
      (true, writeOut out shmFormat)
    else
      pickShmFormat c rest out

/-- A candidate on which the loop of `pickShmFormat` returns. -/
def isCandidate (c : ShmFormatCodes) (f : Nat) : Bool :=
  f == 0 || isRecognized c f

/-- The value `pickShmFormat` stores for a candidate it stops at. -/
def chosenFor (c : ShmFormatCodes) (f : Nat) : Nat :=
  if f = 0 then c.ARGB8888 else f

/-! ## `convertFormat` -/

/-- Modelled from the spec: `rfb::PixelFormat` is declared in
`rfb/PixelFormat.h`, which is not among the sources; the fields are the
arguments of the constructor the source calls, in its order (bits per pixel,
depth, big-endian flag, true-colour flag, the three channel maxima, the three
channel shifts). -/
structure PixelFormat where
  bpp : Nat
  depth : Nat
  bigEndian : Bool
  trueColour : Bool
  redMax : Nat
  greenMax : Nat
  blueMax : Nat
  redShift : Nat
  greenShift : Nat
  blueShift : Nat
deriving DecidableEq, Repr

/-- The `std::runtime_error` thrown by `convertFormat`, with the format it
reports. -/
inductive FormatError where
  | notSupported (shmFormat : Nat)
deriving DecidableEq, Repr

/-- `WaylandPixelBuffer::convertFormat(shmFormat)`. -/
def convertFormat (c : ShmFormatCodes) (shmFormat : Nat) : Except FormatError PixelFormat :=
  if shmFormat = c.XRGB8888 ∨ shmFormat = c.ARGB8888 then
    .ok ⟨32, 24, false, true, 255, 255, 255, 16, 8, 0⟩
  else if shmFormat = c.RGBX8888 ∨ shmFormat = c.RGBA8888 then
    .ok ⟨32, 24, false, true, 255, 255, 255, 24, 16, 8⟩
  else if shmFormat = c.XBGR8888 ∨ shmFormat = c.ABGR8888 then
    .ok ⟨32, 24, false, true, 255, 255, 255, 0, 8, 16⟩
  else
    .error (.notSupported shmFormat)

/-- The byte of a little-endian 32-bit pixel that holds the channel with the
given shift. -/
def byteOfShift (shift : Nat) : Nat := shift / 8


/-! ## `convertCursorBuffer` -/

/-- The four local variables `r, g, b, a` of the loop body. -/
structure Channels where
  r : Nat
  g : Nat
  b : Nat
  a : Nat
deriving DecidableEq, Repr

/-- The `switch (format_)` of the loop body: the channels read from the four
input bytes `in[0] .. in[3]`. -/
def decodePixel (c : ShmFormatCodes) (format_ : Nat) (in0 in1 in2 in3 : Nat) : Channels :=
  if format_ = c.ARGB8888 then ⟨in2, in1, in0, in3⟩
  else if format_ = c.XRGB8888 then ⟨in2, in1, in0, 0xff⟩
  else if format_ = c.RGBA8888 then ⟨in0, in1, in2, in3⟩
  else if format_ = c.RGBX8888 then ⟨in0, in1, in2, 0xff⟩
  else if format_ = c.ABGR8888 then ⟨in3, in2, in1, in0⟩
  else if format_ = c.XBGR8888 then ⟨in3, in2, in1, 0xff⟩
  else ⟨0, 0, 0, 0xff⟩

/-- The integer division `x / a` of the source; `none` when the divisor is
zero (undefined behaviour in the source). -/
def divInt (x a : Nat) : Option Nat :=
  if a = 0 then none else some (x / a)

/-- The `if (hasAlpha)` block of the loop body; `(uint8_t)((uint16_t)r * 255 / a)`
is the quotient computed in `int` and narrowed to eight bits. -/
def unpremultiply (hasAlpha : Bool) (p : Channels) : Option Channels :=
  if hasAlpha then
    if p.a = 0 then some ⟨0, 0, 0, p.a⟩
    else
      (divInt (p.r * 255) p.a).bind fun r =>
      (divInt (p.g * 255) p.a).bind fun g =>
      (divInt (p.b * 255) p.a).bind fun b =>
      some ⟨r % 256, g % 256, b % 256, p.a⟩
  else some p

/-- One run of the loop body up to the stores: the values written to
`outp[0] .. outp[3]`. -/
def convertPixel (c : ShmFormatCodes) (format_ : Nat) (hasAlpha : Bool)
    (in0 in1 in2 in3 : Nat) : Option Channels :=
  unpremultiply hasAlpha (decodePixel c format_ in0 in1 in2 in3)

/-- The statement `if (format_ == 0) format_ = WL_SHM_FORMAT_ARGB8888;`. -/
def effectiveFormat (c : ShmFormatCodes) (format_ : Nat) : Nat :=
  if format_ = 0 then c.ARGB8888 else format_

/-- The output pixel `convertCursorBuffer` computes for the input pixel
`in0 in1 in2 in3` when called with format `format_`: the bytes R, G, B, A. -/
def cursorPixel (c : ShmFormatCodes) (format_ : Nat) (in0 in1 in2 in3 : Nat) :
    Option (List Nat) :=
  (convertPixel c (effectiveFormat c format_)
    (isAlphaFormat c (effectiveFormat c format_)) in0 in1 in2 in3).map
    fun p => [p.r, p.g, p.b, p.a]

/-- `out.resize(n)` on a vector of bytes: the first `n` elements are kept and
new elements are zero. -/
def resize (out : List Nat) (n : Nat) : List Nat :=
  out.take n ++ List.replicate (n - out.length) 0

/-- A store `*p = v` through a pointer `p` into the storage of a vector; `none`
when `p` is outside the storage (undefined behaviour in the source). -/
def store (out : List Nat) (p v : Nat) : Option (List Nat) :=
  if p < out.length then some (out.set p v) else none

/-- The state of the two loops: the offsets of `in` from `src` and of `outp`
from `out.data()`, and the contents of `out`. -/
structure CursorLoop where
  inp : Nat
  outp : Nat
  out : List Nat
deriving DecidableEq, Repr

/-- The loop body: decode and convert the pixel at `in`, store four bytes
through `outp`, advance both pointers. -/
def pixelStep (c : ShmFormatCodes) (format_ : Nat) (hasAlpha : Bool) (mem : Nat → Nat)
    (s : CursorLoop) : Option CursorLoop :=
  (convertPixel c format_ hasAlpha
    (mem s.inp) (mem (s.inp + 1)) (mem (s.inp + 2)) (mem (s.inp + 3))).bind fun p =>
  (store s.out s.outp p.r).bind fun o1 =>
  (store o1 (s.outp + 1) p.g).bind fun o2 =>
  (store o2 (s.outp + 2) p.b).bind fun o3 =>
  (store o3 (s.outp + 3) p.a).bind fun o4 =>
  some ⟨s.inp + 4, s.outp + 4, o4⟩

/-- A counted loop `for (uint32_t i = 0; i < n; i++) body`. -/
def loopN {σ : Type} (body : σ → Option σ) : Nat → σ → Option σ
  | 0, s => some s
  | n + 1, s => (body s).bind (loopN body n)

/-- `WaylandPixelBuffer::convertCursorBuffer(src, format_, width, height, out)`.
`src` is `none` for a null pointer and otherwise the memory it points to, a
byte for each offset; the result is the vector `out` after the call, or `none`
when a store falls outside its storage or a division has a zero divisor. -/
def convertCursorBuffer (c : ShmFormatCodes) (src : Option (Nat → Nat))
    (format_ width height : Nat) (out : List Nat) : Option (List Nat) :=
  match src with
  | none => some []
  | some mem =>
    if width = 0 ∨ height = 0 then some []
    else
      let out := resize out (width * height % 2 ^ 32 * 4 % 2 ^ 32)
      let format_ := effectiveFormat c format_
      let hasAlpha := isAlphaFormat c format_
      (loopN (loopN (pixelStep c format_ hasAlpha mem) width) height ⟨0, 0, out⟩).map
        fun s => s.out

/-- The four bytes the loop body stores for the pixel number `k` of `mem`. -/
def pixelBytes (c : ShmFormatCodes) (format_ : Nat) (hasAlpha : Bool) (mem : Nat → Nat)
    (k : Nat) : List Nat :=
  ((convertPixel c format_ hasAlpha
    (mem (4 * k)) (mem (4 * k + 1)) (mem (4 * k + 2)) (mem (4 * k + 3))).map
    fun p => [p.r, p.g, p.b, p.a]).getD []

/-- The bytes of a source buffer given as a list, as memory. -/
def memOf (bytes : List Nat) : Nat → Nat :=
  fun i => bytes.getD i 0

/-- The "repremultiply" of the round trip, with truncating division. -/
def repremultiply (ch a : Nat) : Nat := ch * a / 255

/-- The "repremultiply" of the round trip, with the division rounded up. -/
def repremultiplyUp (ch a : Nat) : Nat := (ch * a + 254) / 255

/-! ## 32-bit signed integers -/

/-- The values of `int32_t` (and of `int`). -/
def isInt32 (v : Int) : Prop := -2147483648 ≤ v ∧ v < 2147483648

instance (v : Int) : Decidable (isInt32 v) := by
  unfold isInt32
  exact inferInstance

/-- The `int32_t` (or `int`) a 32-bit computation leaves for the mathematical
value `v`: the value congruent to `v` modulo 2^32 in the range of `int32_t`.
It is what the sum of two `int32_t` is, and what the conversion of a
`uint32_t` to `int` gives. -/
def wrapInt32 (v : Int) : Int := (v + 2147483648) % 4294967296 - 2147483648

/-! ## Regions -/

/-- `core::Point`. -/
structure Point where
  x : Int
  y : Int
deriving DecidableEq, Repr

/-- `core::Rect`: the top-left corner and the bottom-right corner, the latter
excluded. -/
structure Rect where
  tl : Point
  br : Point
deriving DecidableEq, Repr

/-- Modelled from the spec: `core::Region` is declared in `core/Region.h`, which
is not among the sources.  The spec describes it as a set of axis-aligned
rectangles merged by set union; it is the set of pixels the rectangles cover. -/
abbrev Region := Finset (Int × Int)

/-- Modelled from the spec: the region made of one rectangle: the pixels
`(x, y)` with `tl.x ≤ x < br.x` and `tl.y ≤ y < br.y`. -/
def Region.ofRect (r : Rect) : Region :=
  Finset.Ico r.tl.x r.br.x ×ˢ Finset.Ico r.tl.y r.br.y

/-- Modelled from the spec: `Region::is_empty()`. -/
def Region.is_empty (r : Region) : Bool := decide (r = ∅)

/-- Modelled from the spec: `Region::assign_union(r)`, the set union. -/
def Region.assign_union (self r : Region) : Region := self ∪ r

/-- Modelled from the spec: `Region::clear()`. -/
def Region.clear (_self : Region) : Region := ∅

/-! ## The synchronizer: `bufferEvent` and `syncBuffers` -/

/-- What the synchronizer does to its collaborators, in the order it does it. -/
inductive SyncAction where
  /-- `screencopyManager->resize()` -/
  | resize
  /-- `desktopReadyCallback()` -/
  | desktopReady
  /-- `server->setPixelBuffer(this)` -/
  | setPixelBuffer
  /-- the loop of `syncBuffers` over the rectangles of `region`: the area
  copied from the delivered buffer into the framebuffer -/
  | copied (region : Region)
  /-- `server->add_changed(damage)` -/
  | add_changed (damage : Region)
deriving DecidableEq

/-- The members of `WaylandPixelBuffer` that `bufferEvent` and `syncBuffers`
use.  `width`, `height` and `format` are those of the base class
`rfb::ManagedPixelBuffer` (declared in `rfb/PixelBuffer.h`, not among the
sources); `screencopyManager` tells whether the pointer is non-null; `log`
records the calls made so far. -/
structure PixelBufferState where
  firstFrame : Bool
  resized : Bool
  screencopyManager : Bool
  width : Nat
  height : Nat
  format : PixelFormat
  log : List SyncAction
deriving DecidableEq

/-- Modelled from the spec: `getRect()` of the base class, the rectangle of the
whole framebuffer. -/
def PixelBufferState.getRect (s : PixelBufferState) : Rect :=
  ⟨⟨0, 0⟩, ⟨s.width, s.height⟩⟩

/-- Modelled from the spec: `setSize(w, h)` of the base class, which gives the
framebuffer the dimensions `w` by `h`. -/
def PixelBufferState.setSize (s : PixelBufferState) (w h : Nat) : PixelBufferState :=
  { s with width := w, height := h }

/-- The state the constructor leaves: no frame seen, no resize pending, an
empty framebuffer. `screencopyManager` is set when the legacy backend is
chosen. -/
def PixelBufferState.init (screencopyManager : Bool) : PixelBufferState :=
  ⟨true, false, screencopyManager, 0, 0, ⟨0, 0, false, false, 0, 0, 0, 0, 0, 0⟩, []⟩

/-- `WaylandPixelBuffer::syncBuffers(buffer, damage)`; `outW` and `outH` are
what `output->getWidth()` and `output->getHeight()` return during the call.
The pixels themselves are not modelled: the copy loop is recorded by the area
it copies. -/
def syncBuffers (outW outH : Nat) (damage : Region) (s : PixelBufferState) :
    PixelBufferState :=
  let sd : PixelBufferState × Region :=
    if s.resized then
      let s1 := s.setSize outW outH
      let s2 := { s1 with log := s1.log ++ [SyncAction.setPixelBuffer] }
      ({ s2 with resized := false }, Region.ofRect s2.getRect)
    else (s, damage)
  let s := sd.1
  let damage := sd.2
  let region := if damage.is_empty then Region.ofRect s.getRect else damage
  { s with log := s.log ++ [SyncAction.copied region, SyncAction.add_changed damage] }

/-- `WaylandPixelBuffer::bufferEvent(buffer, damage, pf)`. -/
def bufferEvent (outW outH : Nat) (damage : Region) (pf : PixelFormat)
    (s : PixelBufferState) : PixelBufferState :=
  let detect := (outW ≠ s.width ∨ outH ≠ s.height) ∧ s.firstFrame = false ∧ s.resized = false
  if detect ∧ s.screencopyManager = true then
    { s with resized := true, log := s.log ++ [SyncAction.resize] }
  else
    let s := if detect then { s with resized := true } else s
    let s :=
      if s.firstFrame then
        let s1 := { s with format := pf }
        let s2 := s1.setSize outW outH
        { s2 with log := s2.log ++ [SyncAction.desktopReady] }
      else s
    let s := { s with firstFrame := false }
    syncBuffers outW outH damage s

/-- `WaylandPixelBuffer::imageCopyBufferEvent(buffer, damage, shmFormat)`. -/
def imageCopyBufferEvent (c : ShmFormatCodes) (outW outH : Nat) (damage : Region)
    (shmFormat : Nat) (s : PixelBufferState) : PixelBufferState :=
  match convertFormat c shmFormat with
  | .error _ => s
  | .ok pf => bufferEvent outW outH damage pf s

/-- One delivered frame: the dimensions the output reports when it arrives,
the damage and the pixel format it carries. -/
structure DeliveredFrame where
  outW : Nat
  outH : Nat
  damage : Region
  pf : PixelFormat
deriving DecidableEq

/-- A sequence of delivered frames, each handled by `bufferEvent`. -/
def bufferEvents (frames : List DeliveredFrame) (s : PixelBufferState) : PixelBufferState :=
  frames.foldl (fun s f => bufferEvent f.outW f.outH f.damage f.pf s) s

/-- The number of desktop-ready notifications made so far. -/
def PixelBufferState.readyCount (s : PixelBufferState) : Nat :=
  s.log.count SyncAction.desktopReady

/-! ## The capture session: `ImageCopyCaptureSession` -/

/-- The `wl_buffer` made by `pool->createBuffer(offset, width, height, stride,
format)`.  `serial` is not in the source: it numbers the buffers a session
creates, to tell two buffers with equal parameters apart. -/
structure ShmBuffer where
  serial : Nat
  offset : Nat
  width : Nat
  height : Nat
  stride : Nat
  format : Nat
deriving DecidableEq, Repr

/-- A live `ext_image_copy_capture_frame_v1`, with the requests `createFrame`
issues on it: `attach_buffer(buffer)`, `damage_buffer(x, y, width, height)`
and `capture`. -/
structure CaptureFrame where
  buffer : ShmBuffer
  x : Nat
  y : Nat
  width : Nat
  height : Nat
deriving DecidableEq, Repr

/-- The members of `ImageCopyCaptureSession`.  `session`, `shm` tell whether
the pointer is non-null; `pool` holds the size of the pool when there is one.
`buffersCreated`, `framesCreated` and `framesDestroyed` are not in the source:
they count the objects created and destroyed so far. -/
structure ImageCopyCaptureSession where
  session : Bool
  frame : Option CaptureFrame
  shm : Bool
  pool : Option Nat
  buffer : Option ShmBuffer
  width : Nat
  height : Nat
  format : Nat
  hasSize : Bool
  constraintsReady : Bool
  failed : Bool
  formats : List Nat
  damage : Region
  buffersCreated : Nat
  framesCreated : Nat
  framesDestroyed : Nat
deriving DecidableEq

/-- The three callbacks a session is constructed with; `none` is an empty
`std::function`.  A callback acts on the state `σ` of its owner; the
frame-ready callback is handed the session to read. -/
structure SessionCallbacks (σ : Type) where
  frameReadyCb : Option (ImageCopyCaptureSession → σ → σ)
  pickShmFormatCb : Option (List Nat → Option Nat → Bool × Option Nat)
  stoppedCb : Option (σ → σ)

/-- What the system and the compositor answer during one handler: whether
`memfd_create` and `ftruncate` succeed, and whether `createBuffer` and
`create_frame` return an object. -/
structure Allocation where
  memfd_create : Bool
  ftruncate : Bool
  createBuffer : Bool
  create_frame : Bool
deriving DecidableEq, Repr

/-- Every allocation succeeds. -/
def Allocation.ok : Allocation := ⟨true, true, true, true⟩

namespace ImageCopyCaptureSession

/-- The state the constructor leaves, for a session handle `session_`. -/
def new (session_ : Bool) : ImageCopyCaptureSession :=
  { session := session_, frame := none, shm := false, pool := none, buffer := none,
    width := 0, height := 0, format := 0, hasSize := false, constraintsReady := false,
    failed := false, formats := [], damage := ∅,
    buffersCreated := 0, framesCreated := 0, framesDestroyed := 0 }

/-- The statement `if (stoppedCb) stoppedCb();`. -/
def callStopped {σ : Type} (cb : SessionCallbacks σ) (o : σ) : σ :=
  match cb.stoppedCb with
  | some f => f o
  | none => o

/-- The statement `if (frame) { ..._destroy(frame); frame = nullptr; }`. -/
def destroyFrame (s : ImageCopyCaptureSession) : ImageCopyCaptureSession :=
  match s.frame with
  | some _ => { s with frame := none, framesDestroyed := s.framesDestroyed + 1 }
  | none => s

/-- `ImageCopyCaptureSession::handleBufferSize(width_, height_)`. -/
def handleBufferSize (width_ height_ : Nat) (s : ImageCopyCaptureSession) :
    ImageCopyCaptureSession :=
  let s :=
    if s.hasSize = true ∧ (width_ ≠ s.width ∨ height_ ≠ s.height) then
      let s := destroyFrame s
      { s with buffer := none, pool := none, constraintsReady := false,
               formats := [], damage := s.damage.clear }
    else s
  { s with width := width_, height := height_, hasSize := true }

/-- `ImageCopyCaptureSession::handleShmFormat(format_)`. -/
def handleShmFormat (format_ : Nat) (s : ImageCopyCaptureSession) :
    ImageCopyCaptureSession :=
  { s with formats := s.formats ++ [format_] }

/-- `ImageCopyCaptureSession::createFrame()`. -/
def createFrame (env : Allocation) (s : ImageCopyCaptureSession) :
    ImageCopyCaptureSession :=
  match s.buffer with
  | none => s
  | some buf =>
    if s.session = false then s
    else if s.frame.isSome then s
    else if env.create_frame = false then s
    else
      { s with frame := some ⟨buf, 0, 0, s.width, s.height⟩,
               framesCreated := s.framesCreated + 1,
               damage := s.damage.clear }

/-- `ImageCopyCaptureSession::initPool(name, size)`: the returned flag and the
session after the call. -/
def initPool (env : Allocation) (size : Nat) (s : ImageCopyCaptureSession) :
    Bool × ImageCopyCaptureSession :=
  if s.pool = some size then (true, s)
  else
    let s := { s with pool := none }
    if env.memfd_create = false then (false, s)
    else if env.ftruncate = false then (false, s)
    else (true, { s with pool := some size })

/-- The value of `width * height * 4` computed in `uint32_t`. -/
def poolSize (width height : Nat) : Nat :=
  width * height % 2 ^ 32 * 4 % 2 ^ 32

/-- `ImageCopyCaptureSession::handleDone()`, on the session and the state of
the owner of its callbacks. -/
def handleDone {σ : Type} (cb : SessionCallbacks σ) (env : Allocation)
    (so : ImageCopyCaptureSession × σ) : ImageCopyCaptureSession × σ :=
  let s := so.1
  let o := so.2
  if s.session = false then (s, callStopped cb o)
  else if s.width = 0 ∨ s.height = 0 then (s, callStopped cb o)
  else if s.formats = [] then (s, callStopped cb o)
  else
    match cb.pickShmFormatCb with
    | none => (s, callStopped cb o)
    | some pick =>
      let picked := pick s.formats (some 0)
      if picked.1 = false then (s, callStopped cb o)
      else
        let s := { s with format := picked.2.getD 0, constraintsReady := true, shm := true }
        let r := initPool env (poolSize s.width s.height) s
        let s := r.2
        if r.1 = false then (s, callStopped cb o)
        else if s.pool = none then (s, callStopped cb o)
        else
          let s :=
            if env.createBuffer then
              { s with buffer := some ⟨s.buffersCreated, 0, s.width, s.height,
                                       s.width * 4 % 2 ^ 32, s.format⟩,
                       buffersCreated := s.buffersCreated + 1 }
            else { s with buffer := none }
          (createFrame env s, o)

/-- `ImageCopyCaptureSession::handleStopped()`. -/
def handleStopped {σ : Type} (cb : SessionCallbacks σ)
    (so : ImageCopyCaptureSession × σ) : ImageCopyCaptureSession × σ :=
  let s := { so.1 with failed := true }
  let s := destroyFrame s
  let s := { s with session := false }
  (s, callStopped cb so.2)

/-- `ImageCopyCaptureSession::handleFrameDamage(x, y, width_, height_)`.  The
arguments are `int32_t`, and so are the sums `x + width_` and `y + height_`. -/
def handleFrameDamage (x y width_ height_ : Int) (s : ImageCopyCaptureSession) :
    ImageCopyCaptureSession :=
  let tl : Point := ⟨x, y⟩
  let br : Point := ⟨wrapInt32 (x + width_), wrapInt32 (y + height_)⟩
  { s with damage := s.damage.assign_union (Region.ofRect ⟨tl, br⟩) }

/-- `ImageCopyCaptureSession::handleFrameReady()`. -/
def handleFrameReady {σ : Type} (cb : SessionCallbacks σ) (env : Allocation)
    (so : ImageCopyCaptureSession × σ) : ImageCopyCaptureSession × σ :=
  let s := so.1
  let o := so.2
  if s.constraintsReady = false ∨ s.pool = none then (s, o)
  else
    let o := match cb.frameReadyCb with
      | some f => f s o
      | none => o
    let s := destroyFrame s
    let s := { s with damage := s.damage.clear }
    (createFrame env s, o)

/-- `ImageCopyCaptureSession::handleFrameFailed(reason)`. -/
def handleFrameFailed (_reason : Nat) (s : ImageCopyCaptureSession) :
    ImageCopyCaptureSession :=
  destroyFrame { s with failed := true }

/-- `ImageCopyCaptureSession::getData()`: the mapping of the pool, or `none`
for a null pointer. -/
def getData (s : ImageCopyCaptureSession) : Option Nat := s.pool

end ImageCopyCaptureSession

/-- The events of the session listener and of the frame listener.  `done` and
`ready` carry what the system answers while they are handled. -/
inductive SessionEvent where
  | buffer_size (width height : Nat)
  | shm_format (format : Nat)
  | dmabuf_device
  | dmabuf_format (format : Nat)
  | done (env : Allocation)
  | stopped
  | transform (transform : Nat)
  | damage (x y width height : Int)
  | presentation_time (tvSecHi tvSecLo tvNsec : Nat)
  | ready (env : Allocation)
  | failed (reason : Nat)
deriving DecidableEq, Repr

/-- The listeners: each event is passed to its handler. -/
def ImageCopyCaptureSession.handle {σ : Type} (cb : SessionCallbacks σ)
    (so : ImageCopyCaptureSession × σ) : SessionEvent → ImageCopyCaptureSession × σ
  | .buffer_size w h => (so.1.handleBufferSize w h, so.2)
  | .shm_format f => (so.1.handleShmFormat f, so.2)
  | .dmabuf_device => so
  | .dmabuf_format _ => so
  | .done env => handleDone cb env so
  | .stopped => handleStopped cb so
  | .transform _ => so
  | .damage x y w h => (so.1.handleFrameDamage x y w h, so.2)
  | .presentation_time _ _ _ => so
  | .ready env => handleFrameReady cb env so
  | .failed reason => (so.1.handleFrameFailed reason, so.2)

/-- A sequence of events handled one after the other. -/
def ImageCopyCaptureSession.handleAll {σ : Type} (cb : SessionCallbacks σ)
    (events : List SessionEvent) (so : ImageCopyCaptureSession × σ) :
    ImageCopyCaptureSession × σ :=
  events.foldl (ImageCopyCaptureSession.handle cb) so

/-- A call of one of the callbacks of a session, as an observer records it. -/
inductive SessionCall where
  | frameReady (session : ImageCopyCaptureSession)
  | stopped
deriving DecidableEq

/-- Callbacks that only record that they are called, around a given format
picker. -/
def recording (pick : Option (List Nat → Option Nat → Bool × Option Nat)) :
    SessionCallbacks (List SessionCall) where
  frameReadyCb := some fun s o => o ++ [SessionCall.frameReady s]
  pickShmFormatCb := pick
  stoppedCb := some fun o => o ++ [SessionCall.stopped]

/-- The number of recorded calls of the stopped callback. -/
def stoppedCalls (o : List SessionCall) : Nat := o.count SessionCall.stopped

/-! ## The capture manager: `ImageCopyCaptureManager` -/

/-- A call of one of the callbacks the manager is constructed with, with the
arguments the callback receives; the width and the height of `cursorImageCb`
are `int` parameters. -/
inductive ManagerCall where
  | bufferEventCb (data : Option Nat) (damage : Region) (format : Nat)
  | cursorImageCb (width height : Int) (hotspot : Point) (format : Nat) (data : Option Nat)
  | cursorPosCb (pos : Point)
  | stoppedCb
deriving DecidableEq

/-- The members of `ImageCopyCaptureCursorSession`. -/
structure ImageCopyCaptureCursorSession where
  session : Bool
  captureSession : Option ImageCopyCaptureSession
  cursorHotspot : Point
deriving DecidableEq

/-- What a session of the manager can change through its callbacks: the
`active` flag of the manager and the calls of the callbacks the manager was
given. -/
structure ManagerEffects where
  active : Bool
  calls : List ManagerCall
deriving DecidableEq

/-- The members of `ImageCopyCaptureManager` that change. -/
structure ImageCopyCaptureManager where
  session : Option ImageCopyCaptureSession
  cursorSession : Option ImageCopyCaptureCursorSession
  effects : ManagerEffects
deriving DecidableEq

/-- The callbacks the manager is constructed with that may be empty and are
tested before use: the format picker and the cursor position callback. -/
structure ManagerCallbacks where
  pickShmFormatCb : Option (List Nat → Option Nat → Bool × Option Nat)
  cursorPosCb : Bool

namespace ImageCopyCaptureManager

/-- The state the constructor leaves. -/
def new : ImageCopyCaptureManager :=
  { session := none, cursorSession := none, effects := ⟨true, []⟩ }

/-- `ImageCopyCaptureManager::stopped()`. -/
def stopped (m : ManagerEffects) : ManagerEffects :=
  { m with active := false, calls := m.calls ++ [ManagerCall.stoppedCb] }

/-- The callbacks `createSession` gives the capture session. -/
def sessionCallbacks (cfg : ManagerCallbacks) : SessionCallbacks ManagerEffects where
  frameReadyCb := some fun sessionRef m =>
    { m with calls := m.calls ++
        [ManagerCall.bufferEventCb sessionRef.getData sessionRef.damage sessionRef.format] }
  pickShmFormatCb := cfg.pickShmFormatCb
  stoppedCb := some stopped

/-- The lambda `cursorFrameCb` of `createPointerCursorSession`.  The local
`width` and `height` are `uint32_t` and are passed for the `int` parameters of
`cursorImageCb`, which converts them. -/
def cursorFrameCb (sessionRef : ImageCopyCaptureSession) (hotspot : Point)
    (m : ManagerEffects) : ManagerEffects :=
  if sessionRef.getData = none ∨ sessionRef.width = 0 ∨ sessionRef.height = 0 then m
  else
    { m with calls := m.calls ++
        [ManagerCall.cursorImageCb (wrapInt32 sessionRef.width) (wrapInt32 sessionRef.height)
          hotspot sessionRef.format sessionRef.getData] }

/-- The callbacks the cursor session gives its capture session; the frame-ready
lambda passes the hotspot the cursor session holds when the frame is
delivered. -/
def cursorCallbacks (cfg : ManagerCallbacks) (cursorHotspot : Point) :
    SessionCallbacks ManagerEffects where
  frameReadyCb := some fun captureSessionRef m =>
    cursorFrameCb captureSessionRef cursorHotspot m
  pickShmFormatCb := cfg.pickShmFormatCb
  stoppedCb := some stopped

/-- `ImageCopyCaptureManager::createSession()`, given whether the compositor
returns a session handle; `none` is the exception thrown. -/
def createSession (sessionHandle : Bool) (m : ImageCopyCaptureManager) :
    Option ImageCopyCaptureManager :=
  if sessionHandle = false then none
  else some { m with session := some (ImageCopyCaptureSession.new true) }

/-- `ImageCopyCaptureManager::createPointerCursorSession()`, given whether the
compositor returns a cursor session handle and a capture session handle for
it; `none` is the exception thrown. -/
def createPointerCursorSession (cursorSessionHandle captureSessionHandle : Bool)
    (m : ImageCopyCaptureManager) : Option ImageCopyCaptureManager :=
  if cursorSessionHandle = false then none
  else
    let cs : ImageCopyCaptureCursorSession :=
      { session := true,
        captureSession :=
          if captureSessionHandle then some (ImageCopyCaptureSession.new true) else none,
        cursorHotspot := ⟨0, 0⟩ }
    some { m with cursorSession := some cs }

end ImageCopyCaptureManager

/-- The events of the cursor session listener. -/
inductive CursorEvent where
  | enter
  | leave
  | position (x y : Int)
  | hotspot (x y : Int)
deriving DecidableEq, Repr

/-- An event delivered to one of the objects of a manager: its capture
session, its cursor session, or the capture session of the cursor session. -/
inductive ManagerEvent where
  | session (e : SessionEvent)
  | cursor (e : CursorEvent)
  | cursorCapture (e : SessionEvent)
deriving DecidableEq, Repr

/-- The handlers of `ImageCopyCaptureCursorSession`: `handleEnter`,
`handleLeave`, `handlePosition` and `handleHotspot`. -/
def ImageCopyCaptureCursorSession.handle (cfg : ManagerCallbacks)
    (co : ImageCopyCaptureCursorSession × ManagerEffects) :
    CursorEvent → ImageCopyCaptureCursorSession × ManagerEffects
  | .enter => co
  | .leave => co
  | .position x y =>
    if cfg.cursorPosCb then
      (co.1, { co.2 with calls := co.2.calls ++ [ManagerCall.cursorPosCb ⟨x, y⟩] })
    else co
  | .hotspot x y => ({ co.1 with cursorHotspot := ⟨x, y⟩ }, co.2)

/-- One event delivered to the object it is addressed to; an event for an
object that does not exist is not delivered. -/
def ImageCopyCaptureManager.handle (cfg : ManagerCallbacks) (m : ImageCopyCaptureManager) :
    ManagerEvent → ImageCopyCaptureManager
  | .session e =>
    match m.session with
    | none => m
    | some s =>
      let r := ImageCopyCaptureSession.handle (sessionCallbacks cfg) (s, m.effects) e
      { m with session := some r.1, effects := r.2 }
  | .cursor e =>
    match m.cursorSession with
    | none => m
    | some cs =>
      let r := ImageCopyCaptureCursorSession.handle cfg (cs, m.effects) e
      { m with cursorSession := some r.1, effects := r.2 }
  | .cursorCapture e =>
    match m.cursorSession with
    | none => m
    | some cs =>
      match cs.captureSession with
      | none => m
      | some s =>
        let r := ImageCopyCaptureSession.handle (cursorCallbacks cfg cs.cursorHotspot)
          (s, m.effects) e
        let cs : ImageCopyCaptureCursorSession := { cs with captureSession := some r.1 }
        { m with cursorSession := some cs, effects := r.2 }

/-- A sequence of events delivered one after the other. -/
def ImageCopyCaptureManager.handleAll (cfg : ManagerCallbacks)
    (events : List ManagerEvent) (m : ImageCopyCaptureManager) : ImageCopyCaptureManager :=
  events.foldl (ImageCopyCaptureManager.handle cfg) m

/-- The number of calls of the caller-supplied stopped callback. -/
def ManagerEffects.stoppedCalls (m : ManagerEffects) : Nat :=
  m.calls.count ManagerCall.stoppedCb

/-- The session events whose handler can call the stopped callback: `done`
and `stopped`. -/
def SessionEvent.isDoneOrStopped : SessionEvent → Bool
  | .done _ => true
  | .stopped => true
  | _ => false

/-- A manager after `createSession` and `createPointerCursorSession`, when the
compositor returns every handle. -/
def ImageCopyCaptureManager.started : ImageCopyCaptureManager :=
  { session := some (ImageCopyCaptureSession.new true),
    cursorSession := some
      ⟨true, some (ImageCopyCaptureSession.new true), ⟨0, 0⟩⟩,
    effects := ⟨true, []⟩ }

/-! ## Notions used to state the results on sessions -/

/-- The arguments of one `damage` event of a frame. -/
structure DamageRect where
  x : Int
  y : Int
  width : Int
  height : Int
deriving DecidableEq, Repr

/-- The `damage` event with the arguments `r`. -/
def DamageRect.event (r : DamageRect) : SessionEvent :=
  SessionEvent.damage r.x r.y r.width r.height

/-- The pixel `p` lies in the rectangle of the damage event. -/
def DamageRect.contains (r : DamageRect) (p : Int × Int) : Prop :=
  r.x ≤ p.1 ∧ p.1 < r.x + r.width ∧ r.y ≤ p.2 ∧ p.2 < r.y + r.height

/-- The far corner of the rectangle of the damage event has `int32_t`
coordinates: the sums `x + width` and `y + height` do not overflow. -/
def DamageRect.fits (r : DamageRect) : Prop :=
  isInt32 (r.x + r.width) ∧ isInt32 (r.y + r.height)

instance (r : DamageRect) : Decidable r.fits := by
  unfold DamageRect.fits
  exact inferInstance

/-- The events of the frame listener. -/
def SessionEvent.isFrameEvent : SessionEvent → Bool
  | .transform _ => true
  | .damage _ _ _ _ => true
  | .presentation_time _ _ _ => true
  | .ready _ => true
  | .failed _ => true
  | _ => false

/-- The `done` events. -/
def SessionEvent.isDone : SessionEvent → Bool
  | .done _ => true
  | _ => false

/-- Delivery of an event by the connection.  The frame listener is attached to
the Frame by `createFrame` and the session listener to the session handle by
the constructor, so an event of a frame reaches its handler only while that
Frame is live, and an event of the session only while the session handle
is. -/
def ImageCopyCaptureSession.dispatch {σ : Type} (cb : SessionCallbacks σ)
    (so : ImageCopyCaptureSession × σ) (e : SessionEvent) : ImageCopyCaptureSession × σ :=
  if e.isFrameEvent then
    if so.1.frame.isSome then ImageCopyCaptureSession.handle cb so e else so
  else
    if so.1.session then ImageCopyCaptureSession.handle cb so e else so

/-- A sequence of events delivered one after the other. -/
def ImageCopyCaptureSession.dispatchAll {σ : Type} (cb : SessionCallbacks σ)
    (events : List SessionEvent) (so : ImageCopyCaptureSession × σ) :
    ImageCopyCaptureSession × σ :=
  events.foldl (ImageCopyCaptureSession.dispatch cb) so

/-- The number of live Frames of a session. -/
def ImageCopyCaptureSession.liveFrames (s : ImageCopyCaptureSession) : Nat :=
  if s.frame.isSome then 1 else 0

/-- The value of the most recent `hotspot` event of a sequence of events, or
`init` when the sequence has none. -/
def hotspotAfter (init : Point) (events : List ManagerEvent) : Point :=
  events.foldl
    (fun h e =>
      match e with
      | .cursor (.hotspot x y) => ⟨x, y⟩
      | _ => h)
    init

/-- The byte offsets within a pixel from which the loop body of
`convertCursorBuffer` reads red, green and blue for the format `format_`: the
body is run on the pixel whose bytes are 0, 1, 2, 3. -/
def cursorChannelOffsets (c : ShmFormatCodes) (format_ : Nat) : Nat × Nat × Nat :=
  let p := decodePixel c format_ 0 1 2 3
  (p.r, p.g, p.b)

/-- The bytes of a little-endian pixel at which the description returned by
`convertFormat` places red, green and blue; `none` when `convertFormat`
throws. -/
def formatChannelOffsets (c : ShmFormatCodes) (format_ : Nat) : Option (Nat × Nat × Nat) :=
  match convertFormat c format_ with
  | .ok pf => some (byteOfShift pf.redShift, byteOfShift pf.greenShift, byteOfShift pf.blueShift)
  | .error _ => none

/-- One call made on the synchronizer after the first frame: a `bufferEvent`
with a delivered frame, or a `syncBuffers` with the dimensions the output
reports and a damage region. -/
inductive SyncCall where
  | bufferEvent (frame : DeliveredFrame)
  | syncBuffers (outW outH : Nat) (damage : Region)
deriving DecidableEq

/-- A sequence of calls on the synchronizer, made in order. -/
def syncCalls (calls : List SyncCall) (s : PixelBufferState) : PixelBufferState :=
  calls.foldl
    (fun s call =>
      match call with
      | .bufferEvent f => bufferEvent f.outW f.outH f.damage f.pf s
      | .syncBuffers outW outH damage => syncBuffers outW outH damage s)
    s

/-- Every Frame created so far is destroyed or is the live one. -/
def ImageCopyCaptureSession.framesBalanced (s : ImageCopyCaptureSession) : Prop :=
  s.framesCreated = s.framesDestroyed + s.liveFrames

instance (s : ImageCopyCaptureSession) : Decidable s.framesBalanced := by
  unfold ImageCopyCaptureSession.framesBalanced
  exact inferInstance

/-- While `constraintsReady` is set, the chosen format is what `pickShmFormat`
writes for the candidate list the session holds. -/
def ImageCopyCaptureSession.formatChosen (c : ShmFormatCodes) (s : ImageCopyCaptureSession) :
    Prop :=
  s.constraintsReady = true → pickShmFormat c s.formats (some 0) = (true, some s.format)

/-- The events a live Frame sends before it completes or fails: `transform`,
`damage` and `presentation_time`. -/
def SessionEvent.isFrameProgress : SessionEvent → Bool
  | .transform _ => true
  | .damage _ _ _ _ => true
  | .presentation_time _ _ _ => true
  | _ => false

/-- The damage accumulated over a sequence of events, from the region `init`:
each `damage` event adds the rectangle `handleFrameDamage` adds, from `(x, y)`
to the 32-bit sums `(x + width, y + height)`. -/
def damageAfter (init : Region) (events : List SessionEvent) : Region :=
  events.foldl
    (fun d e =>
      match e with
      | .damage x y w h =>
        d ∪ Region.ofRect ⟨⟨x, y⟩, ⟨wrapInt32 (x + w), wrapInt32 (y + h)⟩⟩
      | _ => d)
    init

/-- A Pool exists only once a size is known, and its size is the one
`handleDone` computes for the current width and height. -/
def ImageCopyCaptureSession.poolMatches (s : ImageCopyCaptureSession) : Prop :=
  (s.hasSize = false → s.pool = none ∧ s.width = 0) ∧
  (∀ n, s.pool = some n → n = ImageCopyCaptureSession.poolSize s.width s.height)

/-! ## Sample states -/

/-- A session that has negotiated a 2 by 2 output in `XRGB8888` and holds the
Pool and the Buffer, but no Frame yet: the compositor returned no frame
object at the `done`. -/
def awaitingFrame : ImageCopyCaptureSession :=
  (ImageCopyCaptureSession.handleAll (recording (some (pickShmFormat wl)))
    [.buffer_size 2 2, .shm_format wl.XRGB8888, .done ⟨true, true, true, false⟩]
    (ImageCopyCaptureSession.new true, [])).1

/-- A session capturing a 2 by 2 output in `XRGB8888`, with the calls recorded
so far. -/
def capturing : ImageCopyCaptureSession × List SessionCall :=
  ImageCopyCaptureSession.handleAll (recording (some (pickShmFormat wl)))
    [.buffer_size 2 2, .shm_format wl.XRGB8888, .done Allocation.ok]
    (ImageCopyCaptureSession.new true, [])

/-- The capture session of a cursor session that has negotiated a 2 by 2
cursor in `ARGB8888`. -/
def cursorCapture : ImageCopyCaptureSession :=
  (ImageCopyCaptureSession.handleAll
    (ImageCopyCaptureManager.cursorCallbacks ⟨some (pickShmFormat wl), true⟩ ⟨5, 6⟩)
    [.buffer_size 2 2, .shm_format 0, .done Allocation.ok]
    (ImageCopyCaptureSession.new true, ⟨true, []⟩)).1

/-- A manager whose cursor session has received the hotspot `(5, 6)` and whose
cursor capture session has negotiated a 2 by 2 cursor. -/
def cursorManager : ImageCopyCaptureManager :=
  ImageCopyCaptureManager.handleAll ⟨some (pickShmFormat wl), true⟩
    [.cursor (.hotspot 5 6), .cursorCapture (.buffer_size 2 2),
      .cursorCapture (.shm_format 0), .cursorCapture (.done Allocation.ok)]
    ImageCopyCaptureManager.started

/-! ## Results on `pickShmFormat` -/

/-- The loop of `pickShmFormat` is a search for the first candidate. -/
theorem pickShmFormat_eq_find (c : ShmFormatCodes) (l : List Nat) (out : Option Nat) :
    pickShmFormat c l out =
      match l.find? (isCandidate c) with
      | none => (false, out)
      | some f => (true, writeOut out (chosenFor c f)) := by
  induction l with
  | nil => rfl
  | cons x xs ih =>
    by_cases h0 : x = 0
    · simp [pickShmFormat, isCandidate, chosenFor, h0]
    · by_cases ha : isAlphaFormat c x = true
      · simp [pickShmFormat, isCandidate, isRecognized, chosenFor, h0, ha]
      · by_cases ho : isOpaqueFormat c x = true
        · simp [pickShmFormat, isCandidate, isRecognized, chosenFor, h0, ha, ho]
        · simp [pickShmFormat, isCandidate, isRecognized, h0, ha, ho] at ih ⊢
          simpa [isCandidate, isRecognized] using ih

/-- C1 as stated fails: on the list `[XRGB8888, RGBA8888]`, which holds no 0 and
whose first (and only) alpha-capable candidate is `RGBA8888`, `pickShmFormat`
selects the opaque `XRGB8888` that comes first. -/
theorem C1_counterexample :
    (0 ∉ [wl.XRGB8888, wl.RGBA8888]) ∧
    [wl.XRGB8888, wl.RGBA8888].find? (isAlphaFormat wl) = some wl.RGBA8888 ∧
    isOpaqueFormat wl wl.XRGB8888 = true ∧
    pickShmFormat wl [wl.XRGB8888, wl.RGBA8888] (some 0) = (true, some wl.XRGB8888) ∧
    wl.XRGB8888 ≠ wl.RGBA8888 := by
  decide

/-- C1 (amended): on a list that holds no 0 and at least one alpha-capable
format, `pickShmFormat` succeeds and selects the first candidate that is one
of the six supported formats, alpha-capable or opaque; that is the first
alpha-capable candidate exactly when no opaque supported format stands before
it in the list. -/
theorem C1_pickShmFormat_first_supported (c : ShmFormatCodes) (l : List Nat)
    (out : Option Nat) (h0 : 0 ∉ l) (ha : ∃ x ∈ l, isAlphaFormat c x = true) :
    ∃ f a, l.find? (isRecognized c) = some f ∧
      l.find? (isAlphaFormat c) = some a ∧
      pickShmFormat c l out = (true, writeOut out f) ∧
      (f = a ↔ ∀ x ∈ l.takeWhile (fun x => !isAlphaFormat c x),
        isOpaqueFormat c x = false) := by
  induction l with
  | nil => simp at ha
  | cons x xs ih =>
    have hx0 : x ≠ 0 := fun h => h0 (by simp [h])
    have hxs0 : 0 ∉ xs := fun h => h0 (by simp [h])
    by_cases hxa : isAlphaFormat c x = true
    · exact ⟨x, x, by simp [isRecognized, hxa], by simp [hxa],
        by simp [pickShmFormat, hx0, hxa], by simp [hxa]⟩
    · have hxa' : isAlphaFormat c x = false := by simpa using hxa
      have hrest : ∃ y ∈ xs, isAlphaFormat c y = true := by
        obtain ⟨y, hy, hya⟩ := ha
        rcases List.mem_cons.mp hy with rfl | hy
        · exact absurd hya hxa
        · exact ⟨y, hy, hya⟩
      obtain ⟨f, a, hf, hfa, hp, hiff⟩ := ih hxs0 hrest
      have haa : isAlphaFormat c a = true := by
        have := List.find?_some hfa
        simpa using this
      by_cases hxo : isOpaqueFormat c x = true
      · refine ⟨x, a, by simp [isRecognized, hxo], by simp [hxa', hfa],
          by simp [pickShmFormat, hx0, hxa', hxo], ?_⟩
        constructor
        · intro h
          rw [h] at hxa'
          rw [hxa'] at haa
          exact absurd haa (by decide)
        · intro h
          have := h x (by simp [List.takeWhile, hxa'])
          rw [hxo] at this
          exact absurd this (by decide)
      · have hxo' : isOpaqueFormat c x = false := by simpa using hxo
        refine ⟨f, a, by simp [isRecognized, hxa', hxo', ← hf], by simp [hxa', hfa],
          by simp [pickShmFormat, hx0, hxa', hxo', hp], ?_⟩
        rw [hiff]
        simp [List.takeWhile, hxa', hxo']

/-- C1: the amended statement at the list `[XRGB8888, RGBA8888]`. -/
theorem C1_pickShmFormat_first_supported_witness :
    ∃ f a, [wl.XRGB8888, wl.RGBA8888].find? (isRecognized wl) = some f ∧
      [wl.XRGB8888, wl.RGBA8888].find? (isAlphaFormat wl) = some a ∧
      pickShmFormat wl [wl.XRGB8888, wl.RGBA8888] (some 0) = (true, writeOut (some 0) f) ∧
      (f = a ↔ ∀ x ∈ [wl.XRGB8888, wl.RGBA8888].takeWhile (fun x => !isAlphaFormat wl x),
        isOpaqueFormat wl x = false) :=
  C1_pickShmFormat_first_supported wl [wl.XRGB8888, wl.RGBA8888] (some 0)
    (by decide) ⟨wl.RGBA8888, by decide, by decide⟩

/-- C2: `pickShmFormat` stops at the first element of the list that is 0 or one
of the six recognized codes, and stores `ARGB8888` for 0 and the element itself
otherwise; `[0]` selects `ARGB8888` and `[XRGB8888]` selects `XRGB8888`. -/
theorem C2_pickShmFormat_first_candidate (c : ShmFormatCodes) (hc : c.Valid)
    (l : List Nat) (out : Option Nat) :
    (pickShmFormat c l out =
      match l.find? (fun f => f == 0 || isRecognized c f) with
      | none => (false, out)
      | some f => (true, writeOut out (if f = 0 then c.ARGB8888 else f))) ∧
    pickShmFormat c [0] out = (true, writeOut out c.ARGB8888) ∧
    pickShmFormat c [c.XRGB8888] out = (true, writeOut out c.XRGB8888) := by
  have hx : c.XRGB8888 ≠ 0 := hc.2.2 _ (by simp)
  refine ⟨pickShmFormat_eq_find c l out, by simp [pickShmFormat], ?_⟩
  simp [pickShmFormat, hx, isOpaqueFormat]

/-- C2 at the Wayland codes, on a list whose first two elements are skipped. -/
theorem C2_pickShmFormat_first_candidate_witness :
    (pickShmFormat wl [7, 9, wl.RGBX8888, 0] (some 3) =
      match [7, 9, wl.RGBX8888, 0].find? (fun f => f == 0 || isRecognized wl f) with
      | none => (false, some 3)
      | some f => (true, writeOut (some 3) (if f = 0 then wl.ARGB8888 else f))) ∧
    pickShmFormat wl [0] (some 3) = (true, writeOut (some 3) wl.ARGB8888) ∧
    pickShmFormat wl [wl.XRGB8888] (some 3) = (true, writeOut (some 3) wl.XRGB8888) :=
  C2_pickShmFormat_first_candidate wl (by decide) [7, 9, wl.RGBX8888, 0] (some 3)

/-- C3: `pickShmFormat` returns false, with the output cell untouched, exactly
when no element of the list is 0 or one of the six recognized codes; so it does
on the empty list. -/
theorem C3_pickShmFormat_fails_iff (c : ShmFormatCodes) (l : List Nat) (out : Option Nat) :
    ((pickShmFormat c l out).1 = false ↔
      ∀ x ∈ l, x ≠ 0 ∧ isRecognized c x = false) ∧
    ((pickShmFormat c l out).1 = false → (pickShmFormat c l out).2 = out) ∧
    pickShmFormat c [] out = (false, out) := by
  rw [pickShmFormat_eq_find]
  refine ⟨?_, ?_, rfl⟩
  · cases h : l.find? (isCandidate c) with
    | none =>
      simp only [true_iff]
      intro x hx
      have := List.find?_eq_none.mp h x hx
      simpa [isCandidate] using this
    | some f =>
      simp only [Bool.true_eq_false, false_iff]
      intro hall
      have hf := List.find?_some h
      have hm := List.mem_of_find?_eq_some h
      have := hall f hm
      simp [isCandidate, this.1, this.2] at hf
  · cases h : l.find? (isCandidate c) <;> simp

/-! ## Results on `convertFormat` -/

/-- C4 as stated fails: for `RGBA8888` the description `convertFormat` returns
has red shift 24, green shift 16 and blue shift 8, so in the little-endian
pixel red is at byte 3, green at byte 2 and blue at byte 1, not at bytes
0, 1, 2. -/
theorem C4_counterexample :
    convertFormat wl wl.RGBA8888 =
      .ok ⟨32, 24, false, true, 255, 255, 255, 24, 16, 8⟩ ∧
    (byteOfShift 24, byteOfShift 16, byteOfShift 8) ≠ (0, 1, 2) := by
  refine ⟨rfl, by decide⟩

/-- C4 (amended): for each of the six recognized codes `convertFormat` returns
a 32-bit, depth-24, little-endian, true-colour description with all maxima 255;
`ARGB8888` and `XRGB8888` have blue, green, red at bytes 0, 1, 2; `RGBA8888`
and `RGBX8888` have blue, green, red at bytes 1, 2, 3; `ABGR8888` and
`XBGR8888` have red, green, blue at bytes 0, 1, 2. -/
theorem C4_convertFormat_layout (c : ShmFormatCodes) (hc : c.Valid) (f : Nat)
    (hf : isRecognized c f = true) :
    ∃ pf, convertFormat c f = .ok pf ∧
      pf.bpp = 32 ∧ pf.depth = 24 ∧ pf.bigEndian = false ∧ pf.trueColour = true ∧
      pf.redMax = 255 ∧ pf.greenMax = 255 ∧ pf.blueMax = 255 ∧
      (f = c.ARGB8888 ∨ f = c.XRGB8888 →
        byteOfShift pf.blueShift = 0 ∧ byteOfShift pf.greenShift = 1 ∧
        byteOfShift pf.redShift = 2) ∧
      (f = c.RGBA8888 ∨ f = c.RGBX8888 →
        byteOfShift pf.blueShift = 1 ∧ byteOfShift pf.greenShift = 2 ∧
        byteOfShift pf.redShift = 3) ∧
      (f = c.ABGR8888 ∨ f = c.XBGR8888 →
        byteOfShift pf.redShift = 0 ∧ byteOfShift pf.greenShift = 1 ∧
        byteOfShift pf.blueShift = 2) := by
  obtain ⟨hnd, -, -⟩ := hc
  simp only [List.nodup_cons, List.mem_cons, List.mem_singleton, not_or,
    List.not_mem_nil, not_false_eq_true, List.nodup_nil, and_true] at hnd
  simp only [isRecognized, isAlphaFormat, isOpaqueFormat, Bool.or_eq_true,
    beq_iff_eq] at hf
  have e1 := Ne.symm hnd.1.1
  have e2 := Ne.symm hnd.1.2.1
  have e3 := Ne.symm hnd.1.2.2.1
  have e4 := Ne.symm hnd.1.2.2.2.1
  have e5 := Ne.symm hnd.1.2.2.2.2
  have e6 := Ne.symm hnd.2.1.1
  have e7 := Ne.symm hnd.2.1.2.1
  have e8 := Ne.symm hnd.2.1.2.2.1
  have e9 := Ne.symm hnd.2.1.2.2.2
  have e10 := Ne.symm hnd.2.2.1.1
  have e11 := Ne.symm hnd.2.2.1.2.1
  have e12 := Ne.symm hnd.2.2.1.2.2
  have e13 := Ne.symm hnd.2.2.2.1.1
  have e14 := Ne.symm hnd.2.2.2.1.2
  have e15 := Ne.symm hnd.2.2.2.2
  rcases hf with (((h | h) | h) | ((h | h) | h)) <;> subst h <;>
    simp [convertFormat, byteOfShift, *]


/-- C4 at the Wayland codes, for `RGBA8888`. -/
theorem C4_convertFormat_layout_witness :
    ∃ pf, convertFormat wl wl.RGBA8888 = .ok pf ∧
      pf.bpp = 32 ∧ pf.depth = 24 ∧ pf.bigEndian = false ∧ pf.trueColour = true ∧
      pf.redMax = 255 ∧ pf.greenMax = 255 ∧ pf.blueMax = 255 ∧
      (wl.RGBA8888 = wl.ARGB8888 ∨ wl.RGBA8888 = wl.XRGB8888 →
        byteOfShift pf.blueShift = 0 ∧ byteOfShift pf.greenShift = 1 ∧
        byteOfShift pf.redShift = 2) ∧
      (wl.RGBA8888 = wl.RGBA8888 ∨ wl.RGBA8888 = wl.RGBX8888 →
        byteOfShift pf.blueShift = 1 ∧ byteOfShift pf.greenShift = 2 ∧
        byteOfShift pf.redShift = 3) ∧
      (wl.RGBA8888 = wl.ABGR8888 ∨ wl.RGBA8888 = wl.XBGR8888 →
        byteOfShift pf.redShift = 0 ∧ byteOfShift pf.greenShift = 1 ∧
        byteOfShift pf.blueShift = 2) :=
  C4_convertFormat_layout wl (by decide) wl.RGBA8888 (by decide)

/-- C5: `convertFormat` raises its error exactly for the arguments that are
none of the six recognized codes, and returns a description for each of the
six. -/
theorem C5_convertFormat_raises_iff (c : ShmFormatCodes) (f : Nat) :
    ((∃ e, convertFormat c f = .error e) ↔ isRecognized c f = false) ∧
    ((∃ pf, convertFormat c f = .ok pf) ↔ isRecognized c f = true) := by
  unfold convertFormat
  simp only [isRecognized, isAlphaFormat, isOpaqueFormat, Bool.or_eq_true, Bool.or_eq_false_iff,
    beq_iff_eq, beq_eq_false_iff_ne]
  split_ifs with h1 h2 h3
  · simp; tauto
  · simp; tauto
  · simp; tauto
  · simp; tauto

/-! ## Results on `convertCursorBuffer` -/

/-- Four consecutive stores replace four consecutive elements. -/
theorem store4 (out : List Nat) (p a b c d : Nat) (h : p + 4 ≤ out.length) :
    (((out.set p a).set (p + 1) b).set (p + 2) c).set (p + 3) d =
      out.take p ++ [a, b, c, d] ++ out.drop (p + 4) := by
  induction p generalizing out with
  | zero =>
    match out, h with
    | x0 :: x1 :: x2 :: x3 :: rest, _ => simp
  | succ p ih =>
    match out, h with
    | x :: rest, h =>
      have h' : p + 4 ≤ rest.length := by simp at h; omega
      have := ih rest h'
      simp only [List.set_cons_succ, List.take_succ_cons, List.drop_succ_cons,
        List.cons_append, Nat.add_right_comm p 1] at this ⊢
      rw [this]

/-- A loop of `a + b` rounds is a loop of `a` rounds followed by one of `b`. -/
theorem loopN_add {σ : Type} (body : σ → Option σ) (a b : Nat) (s : σ) :
    loopN body (a + b) s = (loopN body a s).bind (loopN body b) := by
  induction a generalizing s with
  | zero => simp [loopN]
  | succ a ih =>
    rw [Nat.add_right_comm]
    simp only [loopN]
    cases body s with
    | none => rfl
    | some t => simpa using ih t

/-- The two nested loops run the body `height * width` times. -/
theorem loopN_mul {σ : Type} (body : σ → Option σ) (a b : Nat) (s : σ) :
    loopN (loopN body a) b s = loopN body (b * a) s := by
  induction b generalizing s with
  | zero => simp [loopN]
  | succ b ih =>
    have e : (b + 1) * a = a + b * a := by rw [Nat.succ_mul, Nat.add_comm]
    rw [e, loopN_add body a (b * a) s]
    show (loopN body a s).bind (loopN (loopN body a) b) = _
    cases loopN body a s with
    | none => rfl
    | some t => simpa using ih t


/-- The loop body never divides by zero: it always yields the four output
values. -/
theorem unpremultiply_eq (hasAlpha : Bool) (p : Channels) :
    unpremultiply hasAlpha p =
      some (if hasAlpha then
        if p.a = 0 then ⟨0, 0, 0, p.a⟩
        else ⟨p.r * 255 / p.a % 256, p.g * 255 / p.a % 256, p.b * 255 / p.a % 256, p.a⟩
      else p) := by
  unfold unpremultiply divInt
  by_cases h : hasAlpha = true <;> by_cases ha : p.a = 0 <;> simp [h, ha]

/-- Every pixel is stored as four bytes. -/
theorem pixelBytes_length (c : ShmFormatCodes) (format_ : Nat) (hasAlpha : Bool)
    (mem : Nat → Nat) (k : Nat) : (pixelBytes c format_ hasAlpha mem k).length = 4 := by
  simp [pixelBytes, convertPixel, unpremultiply_eq]

/-- One run of the loop body inside the vector. -/
theorem pixelStep_ok (c : ShmFormatCodes) (format_ : Nat) (hasAlpha : Bool)
    (mem : Nat → Nat) (j : Nat) (out : List Nat) (h : 4 * j + 4 ≤ out.length) :
    pixelStep c format_ hasAlpha mem ⟨4 * j, 4 * j, out⟩ =
      some ⟨4 * (j + 1), 4 * (j + 1),
        out.take (4 * j) ++ pixelBytes c format_ hasAlpha mem j ++ out.drop (4 * j + 4)⟩ := by
  have h0 : 4 * j < out.length := by omega
  have h1 : 4 * j + 1 < out.length := by omega
  have h2 : 4 * j + 2 < out.length := by omega
  have h3 : 4 * j + 3 < out.length := by omega
  simp only [pixelStep, pixelBytes, convertPixel, unpremultiply_eq, store, Option.some_bind,
    Option.map_some', Option.getD_some, List.length_set, h0, h1, h2, h3, if_true, store4 _ _ _ _ _ _ h,
    Nat.mul_add, Nat.mul_one]

/-- The loop invariant: after `n` rounds from pixel `j` the vector holds the
converted pixels `j .. j + n - 1` at their places and is otherwise unchanged. -/
theorem loopN_pixelStep (c : ShmFormatCodes) (format_ : Nat) (hasAlpha : Bool)
    (mem : Nat → Nat) (n j : Nat) (out : List Nat) (h : 4 * (j + n) ≤ out.length) :
    loopN (pixelStep c format_ hasAlpha mem) n ⟨4 * j, 4 * j, out⟩ =
      some ⟨4 * (j + n), 4 * (j + n),
        out.take (4 * j) ++ (List.range' j n).flatMap (pixelBytes c format_ hasAlpha mem)
          ++ out.drop (4 * (j + n))⟩ := by
  induction n generalizing j out with
  | zero => simp [loopN]
  | succ n ih =>
    have hstep := pixelStep_ok c format_ hasAlpha mem j out (by omega)
    simp only [loopN, hstep, Option.some_bind]
    have hlen : (out.take (4 * j)).length = 4 * j := by
      rw [List.length_take]; omega
    have hpl := pixelBytes_length c format_ hasAlpha mem j
    rw [ih (j + 1)]
    · have e1 : 4 * (j + 1) = (out.take (4 * j) ++ pixelBytes c format_ hasAlpha mem j).length := by
        simp [hpl, hlen]; omega
      have e2 : 4 * (j + 1 + n) =
          (out.take (4 * j) ++ pixelBytes c format_ hasAlpha mem j).length + 4 * n := by
        simp [hpl, hlen]; omega
      have e3 : j + 1 + n = j + (n + 1) := by omega
      congr 2
      · exact e3 ▸ rfl
      · exact e3 ▸ rfl
      · conv_lhs => rw [e2, List.drop_append, e1, List.take_left, List.drop_drop]
        rw [List.range'_succ, List.flatMap_cons]
        simp only [List.append_assoc]
        have e4 : 4 * j + 4 + 4 * n = 4 * (j + (n + 1)) := by omega
        rw [e4]
    · simp only [List.length_append, hlen, hpl, List.length_drop]
      omega


/-- A store keeps the length of the vector. -/
theorem store_length (out o : List Nat) (p v : Nat) (h : store out p v = some o) :
    o.length = out.length := by
  unfold store at h
  split at h
  · simp at h; subst h; simp
  · simp at h

/-- Once the output pointer would pass the end of the vector within the
remaining iterations, the loop runs into a store outside the storage. -/
theorem loopN_pixelStep_overrun (c : ShmFormatCodes) (format_ : Nat) (hasAlpha : Bool)
    (mem : Nat → Nat) (n i q : Nat) (out : List Nat)
    (h : out.length < q + 4 * n) (hq : q ≤ out.length) :
    loopN (pixelStep c format_ hasAlpha mem) n ⟨i, q, out⟩ = none := by
  induction n generalizing i q out with
  | zero => omega
  | succ n ih =>
    simp only [loopN]
    cases hs : pixelStep c format_ hasAlpha mem ⟨i, q, out⟩ with
    | none => rfl
    | some t =>
      obtain ⟨p, hp⟩ : ∃ p, convertPixel c format_ hasAlpha
          (mem i) (mem (i + 1)) (mem (i + 2)) (mem (i + 3)) = some p :=
        ⟨_, by rw [convertPixel, unpremultiply_eq]⟩
      simp only [pixelStep, hp, Option.some_bind] at hs
      cases h1 : store out q p.r with
      | none => simp [h1] at hs
      | some o1 =>
        simp only [h1, Option.some_bind] at hs
        cases h2 : store o1 (q + 1) p.g with
        | none => simp [h2] at hs
        | some o2 =>
          simp only [h2, Option.some_bind] at hs
          cases h3 : store o2 (q + 2) p.b with
          | none => simp [h3] at hs
          | some o3 =>
            simp only [h3, Option.some_bind] at hs
            cases h4 : store o3 (q + 3) p.a with
            | none => simp [h4] at hs
            | some o4 =>
              simp only [h4, Option.some_bind, Option.some.injEq] at hs
              subst hs
              have l1 := store_length _ _ _ _ h1
              have l2 := store_length _ _ _ _ h2
              have l3 := store_length _ _ _ _ h3
              have l4 := store_length _ _ _ _ h4
              have hb : q + 3 < o3.length := by
                unfold store at h4
                split at h4
                · assumption
                · simp at h4
              apply ih
              · omega
              · omega

/-- `resize` gives the vector the requested length. -/
theorem resize_length (out : List Nat) (n : Nat) : (resize out n).length = n := by
  simp [resize, List.length_take]
  omega

/-- The pixel the loop stores is the pixel `cursorPixel` describes. -/
theorem pixelBytes_eq_cursorPixel (c : ShmFormatCodes) (format_ : Nat) (mem : Nat → Nat)
    (k : Nat) :
    cursorPixel c format_ (mem (4 * k)) (mem (4 * k + 1)) (mem (4 * k + 2)) (mem (4 * k + 3)) =
      some (pixelBytes c (effectiveFormat c format_)
        (isAlphaFormat c (effectiveFormat c format_)) mem k) := by
  simp [cursorPixel, pixelBytes, convertPixel, unpremultiply_eq]

/-- Within the 32-bit range the call fills `out` with one converted pixel per
input pixel, in the order of the input: `4 * width * height` bytes. -/
theorem convertCursorBuffer_pixels (c : ShmFormatCodes) (mem : Nat → Nat)
    (format_ width height : Nat) (out : List Nat)
    (hw : 0 < width) (hh : 0 < height) (hsz : width * height * 4 < 2 ^ 32) :
    convertCursorBuffer c (some mem) format_ width height out =
      some ((List.range (height * width)).flatMap
        (pixelBytes c (effectiveFormat c format_)
          (isAlphaFormat c (effectiveFormat c format_)) mem)) := by
  have hwh : width * height < 2 ^ 32 := by omega
  have hn : width * height % 2 ^ 32 * 4 % 2 ^ 32 = 4 * (height * width) := by
    rw [Nat.mod_eq_of_lt hwh, Nat.mod_eq_of_lt hsz, Nat.mul_comm height width]
    omega
  have hw' : width ≠ 0 := by omega
  have hh' : height ≠ 0 := by omega
  simp only [convertCursorBuffer, hw', hh', or_self, if_false, loopN_mul, hn]
  have hl := resize_length out (4 * (height * width))
  have := loopN_pixelStep c (effectiveFormat c format_)
    (isAlphaFormat c (effectiveFormat c format_)) mem (height * width) 0
    (resize out (4 * (height * width))) (by rw [hl]; omega)
  simp only [Nat.mul_zero, Nat.zero_add, List.take_zero, List.nil_append] at this
  rw [this]
  simp only [Option.map_some', Option.some.injEq]
  rw [List.drop_of_length_le (by rw [hl]), List.append_nil, List.range_eq_range']

/-- When `4 * width * height` does not fit in 32 bits the vector is resized to
the wrapped size and the loop stores past its end. -/
theorem convertCursorBuffer_overrun (c : ShmFormatCodes) (mem : Nat → Nat)
    (format_ width height : Nat) (out : List Nat)
    (hw : 0 < width) (hh : 0 < height) (hsz : 2 ^ 32 ≤ width * height * 4) :
    convertCursorBuffer c (some mem) format_ width height out = none := by
  have hw' : width ≠ 0 := by omega
  have hh' : height ≠ 0 := by omega
  simp only [convertCursorBuffer, hw', hh', or_self, if_false, loopN_mul]
  have hl := resize_length out (width * height % 2 ^ 32 * 4 % 2 ^ 32)
  have hlt : width * height % 2 ^ 32 * 4 % 2 ^ 32 < 2 ^ 32 := Nat.mod_lt _ (by decide)
  rw [loopN_pixelStep_overrun]
  · rfl
  · rw [hl, Nat.mul_comm height width]; omega
  · omega



/-- The six codes of a valid assignment are pairwise different, and only
`ARGB8888` may be zero. -/
theorem valid_ne (c : ShmFormatCodes) (hc : c.Valid) :
    (c.ARGB8888 ≠ c.XRGB8888 ∧ c.ARGB8888 ≠ c.RGBA8888 ∧ c.ARGB8888 ≠ c.RGBX8888 ∧
      c.ARGB8888 ≠ c.ABGR8888 ∧ c.ARGB8888 ≠ c.XBGR8888) ∧
    (c.XRGB8888 ≠ c.RGBA8888 ∧ c.XRGB8888 ≠ c.RGBX8888 ∧ c.XRGB8888 ≠ c.ABGR8888 ∧
      c.XRGB8888 ≠ c.XBGR8888) ∧
    (c.RGBA8888 ≠ c.RGBX8888 ∧ c.RGBA8888 ≠ c.ABGR8888 ∧ c.RGBA8888 ≠ c.XBGR8888) ∧
    (c.RGBX8888 ≠ c.ABGR8888 ∧ c.RGBX8888 ≠ c.XBGR8888) ∧
    c.ABGR8888 ≠ c.XBGR8888 ∧
    (c.XRGB8888 ≠ 0 ∧ c.RGBA8888 ≠ 0 ∧ c.RGBX8888 ≠ 0 ∧ c.ABGR8888 ≠ 0 ∧ c.XBGR8888 ≠ 0) := by
  obtain ⟨hnd, -, hz⟩ := hc
  simp only [List.nodup_cons, List.mem_cons, List.mem_singleton, not_or,
    List.not_mem_nil, not_false_eq_true, List.nodup_nil, and_true] at hnd
  simp only [List.mem_cons, List.mem_singleton, List.not_mem_nil, or_false, forall_eq_or_imp,
    forall_eq] at hz
  exact ⟨hnd.1, hnd.2.1, hnd.2.2.1, hnd.2.2.2.1, hnd.2.2.2.2, hz⟩

/-- On a recognized code the replacement of 0 by `ARGB8888` changes nothing. -/
theorem effectiveFormat_recognized (c : ShmFormatCodes) (hc : c.Valid) (f : Nat)
    (hf : isRecognized c f = true) : effectiveFormat c f = f := by
  obtain ⟨-, -, -, -, -, z1, z2, z3, z4, z5⟩ := valid_ne c hc
  simp only [isRecognized, isAlphaFormat, isOpaqueFormat, Bool.or_eq_true, beq_iff_eq] at hf
  unfold effectiveFormat
  split_ifs with h0
  · rcases hf with (((h | h) | h) | ((h | h) | h)) <;> first | exact h.symm | (exfalso; omega)
  · rfl

/-- What `convertCursorBuffer` writes for a pixel, with the definitions of the
loop body unfolded. -/
theorem cursorPixel_eq (c : ShmFormatCodes) (f in0 in1 in2 in3 : Nat) :
    cursorPixel c f in0 in1 in2 in3 =
      some (
        if isAlphaFormat c (effectiveFormat c f) = true then
          if (decodePixel c (effectiveFormat c f) in0 in1 in2 in3).a = 0 then
            [0, 0, 0, (decodePixel c (effectiveFormat c f) in0 in1 in2 in3).a]
          else
            [(decodePixel c (effectiveFormat c f) in0 in1 in2 in3).r * 255 /
                (decodePixel c (effectiveFormat c f) in0 in1 in2 in3).a % 256,
              (decodePixel c (effectiveFormat c f) in0 in1 in2 in3).g * 255 /
                (decodePixel c (effectiveFormat c f) in0 in1 in2 in3).a % 256,
              (decodePixel c (effectiveFormat c f) in0 in1 in2 in3).b * 255 /
                (decodePixel c (effectiveFormat c f) in0 in1 in2 in3).a % 256,
              (decodePixel c (effectiveFormat c f) in0 in1 in2 in3).a]
        else
          [(decodePixel c (effectiveFormat c f) in0 in1 in2 in3).r,
            (decodePixel c (effectiveFormat c f) in0 in1 in2 in3).g,
            (decodePixel c (effectiveFormat c f) in0 in1 in2 in3).b,
            (decodePixel c (effectiveFormat c f) in0 in1 in2 in3).a]) := by
  simp only [cursorPixel, convertPixel, unpremultiply_eq, Option.map_some']
  split_ifs <;> rfl

/-- A format without alpha decodes with alpha 255. -/
theorem decodePixel_alpha_of_not_alpha (c : ShmFormatCodes) (f in0 in1 in2 in3 : Nat)
    (h : isAlphaFormat c f = false) : (decodePixel c f in0 in1 in2 in3).a = 255 := by
  simp only [isAlphaFormat, Bool.or_eq_false_iff, beq_eq_false_iff_ne] at h
  unfold decodePixel
  split_ifs <;> simp_all

/-- A buffer of one pixel is converted to that pixel. -/
theorem convertCursorBuffer_one (c : ShmFormatCodes) (f in0 in1 in2 in3 : Nat) :
    convertCursorBuffer c (some (memOf [in0, in1, in2, in3])) f 1 1 [] =
      cursorPixel c f in0 in1 in2 in3 := by
  rw [convertCursorBuffer_pixels c _ f 1 1 [] (by decide) (by decide) (by decide)]
  have := pixelBytes_eq_cursorPixel c f (memOf [in0, in1, in2, in3]) 0
  simp only [memOf, Nat.mul_zero, Nat.zero_add, List.getD_cons_zero, List.getD_cons_succ] at this
  simp [this, List.range_succ]

/-- The decoded channels of the six layouts. -/
theorem decodePixel_layouts (c : ShmFormatCodes) (hc : c.Valid) (in0 in1 in2 in3 : Nat) :
    decodePixel c c.ARGB8888 in0 in1 in2 in3 = ⟨in2, in1, in0, in3⟩ ∧
    decodePixel c c.XRGB8888 in0 in1 in2 in3 = ⟨in2, in1, in0, 255⟩ ∧
    decodePixel c c.RGBA8888 in0 in1 in2 in3 = ⟨in0, in1, in2, in3⟩ ∧
    decodePixel c c.RGBX8888 in0 in1 in2 in3 = ⟨in0, in1, in2, 255⟩ ∧
    decodePixel c c.ABGR8888 in0 in1 in2 in3 = ⟨in3, in2, in1, in0⟩ ∧
    decodePixel c c.XBGR8888 in0 in1 in2 in3 = ⟨in3, in2, in1, 255⟩ := by
  obtain ⟨⟨a1, a2, a3, a4, a5⟩, ⟨b1, b2, b3, b4⟩, ⟨c1, c2, c3⟩, ⟨d1, d2⟩, e1, -⟩ := valid_ne c hc
  simp [decodePixel, a1.symm, a2.symm, a3.symm, a4.symm, a5.symm, b1.symm, b2.symm, b3.symm,
    b4.symm, c1.symm, c2.symm, c3.symm, d1.symm, d2.symm, e1.symm]

/-- Which of the six layouts carry alpha. -/
theorem isAlphaFormat_layouts (c : ShmFormatCodes) (hc : c.Valid) :
    isAlphaFormat c c.ARGB8888 = true ∧ isAlphaFormat c c.XRGB8888 = false ∧
    isAlphaFormat c c.RGBA8888 = true ∧ isAlphaFormat c c.RGBX8888 = false ∧
    isAlphaFormat c c.ABGR8888 = true ∧ isAlphaFormat c c.XBGR8888 = false := by
  obtain ⟨⟨a1, a2, a3, a4, a5⟩, ⟨b1, b2, b3, b4⟩, ⟨c1, c2, c3⟩, ⟨d1, d2⟩, e1, -⟩ := valid_ne c hc
  simp [isAlphaFormat, a1.symm, a2.symm, a3.symm, a4.symm, a5.symm, b1, b2, b3,
    b4, c1.symm, c2.symm, c3.symm, d1, d2, e1.symm]

/-- Each of the six codes is recognized. -/
theorem isRecognized_layouts (c : ShmFormatCodes) :
    isRecognized c c.ARGB8888 = true ∧ isRecognized c c.XRGB8888 = true ∧
    isRecognized c c.RGBA8888 = true ∧ isRecognized c c.RGBX8888 = true ∧
    isRecognized c c.ABGR8888 = true ∧ isRecognized c c.XBGR8888 = true := by
  simp [isRecognized, isAlphaFormat, isOpaqueFormat]

/-- C6: for each of the six layouts a fully opaque input pixel (alpha byte 255
in an alpha layout, any fourth byte in an opaque layout) is written as
R, G, B, 255 with R, G, B the input bytes at the places of the layout's row of
the table, unchanged; the ARGB8888 pixel 80 80 80 FF gives 80 80 80 FF. -/
theorem C6_opaque_pixel_unchanged (c : ShmFormatCodes) (hc : c.Valid)
    (in0 in1 in2 in3 : Nat)
    (h0 : in0 < 256) (h1 : in1 < 256) (h2 : in2 < 256) (h3 : in3 < 256) :
    (in3 = 255 → cursorPixel c c.ARGB8888 in0 in1 in2 in3 = some [in2, in1, in0, 255]) ∧
    cursorPixel c c.XRGB8888 in0 in1 in2 in3 = some [in2, in1, in0, 255] ∧
    (in3 = 255 → cursorPixel c c.RGBA8888 in0 in1 in2 in3 = some [in0, in1, in2, 255]) ∧
    cursorPixel c c.RGBX8888 in0 in1 in2 in3 = some [in0, in1, in2, 255] ∧
    (in0 = 255 → cursorPixel c c.ABGR8888 in0 in1 in2 in3 = some [in3, in2, in1, 255]) ∧
    cursorPixel c c.XBGR8888 in0 in1 in2 in3 = some [in3, in2, in1, 255] ∧
    convertCursorBuffer c (some (memOf [0x80, 0x80, 0x80, 0xFF])) c.ARGB8888 1 1 [] =
      some [0x80, 0x80, 0x80, 0xFF] := by
  obtain ⟨r1, r2, r3, r4, r5, r6⟩ := isRecognized_layouts c
  obtain ⟨d1, d2, d3, d4, d5, d6⟩ := decodePixel_layouts c hc in0 in1 in2 in3
  obtain ⟨d1', -⟩ := decodePixel_layouts c hc 0x80 0x80 0x80 0xFF
  obtain ⟨a1, a2, a3, a4, a5, a6⟩ := isAlphaFormat_layouts c hc
  refine ⟨?_, ?_, ?_, ?_, ?_, ?_, ?_⟩
  · intro h; subst h
    simp [cursorPixel_eq, effectiveFormat_recognized c hc _ r1, d1, a1]
    omega
  · simp [cursorPixel_eq, effectiveFormat_recognized c hc _ r2, d2, a2]
  · intro h; subst h
    simp [cursorPixel_eq, effectiveFormat_recognized c hc _ r3, d3, a3]
    omega
  · simp [cursorPixel_eq, effectiveFormat_recognized c hc _ r4, d4, a4]
  · intro h; subst h
    simp [cursorPixel_eq, effectiveFormat_recognized c hc _ r5, d5, a5]
    omega
  · simp [cursorPixel_eq, effectiveFormat_recognized c hc _ r6, d6, a6]
  · rw [convertCursorBuffer_one]
    simp [cursorPixel_eq, effectiveFormat_recognized c hc _ r1, d1', a1]

/-- C6 at the Wayland codes and the pixel 80 80 80 FF. -/
theorem C6_opaque_pixel_unchanged_witness :
    (0xFF = 255 → cursorPixel wl wl.ARGB8888 0x80 0x80 0x80 0xFF = some [0x80, 0x80, 0x80, 255]) ∧
    cursorPixel wl wl.XRGB8888 0x80 0x80 0x80 0xFF = some [0x80, 0x80, 0x80, 255] ∧
    (0xFF = 255 → cursorPixel wl wl.RGBA8888 0x80 0x80 0x80 0xFF = some [0x80, 0x80, 0x80, 255]) ∧
    cursorPixel wl wl.RGBX8888 0x80 0x80 0x80 0xFF = some [0x80, 0x80, 0x80, 255] ∧
    (0x80 = 255 → cursorPixel wl wl.ABGR8888 0x80 0x80 0x80 0xFF = some [0xFF, 0x80, 0x80, 255]) ∧
    cursorPixel wl wl.XBGR8888 0x80 0x80 0x80 0xFF = some [0xFF, 0x80, 0x80, 255] ∧
    convertCursorBuffer wl (some (memOf [0x80, 0x80, 0x80, 0xFF])) wl.ARGB8888 1 1 [] =
      some [0x80, 0x80, 0x80, 0xFF] :=
  C6_opaque_pixel_unchanged wl (by decide) 0x80 0x80 0x80 0xFF
    (by decide) (by decide) (by decide) (by decide)


/-- The quotient `ch * 255 / a` fits in a byte when `ch ≤ a`. -/
theorem quotient_fits (ch a : Nat) (hle : ch ≤ a) :
    ch * 255 / a % 256 = ch * 255 / a := by
  apply Nat.mod_eq_of_lt
  have : ch * 255 / a ≤ 255 := by
    apply Nat.div_le_of_le_mul
    exact Nat.mul_le_mul_right _ hle
  omega

/-- C7 as stated fails: the ARGB8888 pixel FF FF FF 01 has channels 255 and
alpha 1; `255 * 255 / 1` is 65025, and the byte written for each channel is 1. -/
theorem C7_counterexample :
    decodePixel wl wl.ARGB8888 255 255 255 1 = ⟨255, 255, 255, 1⟩ ∧
    cursorPixel wl wl.ARGB8888 255 255 255 1 = some [1, 1, 1, 1] ∧
    convertCursorBuffer wl (some (memOf [255, 255, 255, 1])) wl.ARGB8888 1 1 [] =
      some [1, 1, 1, 1] ∧
    255 * 255 / 1 ≠ 1 := by
  decide

/-- C7 (amended): for each alpha-carrying layout and every input pixel with
alpha `a > 0`, each colour byte written is `channel * 255 / a` of the decoded
channel reduced modulo 256, and is `channel * 255 / a` itself whenever the
channel does not exceed `a`; the alpha byte written is `a`. -/
theorem C7_unpremultiply_channels (c : ShmFormatCodes) (hc : c.Valid) (f : Nat)
    (hf : isAlphaFormat c f = true) (in0 in1 in2 in3 : Nat)
    (ha : 0 < (decodePixel c f in0 in1 in2 in3).a) :
    cursorPixel c f in0 in1 in2 in3 =
      some [(decodePixel c f in0 in1 in2 in3).r * 255 / (decodePixel c f in0 in1 in2 in3).a % 256,
        (decodePixel c f in0 in1 in2 in3).g * 255 / (decodePixel c f in0 in1 in2 in3).a % 256,
        (decodePixel c f in0 in1 in2 in3).b * 255 / (decodePixel c f in0 in1 in2 in3).a % 256,
        (decodePixel c f in0 in1 in2 in3).a] ∧
    ((decodePixel c f in0 in1 in2 in3).r ≤ (decodePixel c f in0 in1 in2 in3).a →
      (decodePixel c f in0 in1 in2 in3).r * 255 / (decodePixel c f in0 in1 in2 in3).a % 256 =
        (decodePixel c f in0 in1 in2 in3).r * 255 / (decodePixel c f in0 in1 in2 in3).a) ∧
    ((decodePixel c f in0 in1 in2 in3).g ≤ (decodePixel c f in0 in1 in2 in3).a →
      (decodePixel c f in0 in1 in2 in3).g * 255 / (decodePixel c f in0 in1 in2 in3).a % 256 =
        (decodePixel c f in0 in1 in2 in3).g * 255 / (decodePixel c f in0 in1 in2 in3).a) ∧
    ((decodePixel c f in0 in1 in2 in3).b ≤ (decodePixel c f in0 in1 in2 in3).a →
      (decodePixel c f in0 in1 in2 in3).b * 255 / (decodePixel c f in0 in1 in2 in3).a % 256 =
        (decodePixel c f in0 in1 in2 in3).b * 255 / (decodePixel c f in0 in1 in2 in3).a) := by
  have hrec : isRecognized c f = true := by simp [isRecognized, hf]
  have he := effectiveFormat_recognized c hc f hrec
  refine ⟨?_, quotient_fits _ _, quotient_fits _ _, quotient_fits _ _⟩
  rw [cursorPixel_eq, he]
  simp [hf, Nat.pos_iff_ne_zero.mp ha]

/-- C7 at the Wayland codes: the RGBA8888 pixel 40 20 10 80. -/
theorem C7_unpremultiply_channels_witness :
    cursorPixel wl wl.RGBA8888 0x40 0x20 0x10 0x80 =
      some [(decodePixel wl wl.RGBA8888 0x40 0x20 0x10 0x80).r * 255 /
          (decodePixel wl wl.RGBA8888 0x40 0x20 0x10 0x80).a % 256,
        (decodePixel wl wl.RGBA8888 0x40 0x20 0x10 0x80).g * 255 /
          (decodePixel wl wl.RGBA8888 0x40 0x20 0x10 0x80).a % 256,
        (decodePixel wl wl.RGBA8888 0x40 0x20 0x10 0x80).b * 255 /
          (decodePixel wl wl.RGBA8888 0x40 0x20 0x10 0x80).a % 256,
        (decodePixel wl wl.RGBA8888 0x40 0x20 0x10 0x80).a] ∧
    ((decodePixel wl wl.RGBA8888 0x40 0x20 0x10 0x80).r ≤
        (decodePixel wl wl.RGBA8888 0x40 0x20 0x10 0x80).a →
      (decodePixel wl wl.RGBA8888 0x40 0x20 0x10 0x80).r * 255 /
          (decodePixel wl wl.RGBA8888 0x40 0x20 0x10 0x80).a % 256 =
        (decodePixel wl wl.RGBA8888 0x40 0x20 0x10 0x80).r * 255 /
          (decodePixel wl wl.RGBA8888 0x40 0x20 0x10 0x80).a) ∧
    ((decodePixel wl wl.RGBA8888 0x40 0x20 0x10 0x80).g ≤
        (decodePixel wl wl.RGBA8888 0x40 0x20 0x10 0x80).a →
      (decodePixel wl wl.RGBA8888 0x40 0x20 0x10 0x80).g * 255 /
          (decodePixel wl wl.RGBA8888 0x40 0x20 0x10 0x80).a % 256 =
        (decodePixel wl wl.RGBA8888 0x40 0x20 0x10 0x80).g * 255 /
          (decodePixel wl wl.RGBA8888 0x40 0x20 0x10 0x80).a) ∧
    ((decodePixel wl wl.RGBA8888 0x40 0x20 0x10 0x80).b ≤
        (decodePixel wl wl.RGBA8888 0x40 0x20 0x10 0x80).a →
      (decodePixel wl wl.RGBA8888 0x40 0x20 0x10 0x80).b * 255 /
          (decodePixel wl wl.RGBA8888 0x40 0x20 0x10 0x80).a % 256 =
        (decodePixel wl wl.RGBA8888 0x40 0x20 0x10 0x80).b * 255 /
          (decodePixel wl wl.RGBA8888 0x40 0x20 0x10 0x80).a) :=
  C7_unpremultiply_channels wl (by decide) wl.RGBA8888 (by decide) 0x40 0x20 0x10 0x80
    (by decide)

/-- C8: whatever the format and the colour bytes, an input pixel whose decoded
alpha is 0 is written as 0 0 0 0, and the body does not divide by zero; the
ARGB8888 pixel 00 00 00 00 gives 0 0 0 0. -/
theorem C8_transparent_pixel_zero (c : ShmFormatCodes) (f in0 in1 in2 in3 : Nat)
    (ha : (decodePixel c (effectiveFormat c f) in0 in1 in2 in3).a = 0) :
    cursorPixel c f in0 in1 in2 in3 = some [0, 0, 0, 0] ∧
    convertCursorBuffer c (some (memOf [in0, in1, in2, in3])) f 1 1 [] = some [0, 0, 0, 0] ∧
    convertCursorBuffer c (some (memOf [0, 0, 0, 0])) c.ARGB8888 1 1 [] = some [0, 0, 0, 0] := by
  have key : cursorPixel c f in0 in1 in2 in3 = some [0, 0, 0, 0] := by
    rw [cursorPixel_eq]
    cases hal : isAlphaFormat c (effectiveFormat c f) with
    | true => simp [ha]
    | false =>
      have := decodePixel_alpha_of_not_alpha c _ in0 in1 in2 in3 hal
      omega
  refine ⟨key, by rw [convertCursorBuffer_one, key], ?_⟩
  rw [convertCursorBuffer_one, cursorPixel_eq]
  have he : effectiveFormat c c.ARGB8888 = c.ARGB8888 := by
    unfold effectiveFormat; split_ifs <;> rfl
  simp [he, isAlphaFormat, decodePixel]

/-- C8 at the Wayland codes: the ABGR8888 pixel 00 09 08 07, whose alpha byte
is the first. -/
theorem C8_transparent_pixel_zero_witness :
    cursorPixel wl wl.ABGR8888 0 9 8 7 = some [0, 0, 0, 0] ∧
    convertCursorBuffer wl (some (memOf [0, 9, 8, 7])) wl.ABGR8888 1 1 [] = some [0, 0, 0, 0] ∧
    convertCursorBuffer wl (some (memOf [0, 0, 0, 0])) wl.ARGB8888 1 1 [] = some [0, 0, 0, 0] :=
  C8_transparent_pixel_zero wl wl.ABGR8888 0 9 8 7 (by decide)


/-- The arithmetic of the round trip for one channel `ch ≤ a ≤ 255`: rounding
up gives the channel back, truncating gives it back or one less, and at
`a = 255` truncating is exact. -/
theorem roundtrip_channel (ch a : Nat) (ha : 0 < a) (ha' : a ≤ 255) (hle : ch ≤ a) :
    repremultiplyUp (ch * 255 / a % 256) a = ch ∧
    ch - 1 ≤ repremultiply (ch * 255 / a % 256) a ∧
    repremultiply (ch * 255 / a % 256) a ≤ ch ∧
    (a = 255 → repremultiply (ch * 255 / a % 256) a = ch) := by
  rw [quotient_fits ch a hle]
  have hq1 : a * (ch * 255 / a) ≤ ch * 255 := Nat.mul_div_le _ _
  have hq2 : ch * 255 < a * (ch * 255 / a + 1) := Nat.lt_mul_div_succ _ ha
  rw [Nat.mul_add, Nat.mul_one] at hq2
  unfold repremultiplyUp repremultiply
  have h4 : a = 255 → ch * 255 / a * a / 255 = ch := by
    intro h
    subst h
    simp
  rw [Nat.mul_comm (ch * 255 / a) a] at h4 ⊢
  generalize a * (ch * 255 / a) = t at hq1 hq2 h4 ⊢
  refine ⟨?_, ?_, ?_, h4⟩
  · apply Nat.div_eq_of_lt_le <;> omega
  · apply (Nat.le_div_iff_mul_le (by decide)).mpr; omega
  · apply Nat.div_le_of_le_mul; omega

/-- The decoded channels of a recognized layout are bytes when the input
bytes are. -/
theorem decodePixel_lt (c : ShmFormatCodes) (f in0 in1 in2 in3 : Nat)
    (h0 : in0 < 256) (h1 : in1 < 256) (h2 : in2 < 256) (h3 : in3 < 256) :
    (decodePixel c f in0 in1 in2 in3).r < 256 ∧ (decodePixel c f in0 in1 in2 in3).g < 256 ∧
    (decodePixel c f in0 in1 in2 in3).b < 256 ∧ (decodePixel c f in0 in1 in2 in3).a < 256 := by
  unfold decodePixel
  split_ifs <;> simp <;> omega

/-- C9 as stated fails: the ARGB8888 pixel 01 01 01 02 (channels 1, alpha 2) is
written as 127 127 127 2, and `127 * 2 / 255` is 0, not 1. -/
theorem C9_counterexample :
    decodePixel wl wl.ARGB8888 1 1 1 2 = ⟨1, 1, 1, 2⟩ ∧
    cursorPixel wl wl.ARGB8888 1 1 1 2 = some [127, 127, 127, 2] ∧
    convertCursorBuffer wl (some (memOf [1, 1, 1, 2])) wl.ARGB8888 1 1 [] =
      some [127, 127, 127, 2] ∧
    repremultiply 127 2 = 0 ∧ repremultiply 127 2 ≠ 1 := by
  decide

/-- C9 (amended): for each of the six layouts and every input pixel with alpha
`a > 0` whose colour channels do not exceed `a`, re-premultiplying the pixel
written by `convertCursorBuffer` with the division rounded up gives back the
input colour channels; with the truncating division it gives back each channel
or one less, and exactly the channel when `a = 255` (so for every pixel of an
opaque layout). -/
theorem C9_roundtrip (c : ShmFormatCodes) (hc : c.Valid) (f : Nat)
    (hf : isRecognized c f = true) (in0 in1 in2 in3 : Nat)
    (h0 : in0 < 256) (h1 : in1 < 256) (h2 : in2 < 256) (h3 : in3 < 256)
    (ha : 0 < (decodePixel c f in0 in1 in2 in3).a)
    (hr : (decodePixel c f in0 in1 in2 in3).r ≤ (decodePixel c f in0 in1 in2 in3).a)
    (hg : (decodePixel c f in0 in1 in2 in3).g ≤ (decodePixel c f in0 in1 in2 in3).a)
    (hb : (decodePixel c f in0 in1 in2 in3).b ≤ (decodePixel c f in0 in1 in2 in3).a) :
    ∃ R G B, cursorPixel c f in0 in1 in2 in3 =
        some [R, G, B, (decodePixel c f in0 in1 in2 in3).a] ∧
      (repremultiplyUp R (decodePixel c f in0 in1 in2 in3).a =
          (decodePixel c f in0 in1 in2 in3).r ∧
        repremultiplyUp G (decodePixel c f in0 in1 in2 in3).a =
          (decodePixel c f in0 in1 in2 in3).g ∧
        repremultiplyUp B (decodePixel c f in0 in1 in2 in3).a =
          (decodePixel c f in0 in1 in2 in3).b) ∧
      ((decodePixel c f in0 in1 in2 in3).r - 1 ≤
          repremultiply R (decodePixel c f in0 in1 in2 in3).a ∧
        repremultiply R (decodePixel c f in0 in1 in2 in3).a ≤
          (decodePixel c f in0 in1 in2 in3).r ∧
        (decodePixel c f in0 in1 in2 in3).g - 1 ≤
          repremultiply G (decodePixel c f in0 in1 in2 in3).a ∧
        repremultiply G (decodePixel c f in0 in1 in2 in3).a ≤
          (decodePixel c f in0 in1 in2 in3).g ∧
        (decodePixel c f in0 in1 in2 in3).b - 1 ≤
          repremultiply B (decodePixel c f in0 in1 in2 in3).a ∧
        repremultiply B (decodePixel c f in0 in1 in2 in3).a ≤
          (decodePixel c f in0 in1 in2 in3).b) ∧
      ((decodePixel c f in0 in1 in2 in3).a = 255 →
        repremultiply R (decodePixel c f in0 in1 in2 in3).a =
          (decodePixel c f in0 in1 in2 in3).r ∧
        repremultiply G (decodePixel c f in0 in1 in2 in3).a =
          (decodePixel c f in0 in1 in2 in3).g ∧
        repremultiply B (decodePixel c f in0 in1 in2 in3).a =
          (decodePixel c f in0 in1 in2 in3).b) ∧
      (isOpaqueFormat c f = true → (decodePixel c f in0 in1 in2 in3).a = 255) := by
  have he := effectiveFormat_recognized c hc f hf
  obtain ⟨br, bg, bb, ba⟩ := decodePixel_lt c f in0 in1 in2 in3 h0 h1 h2 h3
  generalize hp : decodePixel c f in0 in1 in2 in3 = p at *
  have ha' : p.a ≤ 255 := by omega
  obtain ⟨r1, r2, r3, r4⟩ := roundtrip_channel p.r p.a ha ha' hr
  obtain ⟨g1, g2, g3, g4⟩ := roundtrip_channel p.g p.a ha ha' hg
  obtain ⟨b1, b2, b3, b4⟩ := roundtrip_channel p.b p.a ha ha' hb
  have hop : isOpaqueFormat c f = true → p.a = 255 := by
    intro ho
    have hna : isAlphaFormat c f = false := by
      obtain ⟨⟨a1, a2, a3, a4, a5⟩, ⟨b1, b2, b3, b4⟩, ⟨c1, c2, c3⟩, ⟨d1, d2⟩, e1, -⟩ :=
        valid_ne c hc
      simp only [isOpaqueFormat, Bool.or_eq_true, beq_iff_eq] at ho
      rcases ho with (h | h) | h <;> subst h <;>
        simp [isAlphaFormat, a1.symm, a3.symm, a5.symm, b1, b3, c1.symm, c3.symm, d1, e1.symm]
    rw [← hp]
    exact decodePixel_alpha_of_not_alpha c f in0 in1 in2 in3 hna
  refine ⟨p.r * 255 / p.a % 256, p.g * 255 / p.a % 256, p.b * 255 / p.a % 256, ?_,
    ⟨r1, g1, b1⟩, ⟨r2, r3, g2, g3, b2, b3⟩, fun h => ⟨r4 h, g4 h, b4 h⟩, hop⟩
  rw [cursorPixel_eq, he, hp]
  cases hal : isAlphaFormat c f with
  | true => simp [Nat.pos_iff_ne_zero.mp ha]
  | false =>
    have h255 : p.a = 255 := by
      rw [← hp]
      exact decodePixel_alpha_of_not_alpha c f in0 in1 in2 in3 hal
    simp [h255]
    omega

/-- C9 at the Wayland codes and the ARGB8888 pixel 01 01 01 02. -/
theorem C9_roundtrip_witness :
    ∃ R G B, cursorPixel wl wl.ARGB8888 1 1 1 2 =
        some [R, G, B, (decodePixel wl wl.ARGB8888 1 1 1 2).a] ∧
      (repremultiplyUp R (decodePixel wl wl.ARGB8888 1 1 1 2).a =
          (decodePixel wl wl.ARGB8888 1 1 1 2).r ∧
        repremultiplyUp G (decodePixel wl wl.ARGB8888 1 1 1 2).a =
          (decodePixel wl wl.ARGB8888 1 1 1 2).g ∧
        repremultiplyUp B (decodePixel wl wl.ARGB8888 1 1 1 2).a =
          (decodePixel wl wl.ARGB8888 1 1 1 2).b) ∧
      ((decodePixel wl wl.ARGB8888 1 1 1 2).r - 1 ≤
          repremultiply R (decodePixel wl wl.ARGB8888 1 1 1 2).a ∧
        repremultiply R (decodePixel wl wl.ARGB8888 1 1 1 2).a ≤
          (decodePixel wl wl.ARGB8888 1 1 1 2).r ∧
        (decodePixel wl wl.ARGB8888 1 1 1 2).g - 1 ≤
          repremultiply G (decodePixel wl wl.ARGB8888 1 1 1 2).a ∧
        repremultiply G (decodePixel wl wl.ARGB8888 1 1 1 2).a ≤
          (decodePixel wl wl.ARGB8888 1 1 1 2).g ∧
        (decodePixel wl wl.ARGB8888 1 1 1 2).b - 1 ≤
          repremultiply B (decodePixel wl wl.ARGB8888 1 1 1 2).a ∧
        repremultiply B (decodePixel wl wl.ARGB8888 1 1 1 2).a ≤
          (decodePixel wl wl.ARGB8888 1 1 1 2).b) ∧
      ((decodePixel wl wl.ARGB8888 1 1 1 2).a = 255 →
        repremultiply R (decodePixel wl wl.ARGB8888 1 1 1 2).a =
          (decodePixel wl wl.ARGB8888 1 1 1 2).r ∧
        repremultiply G (decodePixel wl wl.ARGB8888 1 1 1 2).a =
          (decodePixel wl wl.ARGB8888 1 1 1 2).g ∧
        repremultiply B (decodePixel wl wl.ARGB8888 1 1 1 2).a =
          (decodePixel wl wl.ARGB8888 1 1 1 2).b) ∧
      (isOpaqueFormat wl wl.ARGB8888 = true → (decodePixel wl wl.ARGB8888 1 1 1 2).a = 255) :=
  C9_roundtrip wl (by decide) wl.ARGB8888 (by decide) 1 1 1 2
    (by decide) (by decide) (by decide) (by decide)
    (by decide) (by decide) (by decide) (by decide)

/-- A null source or a zero width or height leaves `out` empty. -/
theorem convertCursorBuffer_empty (c : ShmFormatCodes) (src : Option (Nat → Nat))
    (format_ width height : Nat) (out : List Nat)
    (h : src = none ∨ width = 0 ∨ height = 0) :
    convertCursorBuffer c src format_ width height out = some [] := by
  cases src with
  | none => rfl
  | some mem =>
    have h' : width = 0 ∨ height = 0 := by simpa using h
    simp [convertCursorBuffer, h']

/-- C10 fails on the code at width 65536 and height 16384: `width * height * 4`
is `2 ^ 32`, the 32-bit product is 0, so `out` is resized to length 0 instead
of `2 ^ 32`, and the first store of the loop is already outside the vector. -/
theorem C10_convertCursorBuffer_size_wraps (mem : Nat → Nat) (format_ : Nat)
    (out : List Nat) :
    65536 * 16384 * 4 = 2 ^ 32 ∧
    resize out (65536 * 16384 % 2 ^ 32 * 4 % 2 ^ 32) = [] ∧
    convertCursorBuffer wl (some mem) format_ 65536 16384 out = none := by
  refine ⟨by decide, by simp [resize], ?_⟩
  exact convertCursorBuffer_overrun wl mem format_ 65536 16384 out (by decide) (by decide)
    (by decide)


/-! ## Results on unrecognized cursor formats -/

/-- C11: for a format code that is neither 0 nor one of the six recognized
codes, every pixel `convertCursorBuffer` writes is 0 0 0 255, whatever the
input bytes: for one pixel, and for a whole buffer of any width and height
whose byte size fits in 32 bits. -/
theorem C11_unrecognized_is_black (c : ShmFormatCodes) (f : Nat)
    (h0 : f ≠ 0) (hf : isRecognized c f = false) :
    (∀ in0 in1 in2 in3, cursorPixel c f in0 in1 in2 in3 = some [0, 0, 0, 255]) ∧
    (∀ in0 in1 in2 in3,
      convertCursorBuffer c (some (memOf [in0, in1, in2, in3])) f 1 1 [] =
        some [0, 0, 0, 255]) ∧
    (∀ (mem : Nat → Nat) (width height : Nat) (out : List Nat),
      0 < width → 0 < height → width * height * 4 < 2 ^ 32 →
      convertCursorBuffer c (some mem) f width height out =
        some ((List.range (height * width)).flatMap fun _ => [0, 0, 0, 255])) := by
  have he : effectiveFormat c f = f := by simp [effectiveFormat, h0]
  simp only [isRecognized, isAlphaFormat, isOpaqueFormat, Bool.or_eq_false_iff,
    beq_eq_false_iff_ne] at hf
  obtain ⟨⟨⟨a1, a2⟩, a3⟩, ⟨⟨b1, b2⟩, b3⟩⟩ := hf
  have hal : isAlphaFormat c f = false := by simp [isAlphaFormat, a1, a2, a3]
  have hd : ∀ in0 in1 in2 in3, decodePixel c f in0 in1 in2 in3 = ⟨0, 0, 0, 255⟩ := by
    intro in0 in1 in2 in3
    simp [decodePixel, a1, a2, a3, b1, b2, b3]
  have key : ∀ in0 in1 in2 in3, cursorPixel c f in0 in1 in2 in3 = some [0, 0, 0, 255] := by
    intro in0 in1 in2 in3
    rw [cursorPixel_eq, he, hal, hd]
    simp
  refine ⟨key, fun in0 in1 in2 in3 => by rw [convertCursorBuffer_one, key], ?_⟩
  intro mem width height out hw hh hsz
  rw [convertCursorBuffer_pixels c mem f width height out hw hh hsz]
  congr 2
  funext k
  have := pixelBytes_eq_cursorPixel c f mem k
  rw [key] at this
  exact (Option.some.inj this).symm

/-- C11 at the Wayland codes and the format code 7. -/
theorem C11_unrecognized_is_black_witness :
    (∀ in0 in1 in2 in3, cursorPixel wl 7 in0 in1 in2 in3 = some [0, 0, 0, 255]) ∧
    (∀ in0 in1 in2 in3,
      convertCursorBuffer wl (some (memOf [in0, in1, in2, in3])) 7 1 1 [] =
        some [0, 0, 0, 255]) ∧
    (∀ (mem : Nat → Nat) (width height : Nat) (out : List Nat),
      0 < width → 0 < height → width * height * 4 < 2 ^ 32 →
      convertCursorBuffer wl (some mem) 7 width height out =
        some ((List.range (height * width)).flatMap fun _ => [0, 0, 0, 255])) :=
  C11_unrecognized_is_black wl 7 (by decide) (by decide)

/-! ## Results on `bufferEvent` and `syncBuffers` -/

/-- C12 fails on the code: with no resize pending and an empty damage region,
`syncBuffers` copies the whole framebuffer rectangle but passes the empty
region to `add_changed`; so does `bufferEvent` for a second frame of a 2 by 2
output that reports no damage. -/
theorem C12_syncBuffers_publishes_empty (outW outH : Nat) (s : PixelBufferState) :
    (syncBuffers outW outH ∅ { s with resized := false }).log =
      s.log ++ [SyncAction.copied (Region.ofRect s.getRect), SyncAction.add_changed ∅] ∧
    (bufferEvents
        [⟨2, 2, Region.ofRect ⟨⟨0, 0⟩, ⟨2, 2⟩⟩, ⟨32, 24, false, true, 255, 255, 255, 16, 8, 0⟩⟩,
         ⟨2, 2, ∅, ⟨32, 24, false, true, 255, 255, 255, 16, 8, 0⟩⟩]
        (PixelBufferState.init false)).log =
      [SyncAction.desktopReady,
       SyncAction.copied (Region.ofRect ⟨⟨0, 0⟩, ⟨2, 2⟩⟩),
       SyncAction.add_changed (Region.ofRect ⟨⟨0, 0⟩, ⟨2, 2⟩⟩),
       SyncAction.copied (Region.ofRect ⟨⟨0, 0⟩, ⟨2, 2⟩⟩),
       SyncAction.add_changed ∅] ∧
    Region.ofRect ⟨⟨0, 0⟩, ⟨2, 2⟩⟩ ≠ ∅ := by
  refine ⟨?_, by decide, by decide⟩
  simp [syncBuffers, Region.is_empty, PixelBufferState.getRect]

/-- C13: when the pending-resize flag is set, the frame handled by
`bufferEvent` reaches `syncBuffers`, which gives the framebuffer the current
dimensions of the output, copies and publishes the whole new framebuffer
rectangle whatever damage the frame reports, and clears the flag. -/
theorem C13_pending_resize_committed (outW outH : Nat) (damage : Region) (pf : PixelFormat)
    (s : PixelBufferState) (h : s.resized = true) :
    (bufferEvent outW outH damage pf s).width = outW ∧
    (bufferEvent outW outH damage pf s).height = outH ∧
    (bufferEvent outW outH damage pf s).resized = false ∧
    (bufferEvent outW outH damage pf s).log =
      s.log ++ (if s.firstFrame then [SyncAction.desktopReady] else []) ++
        [SyncAction.setPixelBuffer,
         SyncAction.copied (Region.ofRect ⟨⟨0, 0⟩, ⟨outW, outH⟩⟩),
         SyncAction.add_changed (Region.ofRect ⟨⟨0, 0⟩, ⟨outW, outH⟩⟩)] ∧
    (syncBuffers outW outH damage s).width = outW ∧
    (syncBuffers outW outH damage s).height = outH ∧
    (syncBuffers outW outH damage s).resized = false ∧
    (syncBuffers outW outH damage s).log =
      s.log ++ [SyncAction.setPixelBuffer,
         SyncAction.copied (Region.ofRect ⟨⟨0, 0⟩, ⟨outW, outH⟩⟩),
         SyncAction.add_changed (Region.ofRect ⟨⟨0, 0⟩, ⟨outW, outH⟩⟩)] := by
  cases hf : s.firstFrame <;>
    simp [bufferEvent, syncBuffers, h, hf, PixelBufferState.setSize,
      PixelBufferState.getRect, Region.is_empty]

/-- C13 on a 2 by 2 framebuffer whose output has become 3 by 1, for a frame
that reports no damage. -/
theorem C13_pending_resize_committed_witness :
    (bufferEvent 3 1 ∅ ⟨32, 24, false, true, 255, 255, 255, 16, 8, 0⟩
      ⟨false, true, false, 2, 2, ⟨32, 24, false, true, 255, 255, 255, 16, 8, 0⟩, []⟩).width = 3 ∧
    (bufferEvent 3 1 ∅ ⟨32, 24, false, true, 255, 255, 255, 16, 8, 0⟩
      ⟨false, true, false, 2, 2, ⟨32, 24, false, true, 255, 255, 255, 16, 8, 0⟩, []⟩).height = 1 ∧
    (bufferEvent 3 1 ∅ ⟨32, 24, false, true, 255, 255, 255, 16, 8, 0⟩
      ⟨false, true, false, 2, 2, ⟨32, 24, false, true, 255, 255, 255, 16, 8, 0⟩, []⟩).resized =
        false ∧
    (bufferEvent 3 1 ∅ ⟨32, 24, false, true, 255, 255, 255, 16, 8, 0⟩
      ⟨false, true, false, 2, 2, ⟨32, 24, false, true, 255, 255, 255, 16, 8, 0⟩, []⟩).log =
      [] ++ (if false then [SyncAction.desktopReady] else []) ++
        [SyncAction.setPixelBuffer,
         SyncAction.copied (Region.ofRect ⟨⟨0, 0⟩, ⟨(3 : Nat), (1 : Nat)⟩⟩),
         SyncAction.add_changed (Region.ofRect ⟨⟨0, 0⟩, ⟨(3 : Nat), (1 : Nat)⟩⟩)] ∧
    (syncBuffers 3 1 ∅
      ⟨false, true, false, 2, 2, ⟨32, 24, false, true, 255, 255, 255, 16, 8, 0⟩, []⟩).width = 3 ∧
    (syncBuffers 3 1 ∅
      ⟨false, true, false, 2, 2, ⟨32, 24, false, true, 255, 255, 255, 16, 8, 0⟩, []⟩).height = 1 ∧
    (syncBuffers 3 1 ∅
      ⟨false, true, false, 2, 2, ⟨32, 24, false, true, 255, 255, 255, 16, 8, 0⟩, []⟩).resized =
        false ∧
    (syncBuffers 3 1 ∅
      ⟨false, true, false, 2, 2, ⟨32, 24, false, true, 255, 255, 255, 16, 8, 0⟩, []⟩).log =
      [] ++ [SyncAction.setPixelBuffer,
         SyncAction.copied (Region.ofRect ⟨⟨0, 0⟩, ⟨(3 : Nat), (1 : Nat)⟩⟩),
         SyncAction.add_changed (Region.ofRect ⟨⟨0, 0⟩, ⟨(3 : Nat), (1 : Nat)⟩⟩)] :=
  C13_pending_resize_committed 3 1 ∅ ⟨32, 24, false, true, 255, 255, 255, 16, 8, 0⟩
    ⟨false, true, false, 2, 2, ⟨32, 24, false, true, 255, 255, 255, 16, 8, 0⟩, []⟩ rfl

/-- After the first frame `bufferEvent` makes no desktop-ready notification and
leaves `firstFrame` false. -/
theorem bufferEvent_later (outW outH : Nat) (damage : Region) (pf : PixelFormat)
    (s : PixelBufferState) (h : s.firstFrame = false) :
    (bufferEvent outW outH damage pf s).firstFrame = false ∧
    (bufferEvent outW outH damage pf s).readyCount = s.readyCount := by
  rcases s with ⟨ff, rs, sc, w, ht, fmt, log⟩
  simp only at h
  subst h
  by_cases hd : (outW ≠ w ∨ outH ≠ ht) <;> cases rs <;> cases sc <;>
    simp [bufferEvent, syncBuffers, PixelBufferState.readyCount, PixelBufferState.setSize,
      List.count_append, List.count_cons, hd]

/-- On the first frame `bufferEvent` makes one desktop-ready notification and
sets `firstFrame` to false. -/
theorem bufferEvent_first (outW outH : Nat) (damage : Region) (pf : PixelFormat)
    (s : PixelBufferState) (h : s.firstFrame = true) :
    (bufferEvent outW outH damage pf s).firstFrame = false ∧
    (bufferEvent outW outH damage pf s).readyCount = s.readyCount + 1 := by
  rcases s with ⟨ff, rs, sc, w, ht, fmt, log⟩
  simp only at h
  subst h
  cases rs <;>
    simp [bufferEvent, syncBuffers, PixelBufferState.readyCount, PixelBufferState.setSize,
      List.count_append, List.count_cons]

/-- Frames after the first make no desktop-ready notification. -/
theorem bufferEvents_later (frames : List DeliveredFrame) (s : PixelBufferState)
    (h : s.firstFrame = false) :
    (bufferEvents frames s).firstFrame = false ∧
    (bufferEvents frames s).readyCount = s.readyCount := by
  induction frames generalizing s with
  | nil => exact ⟨h, rfl⟩
  | cons f fs ih =>
    obtain ⟨h1, h2⟩ := bufferEvent_later f.outW f.outH f.damage f.pf s h
    obtain ⟨h3, h4⟩ := ih (bufferEvent f.outW f.outH f.damage f.pf s) h1
    exact ⟨h3, h4.trans h2⟩

/-- C14: on either backend, for every non-empty sequence of delivered frames,
whatever dimensions the output reports at each of them, the desktop-ready
notification is made once by the first `bufferEvent` and by no later one: the
count is 1 after the first frame and 1 after the whole sequence. -/
theorem C14_desktop_ready_once (screencopyManager : Bool) (first : DeliveredFrame)
    (later : List DeliveredFrame) :
    (PixelBufferState.init screencopyManager).readyCount = 0 ∧
    (bufferEvent first.outW first.outH first.damage first.pf
      (PixelBufferState.init screencopyManager)).readyCount = 1 ∧
    (bufferEvents (first :: later) (PixelBufferState.init screencopyManager)).readyCount = 1 ∧
    (∀ k, (bufferEvents ((first :: later).take (k + 1))
      (PixelBufferState.init screencopyManager)).readyCount = 1) := by
  have h0 : (PixelBufferState.init screencopyManager).readyCount = 0 := rfl
  obtain ⟨h1, h2⟩ := bufferEvent_first first.outW first.outH first.damage first.pf
    (PixelBufferState.init screencopyManager) rfl
  rw [h0] at h2
  refine ⟨h0, h2, ?_, ?_⟩
  · exact (bufferEvents_later later _ h1).2.trans h2
  · intro k
    exact (bufferEvents_later (later.take k) _ h1).2.trans h2


/-! ## Results on the capture session -/

/-- The pixels of the region of a rectangle. -/
theorem mem_ofRect (r : Rect) (p : Int × Int) :
    p ∈ Region.ofRect r ↔ r.tl.x ≤ p.1 ∧ p.1 < r.br.x ∧ r.tl.y ≤ p.2 ∧ p.2 < r.br.y := by
  simp [Region.ofRect, Finset.mem_product, Finset.mem_Ico, and_assoc]

/-- A value in the range of `int32_t` is left as it is by a 32-bit
computation. -/
theorem wrapInt32_of_isInt32 (v : Int) (h : isInt32 v) : wrapInt32 v = v := by
  unfold isInt32 at h
  unfold wrapInt32
  omega

/-- The `shm_format` events `l` handled in order. -/
theorem handleAll_shm_format {σ : Type} (cb : SessionCallbacks σ) (l : List Nat)
    (s : ImageCopyCaptureSession) (o : σ) :
    ImageCopyCaptureSession.handleAll cb (l.map SessionEvent.shm_format) (s, o) =
      ({ s with formats := s.formats ++ l }, o) := by
  induction l generalizing s with
  | nil => simp [ImageCopyCaptureSession.handleAll]
  | cons f fs ih =>
    simp only [ImageCopyCaptureSession.handleAll, List.map_cons, List.foldl_cons,
      ImageCopyCaptureSession.handle] at ih ⊢
    rw [ih]
    simp [ImageCopyCaptureSession.handleShmFormat]

/-- What `createFrame` does: nothing, or it creates a Frame on the current
buffer with a request for the whole extent and clears the damage. -/
theorem createFrame_eq (env : Allocation) (s : ImageCopyCaptureSession) :
    ImageCopyCaptureSession.createFrame env s =
      match s.buffer with
      | none => s
      | some buf =>
        if s.session = true ∧ s.frame = none ∧ env.create_frame = true then
          { s with frame := some ⟨buf, 0, 0, s.width, s.height⟩,
                   framesCreated := s.framesCreated + 1, damage := ∅ }
        else s := by
  unfold ImageCopyCaptureSession.createFrame
  cases hb : s.buffer with
  | none => rfl
  | some buf =>
    cases hs : s.session <;> cases hf : s.frame <;> cases hc : env.create_frame <;>
      simp [Region.clear]

/-- The fields `createFrame` does not touch. -/
theorem createFrame_fields (env : Allocation) (s : ImageCopyCaptureSession) :
    (ImageCopyCaptureSession.createFrame env s).session = s.session ∧
    (ImageCopyCaptureSession.createFrame env s).pool = s.pool ∧
    (ImageCopyCaptureSession.createFrame env s).buffer = s.buffer ∧
    (ImageCopyCaptureSession.createFrame env s).width = s.width ∧
    (ImageCopyCaptureSession.createFrame env s).height = s.height ∧
    (ImageCopyCaptureSession.createFrame env s).format = s.format ∧
    (ImageCopyCaptureSession.createFrame env s).hasSize = s.hasSize ∧
    (ImageCopyCaptureSession.createFrame env s).constraintsReady = s.constraintsReady ∧
    (ImageCopyCaptureSession.createFrame env s).failed = s.failed ∧
    (ImageCopyCaptureSession.createFrame env s).formats = s.formats ∧
    (ImageCopyCaptureSession.createFrame env s).framesDestroyed = s.framesDestroyed := by
  rw [createFrame_eq]
  cases hb : s.buffer with
  | none => simp [hb]
  | some buf => simp only; split_ifs <;> simp [hb]

/-- A `done` that fails before a format is chosen leaves the session as it is
and calls the stopped callback. -/
theorem handleDone_early {σ : Type} (cb : SessionCallbacks σ) (env : Allocation)
    (s : ImageCopyCaptureSession) (o : σ)
    (h : s.session = false ∨ s.width = 0 ∨ s.height = 0 ∨ s.formats = [] ∨
      cb.pickShmFormatCb = none ∨
      ∃ pick, cb.pickShmFormatCb = some pick ∧ (pick s.formats (some 0)).1 = false) :
    ImageCopyCaptureSession.handleDone cb env (s, o) =
      (s, ImageCopyCaptureSession.callStopped cb o) := by
  unfold ImageCopyCaptureSession.handleDone
  simp only
  by_cases h1 : s.session = false
  · simp [h1]
  by_cases h2 : s.width = 0 ∨ s.height = 0
  · simp [h1, h2]
  by_cases h3 : s.formats = []
  · simp [h1, h2, h3]
  simp only [h1, h2, h3, if_false]
  rcases h with h | h | h | h | h | ⟨pick, hp, hpk⟩
  · exact absurd h h1
  · exact absurd (Or.inl h) h2
  · exact absurd (Or.inr h) h2
  · exact absurd h h3
  · simp [h]
  · simp [hp, hpk]

/-- A `done` on which a format is chosen: it stores the format, sets
`constraintsReady`, and then either fails to allocate the pool and calls the
stopped callback, or makes the buffer and calls `createFrame`. -/
theorem handleDone_picked {σ : Type} (cb : SessionCallbacks σ) (env : Allocation)
    (s : ImageCopyCaptureSession) (o : σ)
    (pick : List Nat → Option Nat → Bool × Option Nat)
    (hs : s.session = true) (hw : s.width ≠ 0) (hh : s.height ≠ 0) (hf : s.formats ≠ [])
    (hp : cb.pickShmFormatCb = some pick) (hpk : (pick s.formats (some 0)).1 = true) :
    ImageCopyCaptureSession.handleDone cb env (s, o) =
      if s.pool = some (ImageCopyCaptureSession.poolSize s.width s.height) ∨
          (env.memfd_create = true ∧ env.ftruncate = true) then
        (ImageCopyCaptureSession.createFrame env
          { s with format := (pick s.formats (some 0)).2.getD 0, constraintsReady := true,
                   shm := true,
                   pool := some (ImageCopyCaptureSession.poolSize s.width s.height),
                   buffer :=
                     if env.createBuffer then
                       some ⟨s.buffersCreated, 0, s.width, s.height, s.width * 4 % 2 ^ 32,
                         (pick s.formats (some 0)).2.getD 0⟩
                     else none,
                   buffersCreated :=
                     if env.createBuffer then s.buffersCreated + 1 else s.buffersCreated }, o)
      else
        ({ s with format := (pick s.formats (some 0)).2.getD 0, constraintsReady := true,
                  shm := true, pool := none },
          ImageCopyCaptureSession.callStopped cb o) := by
  unfold ImageCopyCaptureSession.handleDone ImageCopyCaptureSession.initPool
  have hwh : ¬(s.width = 0 ∨ s.height = 0) := by tauto
  simp only [hs, hwh, hf, hp, hpk, Bool.true_eq_false, if_false]
  rcases env with ⟨m, t, b, f⟩
  by_cases hpool : s.pool = some (ImageCopyCaptureSession.poolSize s.width s.height)
  · cases b <;> simp [hpool]
  · cases m <;> cases t <;> cases b <;> simp [hpool]

/-- When `handleDone` leaves `constraintsReady` set on a session where it was
not, the stored format is the one the picker wrote for the candidate list of
the session. -/
theorem handleDone_format {σ : Type} (cb : SessionCallbacks σ) (env : Allocation)
    (s : ImageCopyCaptureSession) (o : σ) (hc : s.constraintsReady = false)
    (h : (ImageCopyCaptureSession.handleDone cb env (s, o)).1.constraintsReady = true) :
    ∃ pick, cb.pickShmFormatCb = some pick ∧ (pick s.formats (some 0)).1 = true ∧
      (ImageCopyCaptureSession.handleDone cb env (s, o)).1.format =
        (pick s.formats (some 0)).2.getD 0 := by
  by_cases he : s.session = false ∨ s.width = 0 ∨ s.height = 0 ∨ s.formats = [] ∨
      cb.pickShmFormatCb = none ∨
      ∃ pick, cb.pickShmFormatCb = some pick ∧ (pick s.formats (some 0)).1 = false
  · rw [handleDone_early cb env s o he] at h
    simp [hc] at h
  · simp only [not_or, not_exists, not_and] at he
    obtain ⟨h1, h2, h3, h4, h5, h6⟩ := he
    cases hp : cb.pickShmFormatCb with
    | none => exact absurd hp h5
    | some pick =>
      have hpk : (pick s.formats (some 0)).1 = true := by
        have := h6 pick hp
        simpa using this
      refine ⟨pick, rfl, hpk, ?_⟩
      rw [handleDone_picked cb env s o pick (by simpa using h1) h2 h3 h4 hp hpk]
      split_ifs <;> simp [(createFrame_fields env _).2.2.2.2.2.1]

/-- C16: on a session whose size is known, a `buffer_size` event with another
width or height leaves the candidate list and the damage empty,
`constraintsReady` false and no Frame, Buffer or Pool; the candidate list at
the following `done` is then the list of the `shm_format` events received
since, and the format that `done` chooses is the one the picker gives for
that list. -/
theorem C16_buffer_size_resets {σ : Type} (cb : SessionCallbacks σ)
    (s : ImageCopyCaptureSession) (o : σ) (width height : Nat)
    (hs : s.hasSize = true) (hd : width ≠ s.width ∨ height ≠ s.height) :
    (s.handleBufferSize width height).formats = [] ∧
    (s.handleBufferSize width height).damage = ∅ ∧
    (s.handleBufferSize width height).constraintsReady = false ∧
    (s.handleBufferSize width height).frame = none ∧
    (s.handleBufferSize width height).buffer = none ∧
    (s.handleBufferSize width height).pool = none ∧
    (∀ l : List Nat,
      (ImageCopyCaptureSession.handleAll cb
        (SessionEvent.buffer_size width height :: l.map SessionEvent.shm_format)
        (s, o)).1.formats = l) ∧
    (∀ (l : List Nat) (env : Allocation),
      (ImageCopyCaptureSession.handleAll cb
        (SessionEvent.buffer_size width height :: l.map SessionEvent.shm_format ++
          [SessionEvent.done env]) (s, o)).1.constraintsReady = true →
      ∃ pick, cb.pickShmFormatCb = some pick ∧ (pick l (some 0)).1 = true ∧
        (ImageCopyCaptureSession.handleAll cb
          (SessionEvent.buffer_size width height :: l.map SessionEvent.shm_format ++
            [SessionEvent.done env]) (s, o)).1.format = (pick l (some 0)).2.getD 0) := by
  have hb : (s.handleBufferSize width height).formats = [] ∧
      (s.handleBufferSize width height).damage = ∅ ∧
      (s.handleBufferSize width height).constraintsReady = false ∧
      (s.handleBufferSize width height).frame = none ∧
      (s.handleBufferSize width height).buffer = none ∧
      (s.handleBufferSize width height).pool = none := by
    unfold ImageCopyCaptureSession.handleBufferSize ImageCopyCaptureSession.destroyFrame
    simp only [hs, hd, and_self, if_true, Region.clear]
    cases hfr : s.frame <;> simp [hfr]
  obtain ⟨b1, b2, b3, b4, b5, b6⟩ := hb
  have hl : ∀ l : List Nat,
      ImageCopyCaptureSession.handleAll cb
        (SessionEvent.buffer_size width height :: l.map SessionEvent.shm_format) (s, o) =
      ({ s.handleBufferSize width height with formats := l }, o) := by
    intro l
    have := handleAll_shm_format cb l (s.handleBufferSize width height) o
    rw [b1, List.nil_append] at this
    simpa [ImageCopyCaptureSession.handleAll, ImageCopyCaptureSession.handle] using this
  refine ⟨b1, b2, b3, b4, b5, b6, fun l => by rw [hl], ?_⟩
  intro l env h
  have e : ImageCopyCaptureSession.handleAll cb
      (SessionEvent.buffer_size width height :: l.map SessionEvent.shm_format ++
        [SessionEvent.done env]) (s, o) =
      ImageCopyCaptureSession.handleDone cb env
        ({ s.handleBufferSize width height with formats := l }, o) := by
    have := hl l
    simp only [ImageCopyCaptureSession.handleAll, List.cons_append, List.foldl_cons,
      List.foldl_append, List.foldl_nil] at this ⊢
    rw [this]
    rfl
  rw [e] at h ⊢
  exact handleDone_format cb env
    { s.handleBufferSize width height with formats := l } o b3 h



/-- C16 on a session that knows the size 2 by 2 and holds the candidate 7, for
a `buffer_size` of 3 by 2. -/
theorem C16_buffer_size_resets_witness :
    ((((ImageCopyCaptureSession.new true).handleBufferSize 2 2).handleShmFormat 7).handleBufferSize
      3 2).formats = [] ∧
    (∀ l : List Nat,
      (ImageCopyCaptureSession.handleAll (recording (some (pickShmFormat wl)))
        (SessionEvent.buffer_size 3 2 :: l.map SessionEvent.shm_format)
        (((ImageCopyCaptureSession.new true).handleBufferSize 2 2).handleShmFormat 7,
          [])).1.formats = l) :=
  have h := C16_buffer_size_resets (recording (some (pickShmFormat wl)))
    (((ImageCopyCaptureSession.new true).handleBufferSize 2 2).handleShmFormat 7) [] 3 2
    (by decide) (by decide)
  ⟨h.1, h.2.2.2.2.2.2.1⟩

/-- The stopped callback of a recording observer adds one call. -/
theorem callStopped_recording (pick : Option (List Nat → Option Nat → Bool × Option Nat))
    (o : List SessionCall) :
    ImageCopyCaptureSession.callStopped (recording pick) o = o ++ [SessionCall.stopped] := rfl

/-- C18 as stated fails: when only the pool allocation fails (`memfd_create`
fails on a fresh session that received a size and a supported format),
`handleDone` calls the stopped callback but leaves `constraintsReady` true and
`failed` false; and a `done` on a fresh session, whose size is unknown, leaves
`failed` false. -/
theorem C18_counterexample :
    (ImageCopyCaptureSession.handleAll (recording (some (pickShmFormat wl)))
      [.buffer_size 2 2, .shm_format wl.XRGB8888, .done ⟨false, true, true, true⟩]
      (ImageCopyCaptureSession.new true, [])).1.constraintsReady = true ∧
    (ImageCopyCaptureSession.handleAll (recording (some (pickShmFormat wl)))
      [.buffer_size 2 2, .shm_format wl.XRGB8888, .done ⟨false, true, true, true⟩]
      (ImageCopyCaptureSession.new true, [])).1.failed = false ∧
    (ImageCopyCaptureSession.handleAll (recording (some (pickShmFormat wl)))
      [.buffer_size 2 2, .shm_format wl.XRGB8888, .done ⟨false, true, true, true⟩]
      (ImageCopyCaptureSession.new true, [])).2 = [SessionCall.stopped] ∧
    (ImageCopyCaptureSession.handleDone (recording (some (pickShmFormat wl))) Allocation.ok
      (ImageCopyCaptureSession.new true, [])).1.failed = false ∧
    (ImageCopyCaptureSession.handleDone (recording (some (pickShmFormat wl))) Allocation.ok
      (ImageCopyCaptureSession.new true, [])).2 = [SessionCall.stopped] := by
  decide

/-- C18 (amended): with a live session handle, `handleDone` fails when the
width or height is 0, the candidate list is empty, no candidate is accepted by
the picker, or the pool has to be allocated and the allocation fails.  In each
case the stopped callback is called once, no Frame is created and the `failed`
flag is not changed; in the first three cases the session is left as it was,
and when only the allocation fails the chosen format is stored,
`constraintsReady` is true and there is no pool. -/
theorem C18_handleDone_failure {σ : Type} (cb : SessionCallbacks σ) (env : Allocation)
    (s : ImageCopyCaptureSession) (o : σ) (hs : s.session = true)
    (hfail : (s.width = 0 ∨ s.height = 0) ∨ s.formats = [] ∨
      (cb.pickShmFormatCb = none ∨
        ∃ pick, cb.pickShmFormatCb = some pick ∧ (pick s.formats (some 0)).1 = false) ∨
      (s.pool ≠ some (ImageCopyCaptureSession.poolSize s.width s.height) ∧
        (env.memfd_create = false ∨ env.ftruncate = false))) :
    (ImageCopyCaptureSession.handleDone cb env (s, o)).2 =
      ImageCopyCaptureSession.callStopped cb o ∧
    (ImageCopyCaptureSession.handleDone cb env (s, o)).1.frame = s.frame ∧
    (ImageCopyCaptureSession.handleDone cb env (s, o)).1.framesCreated = s.framesCreated ∧
    (ImageCopyCaptureSession.handleDone cb env (s, o)).1.failed = s.failed ∧
    ((s.width = 0 ∨ s.height = 0) ∨ s.formats = [] ∨
      (cb.pickShmFormatCb = none ∨
        ∃ pick, cb.pickShmFormatCb = some pick ∧ (pick s.formats (some 0)).1 = false) →
      (ImageCopyCaptureSession.handleDone cb env (s, o)).1 = s) ∧
    (¬((s.width = 0 ∨ s.height = 0) ∨ s.formats = [] ∨
      (cb.pickShmFormatCb = none ∨
        ∃ pick, cb.pickShmFormatCb = some pick ∧ (pick s.formats (some 0)).1 = false)) →
      (ImageCopyCaptureSession.handleDone cb env (s, o)).1.constraintsReady = true ∧
      (ImageCopyCaptureSession.handleDone cb env (s, o)).1.pool = none ∧
      ∃ pick, cb.pickShmFormatCb = some pick ∧
        (ImageCopyCaptureSession.handleDone cb env (s, o)).1.format =
          (pick s.formats (some 0)).2.getD 0) := by
  by_cases he : (s.width = 0 ∨ s.height = 0) ∨ s.formats = [] ∨
      (cb.pickShmFormatCb = none ∨
        ∃ pick, cb.pickShmFormatCb = some pick ∧ (pick s.formats (some 0)).1 = false)
  · have hearly : ImageCopyCaptureSession.handleDone cb env (s, o) =
        (s, ImageCopyCaptureSession.callStopped cb o) := by
      apply handleDone_early
      tauto
    rw [hearly]
    exact ⟨rfl, rfl, rfl, rfl, fun _ => rfl, fun h => absurd he h⟩
  · have hD : s.pool ≠ some (ImageCopyCaptureSession.poolSize s.width s.height) ∧
        (env.memfd_create = false ∨ env.ftruncate = false) := by
      rcases hfail with h | h | h | h
      · exact absurd (Or.inl h) he
      · exact absurd (Or.inr (Or.inl h)) he
      · exact absurd (Or.inr (Or.inr h)) he
      · exact h
    simp only [not_or, not_exists, not_and] at he
    obtain ⟨⟨h2, h3⟩, h4, h5, h6⟩ := he
    cases hp : cb.pickShmFormatCb with
    | none => exact absurd hp h5
    | some pick =>
      have hpk : (pick s.formats (some 0)).1 = true := by
        have := h6 pick hp
        simpa using this
      have hcond : ¬(s.pool = some (ImageCopyCaptureSession.poolSize s.width s.height) ∨
          (env.memfd_create = true ∧ env.ftruncate = true)) := by
        rcases hD with ⟨hpool, hm | ht⟩
        · simp [hpool, hm]
        · simp [hpool, ht]
      rw [handleDone_picked cb env s o pick hs h2 h3 h4 hp hpk, if_neg hcond]
      refine ⟨rfl, rfl, rfl, rfl, ?_, fun _ => ⟨rfl, rfl, pick, rfl, rfl⟩⟩
      intro h
      rcases h with (h | h) | h | h | ⟨pk, hpk1, hpk2⟩
      · exact absurd h h2
      · exact absurd h h3
      · exact absurd h h4
      · exact absurd h (by simp)
      · have : pick = pk := by simpa using hpk1
        subst this
        rw [hpk] at hpk2
        exact absurd hpk2 (by decide)

/-- C18 on a session that received the size 2 by 2 and the format XRGB8888,
when `memfd_create` fails. -/
theorem C18_handleDone_failure_witness :
    (ImageCopyCaptureSession.handleDone (recording (some (pickShmFormat wl)))
      ⟨false, true, true, true⟩
      (((ImageCopyCaptureSession.new true).handleBufferSize 2 2).handleShmFormat wl.XRGB8888,
        [])).2 = ImageCopyCaptureSession.callStopped (recording (some (pickShmFormat wl))) [] ∧
    (ImageCopyCaptureSession.handleDone (recording (some (pickShmFormat wl)))
      ⟨false, true, true, true⟩
      (((ImageCopyCaptureSession.new true).handleBufferSize 2 2).handleShmFormat wl.XRGB8888,
        [])).1.frame =
      (((ImageCopyCaptureSession.new true).handleBufferSize 2 2).handleShmFormat
        wl.XRGB8888).frame :=
  have h := C18_handleDone_failure (recording (some (pickShmFormat wl)))
    ⟨false, true, true, true⟩
    (((ImageCopyCaptureSession.new true).handleBufferSize 2 2).handleShmFormat wl.XRGB8888) []
    (by decide) (Or.inr (Or.inr (Or.inr ⟨by decide, Or.inl rfl⟩)))
  ⟨h.1, h.2.1⟩


/-- What `destroyFrame` does to the fields. -/
theorem destroyFrame_fields (s : ImageCopyCaptureSession) :
    s.destroyFrame.frame = none ∧ s.destroyFrame.session = s.session ∧
    s.destroyFrame.framesCreated = s.framesCreated ∧
    s.destroyFrame.pool = s.pool ∧ s.destroyFrame.buffer = s.buffer ∧
    s.destroyFrame.constraintsReady = s.constraintsReady := by
  unfold ImageCopyCaptureSession.destroyFrame
  cases h : s.frame <;> simp [h]

/-- Without a session handle `createFrame` does nothing. -/
theorem createFrame_no_session (env : Allocation) (s : ImageCopyCaptureSession)
    (h : s.session = false) : ImageCopyCaptureSession.createFrame env s = s := by
  rw [createFrame_eq]
  cases s.buffer <;> simp [h]

/-- One event handled by a session that has no session handle and no Frame:
it still has neither, creates no Frame, and the stopped callback is called
once if the event is `done` or `stopped` and not at all otherwise. -/
theorem handle_after_stopped (pick : Option (List Nat → Option Nat → Bool × Option Nat))
    (s : ImageCopyCaptureSession) (o : List SessionCall) (e : SessionEvent)
    (hs : s.session = false) (hf : s.frame = none) :
    (ImageCopyCaptureSession.handle (recording pick) (s, o) e).1.session = false ∧
    (ImageCopyCaptureSession.handle (recording pick) (s, o) e).1.frame = none ∧
    (ImageCopyCaptureSession.handle (recording pick) (s, o) e).1.framesCreated =
      s.framesCreated ∧
    stoppedCalls (ImageCopyCaptureSession.handle (recording pick) (s, o) e).2 =
      stoppedCalls o + (if e.isDoneOrStopped then 1 else 0) := by
  cases e with
  | buffer_size w h =>
    simp only [ImageCopyCaptureSession.handle, ImageCopyCaptureSession.handleBufferSize,
      ImageCopyCaptureSession.destroyFrame, hf, SessionEvent.isDoneOrStopped,
      Bool.false_eq_true, if_false, Nat.add_zero]
    by_cases hc : s.hasSize = true ∧ (w ≠ s.width ∨ h ≠ s.height) <;> simp [hc, hs, hf]
  | shm_format f =>
    simp [ImageCopyCaptureSession.handle, ImageCopyCaptureSession.handleShmFormat, hs, hf,
      SessionEvent.isDoneOrStopped]
  | dmabuf_device => simp [ImageCopyCaptureSession.handle, hs, hf, SessionEvent.isDoneOrStopped]
  | dmabuf_format f =>
    simp [ImageCopyCaptureSession.handle, hs, hf, SessionEvent.isDoneOrStopped]
  | done env =>
    simp only [ImageCopyCaptureSession.handle, SessionEvent.isDoneOrStopped]
    rw [handleDone_early (recording pick) env s o (Or.inl hs), callStopped_recording]
    simp [hs, hf, stoppedCalls, List.count_append]
  | stopped =>
    simp only [ImageCopyCaptureSession.handle, ImageCopyCaptureSession.handleStopped,
      ImageCopyCaptureSession.destroyFrame, hf, callStopped_recording,
      SessionEvent.isDoneOrStopped]
    simp [stoppedCalls, List.count_append]
  | transform t => simp [ImageCopyCaptureSession.handle, hs, hf, SessionEvent.isDoneOrStopped]
  | damage x y w h =>
    simp [ImageCopyCaptureSession.handle, ImageCopyCaptureSession.handleFrameDamage, hs, hf,
      SessionEvent.isDoneOrStopped]
  | presentation_time a b c =>
    simp [ImageCopyCaptureSession.handle, hs, hf, SessionEvent.isDoneOrStopped]
  | ready env =>
    simp only [ImageCopyCaptureSession.handle, ImageCopyCaptureSession.handleFrameReady,
      SessionEvent.isDoneOrStopped, Bool.false_eq_true, if_false, Nat.add_zero]
    by_cases hc : s.constraintsReady = false ∨ s.pool = none
    · simp [hc, hs, hf]
    · simp only [hc, if_false]
      rw [createFrame_no_session]
      · simp [ImageCopyCaptureSession.destroyFrame, hf, hs, recording, stoppedCalls,
          List.count_append, List.count_cons]
      · simp [ImageCopyCaptureSession.destroyFrame, hf, hs]
  | failed reason =>
    simp [ImageCopyCaptureSession.handle, ImageCopyCaptureSession.handleFrameFailed,
      ImageCopyCaptureSession.destroyFrame, hs, hf, SessionEvent.isDoneOrStopped]

/-- A sequence of events handled by a session that has no session handle and
no Frame. -/
theorem handleAll_after_stopped (pick : Option (List Nat → Option Nat → Bool × Option Nat))
    (events : List SessionEvent) (s : ImageCopyCaptureSession) (o : List SessionCall)
    (hs : s.session = false) (hf : s.frame = none) :
    (ImageCopyCaptureSession.handleAll (recording pick) events (s, o)).1.session = false ∧
    (ImageCopyCaptureSession.handleAll (recording pick) events (s, o)).1.frame = none ∧
    (ImageCopyCaptureSession.handleAll (recording pick) events (s, o)).1.framesCreated =
      s.framesCreated ∧
    stoppedCalls (ImageCopyCaptureSession.handleAll (recording pick) events (s, o)).2 =
      stoppedCalls o + events.countP SessionEvent.isDoneOrStopped := by
  induction events generalizing s o with
  | nil => simp [ImageCopyCaptureSession.handleAll, hs, hf]
  | cons e es ih =>
    obtain ⟨h1, h2, h3, h4⟩ := handle_after_stopped pick s o e hs hf
    have := ih (ImageCopyCaptureSession.handle (recording pick) (s, o) e).1
      (ImageCopyCaptureSession.handle (recording pick) (s, o) e).2 h1 h2
    simp only [ImageCopyCaptureSession.handleAll, List.foldl_cons] at this ⊢
    obtain ⟨i1, i2, i3, i4⟩ := this
    refine ⟨i1, i2, i3.trans h3, ?_⟩
    rw [i4, h4, List.countP_cons]
    cases e.isDoneOrStopped
    · simp
    · simp only [if_true, true_eq_decide_iff]
      omega

/-- Without a Frame and without a session handle no event is delivered. -/
theorem dispatchAll_dead {σ : Type} (cb : SessionCallbacks σ) (events : List SessionEvent)
    (s : ImageCopyCaptureSession) (o : σ) (hf : s.frame = none) (hs : s.session = false) :
    ImageCopyCaptureSession.dispatchAll cb events (s, o) = (s, o) := by
  induction events with
  | nil => rfl
  | cons e es ih =>
    have h1 : ImageCopyCaptureSession.dispatch cb (s, o) e = (s, o) := by
      unfold ImageCopyCaptureSession.dispatch
      cases e.isFrameEvent <;> simp [hf, hs]
    simp only [ImageCopyCaptureSession.dispatchAll, List.foldl_cons] at ih ⊢
    rw [h1]
    exact ih

/-- C19: from any session state, `handleStopped` leaves no Frame and no
session handle and calls the stopped callback once.  Afterwards the connection
delivers no event to the session: its listeners are attached to the session
handle and to the Frame, which are both destroyed, so the session stays as it
is, no Frame is created and the stopped callback is not called again.  No
Frame would be created either by any events passed to the handlers by hand. -/
theorem C19_stopped_is_final (pick : Option (List Nat → Option Nat → Bool × Option Nat))
    (s : ImageCopyCaptureSession) (o : List SessionCall) (events : List SessionEvent) :
    (ImageCopyCaptureSession.handleStopped (recording pick) (s, o)).1.frame = none ∧
    (ImageCopyCaptureSession.handleStopped (recording pick) (s, o)).1.session = false ∧
    (ImageCopyCaptureSession.handleStopped (recording pick) (s, o)).1.framesCreated =
      s.framesCreated ∧
    (ImageCopyCaptureSession.handleStopped (recording pick) (s, o)).2 =
      o ++ [SessionCall.stopped] ∧
    ImageCopyCaptureSession.dispatchAll (recording pick) events
      (ImageCopyCaptureSession.handleStopped (recording pick) (s, o)) =
      ImageCopyCaptureSession.handleStopped (recording pick) (s, o) ∧
    (ImageCopyCaptureSession.dispatchAll (recording pick) events
      (ImageCopyCaptureSession.handleStopped (recording pick) (s, o))).1.frame = none ∧
    (ImageCopyCaptureSession.dispatchAll (recording pick) events
      (ImageCopyCaptureSession.handleStopped (recording pick) (s, o))).1.framesCreated =
        s.framesCreated ∧
    stoppedCalls (ImageCopyCaptureSession.dispatchAll (recording pick) events
      (ImageCopyCaptureSession.handleStopped (recording pick) (s, o))).2 =
        stoppedCalls o + 1 ∧
    (ImageCopyCaptureSession.handleAll (recording pick) events
      (ImageCopyCaptureSession.handleStopped (recording pick) (s, o))).1.frame = none ∧
    (ImageCopyCaptureSession.handleAll (recording pick) events
      (ImageCopyCaptureSession.handleStopped (recording pick) (s, o))).1.framesCreated =
        s.framesCreated := by
  have e : ImageCopyCaptureSession.handleStopped (recording pick) (s, o) =
      ({ ({ s with failed := true } : ImageCopyCaptureSession).destroyFrame with
          session := false }, o ++ [SessionCall.stopped]) := rfl
  obtain ⟨d1, d2, d3, -⟩ := destroyFrame_fields { s with failed := true }
  rw [e]
  obtain ⟨a1, a2, a3, a4⟩ := handleAll_after_stopped pick events
    { ({ s with failed := true } : ImageCopyCaptureSession).destroyFrame with session := false }
    (o ++ [SessionCall.stopped]) rfl d1
  have hdead := dispatchAll_dead (recording pick) events
    { ({ s with failed := true } : ImageCopyCaptureSession).destroyFrame with session := false }
    (o ++ [SessionCall.stopped]) d1 rfl
  rw [hdead]
  refine ⟨d1, rfl, d3, rfl, rfl, d1, d3, ?_, a2, a3.trans d3⟩
  simp [stoppedCalls, List.count_append]

/-- C20 as stated fails: a second `done` arrives while the Frame made by the
first is still live and a damage rectangle has been received.  Before it the
session handle is live, the size is 2 by 2, the picker succeeds with XRGB8888
and the pool is there; after it the Frame is still the one attached to the
first buffer, not to the new one, and the pending damage is not empty. -/
theorem C20_counterexample :
    (ImageCopyCaptureSession.handleAll (recording (some (pickShmFormat wl)))
      [.buffer_size 2 2, .shm_format wl.XRGB8888, .done Allocation.ok, .damage 0 0 1 1]
      (ImageCopyCaptureSession.new true, [])).1.session = true ∧
    pickShmFormat wl (ImageCopyCaptureSession.handleAll (recording (some (pickShmFormat wl)))
      [.buffer_size 2 2, .shm_format wl.XRGB8888, .done Allocation.ok, .damage 0 0 1 1]
      (ImageCopyCaptureSession.new true, [])).1.formats (some 0) = (true, some wl.XRGB8888) ∧
    (ImageCopyCaptureSession.handleAll (recording (some (pickShmFormat wl)))
      [.buffer_size 2 2, .shm_format wl.XRGB8888, .done Allocation.ok, .damage 0 0 1 1,
        .done Allocation.ok]
      (ImageCopyCaptureSession.new true, [])).1.damage = {(0, 0)} ∧
    (ImageCopyCaptureSession.handleAll (recording (some (pickShmFormat wl)))
      [.buffer_size 2 2, .shm_format wl.XRGB8888, .done Allocation.ok, .damage 0 0 1 1,
        .done Allocation.ok]
      (ImageCopyCaptureSession.new true, [])).1.buffer = some ⟨1, 0, 2, 2, 8, wl.XRGB8888⟩ ∧
    (ImageCopyCaptureSession.handleAll (recording (some (pickShmFormat wl)))
      [.buffer_size 2 2, .shm_format wl.XRGB8888, .done Allocation.ok, .damage 0 0 1 1,
        .done Allocation.ok]
      (ImageCopyCaptureSession.new true, [])).1.frame =
        some ⟨⟨0, 0, 2, 2, 8, wl.XRGB8888⟩, 0, 0, 2, 2⟩ ∧
    (ImageCopyCaptureSession.handleAll (recording (some (pickShmFormat wl)))
      [.buffer_size 2 2, .shm_format wl.XRGB8888, .done Allocation.ok, .damage 0 0 1 1,
        .done Allocation.ok]
      (ImageCopyCaptureSession.new true, [])).2 = [] := by
  decide

/-- C20 (amended): when `done` is handled with a live session handle, no live
Frame, non-zero width and height whose byte size fits in 32 bits, a non-empty
candidate list on which the picker succeeds with format `f`, a succeeding pool
allocation and the buffer and frame objects created, the session ends with
`constraintsReady` true, chosen format `f`, a Pool of `width * height * 4`
bytes, a Buffer of width by height with stride `width * 4` and format `f`, a
live Frame attached to that buffer with a capture request for
`(0, 0, width, height)`, and empty pending damage; the stopped callback is
not called. -/
theorem C20_handleDone_success {σ : Type} (cb : SessionCallbacks σ) (env : Allocation)
    (s : ImageCopyCaptureSession) (o : σ)
    (pick : List Nat → Option Nat → Bool × Option Nat) (f : Nat)
    (hs : s.session = true) (hfr : s.frame = none)
    (hw : s.width ≠ 0) (hh : s.height ≠ 0) (hsz : s.width * s.height * 4 < 2 ^ 32)
    (hf : s.formats ≠ [])
    (hp : cb.pickShmFormatCb = some pick) (hpk : pick s.formats (some 0) = (true, some f))
    (hm : env.memfd_create = true) (ht : env.ftruncate = true)
    (hb : env.createBuffer = true) (hc : env.create_frame = true) :
    (ImageCopyCaptureSession.handleDone cb env (s, o)).2 = o ∧
    (ImageCopyCaptureSession.handleDone cb env (s, o)).1.constraintsReady = true ∧
    (ImageCopyCaptureSession.handleDone cb env (s, o)).1.format = f ∧
    (ImageCopyCaptureSession.handleDone cb env (s, o)).1.pool =
      some (s.width * s.height * 4) ∧
    (ImageCopyCaptureSession.handleDone cb env (s, o)).1.buffer =
      some ⟨s.buffersCreated, 0, s.width, s.height, s.width * 4, f⟩ ∧
    (ImageCopyCaptureSession.handleDone cb env (s, o)).1.frame =
      some ⟨⟨s.buffersCreated, 0, s.width, s.height, s.width * 4, f⟩,
        0, 0, s.width, s.height⟩ ∧
    (ImageCopyCaptureSession.handleDone cb env (s, o)).1.damage = ∅ ∧
    (ImageCopyCaptureSession.handleDone cb env (s, o)).1.framesCreated =
      s.framesCreated + 1 := by
  have hpk1 : (pick s.formats (some 0)).1 = true := by rw [hpk]
  have hpk2 : (pick s.formats (some 0)).2.getD 0 = f := by rw [hpk]; rfl
  have hpos : 0 < s.height := Nat.pos_of_ne_zero hh
  have hposw : 0 < s.width := Nat.pos_of_ne_zero hw
  have hwh : s.width * s.height < 2 ^ 32 := by omega
  have hw4 : s.width * 4 < 2 ^ 32 := by
    have : s.width * 1 ≤ s.width * s.height := Nat.mul_le_mul_left _ hpos
    omega
  have hps : ImageCopyCaptureSession.poolSize s.width s.height = s.width * s.height * 4 := by
    unfold ImageCopyCaptureSession.poolSize
    rw [Nat.mod_eq_of_lt hwh, Nat.mod_eq_of_lt hsz]
  rw [handleDone_picked cb env s o pick hs hw hh hf hp hpk1]
  simp only [hm, ht, and_self, or_true, if_true, hb, hpk2, hps, Nat.mod_eq_of_lt hw4]
  rw [createFrame_eq]
  simp [hs, hfr, hc]

/-- C20 on a fresh session that received the size 2 by 2 and the format
XRGB8888. -/
theorem C20_handleDone_success_witness :
    (ImageCopyCaptureSession.handleDone (recording (some (pickShmFormat wl))) Allocation.ok
      (((ImageCopyCaptureSession.new true).handleBufferSize 2 2).handleShmFormat wl.XRGB8888,
        [])).2 = [] ∧
    (ImageCopyCaptureSession.handleDone (recording (some (pickShmFormat wl))) Allocation.ok
      (((ImageCopyCaptureSession.new true).handleBufferSize 2 2).handleShmFormat wl.XRGB8888,
        [])).1.constraintsReady = true ∧
    (ImageCopyCaptureSession.handleDone (recording (some (pickShmFormat wl))) Allocation.ok
      (((ImageCopyCaptureSession.new true).handleBufferSize 2 2).handleShmFormat wl.XRGB8888,
        [])).1.format = wl.XRGB8888 :=
  have h := C20_handleDone_success (recording (some (pickShmFormat wl))) Allocation.ok
    (((ImageCopyCaptureSession.new true).handleBufferSize 2 2).handleShmFormat wl.XRGB8888) []
    (pickShmFormat wl) wl.XRGB8888 (by decide) (by decide) (by decide) (by decide) (by decide)
    (by decide) rfl (by decide) rfl rfl rfl rfl
  ⟨h.1, h.2.1, h.2.2.1⟩


/-! ## Results on the capture manager -/

/-- The effect of `handleDone` on the owner of the callbacks: none, or one call
of the stopped callback. -/
theorem handleDone_effect {σ : Type} (cb : SessionCallbacks σ) (env : Allocation)
    (s : ImageCopyCaptureSession) (o : σ) :
    (ImageCopyCaptureSession.handleDone cb env (s, o)).2 = o ∨
    (ImageCopyCaptureSession.handleDone cb env (s, o)).2 =
      ImageCopyCaptureSession.callStopped cb o := by
  by_cases he : s.session = false ∨ s.width = 0 ∨ s.height = 0 ∨ s.formats = [] ∨
      cb.pickShmFormatCb = none ∨
      ∃ pick, cb.pickShmFormatCb = some pick ∧ (pick s.formats (some 0)).1 = false
  · rw [handleDone_early cb env s o he]
    exact Or.inr rfl
  · simp only [not_or, not_exists, not_and] at he
    obtain ⟨h1, h2, h3, h4, h5, h6⟩ := he
    cases hp : cb.pickShmFormatCb with
    | none => exact absurd hp h5
    | some pick =>
      have hpk : (pick s.formats (some 0)).1 = true := by
        have := h6 pick hp
        simpa using this
      rw [handleDone_picked cb env s o pick (by simpa using h1) h2 h3 h4 hp hpk]
      by_cases hc : s.pool = some (ImageCopyCaptureSession.poolSize s.width s.height) ∨
          (env.memfd_create = true ∧ env.ftruncate = true)
      · rw [if_pos hc]
        exact Or.inl rfl
      · rw [if_neg hc]
        exact Or.inr rfl

/-- The effect of one session event on the manager, for callbacks whose stopped
callback is `stopped` and whose frame-ready callback changes neither the
`active` flag nor the number of stopped calls: either both are unchanged, or
the stopped callback is called once more and `active` is false. -/
theorem session_handle_effect (cb : SessionCallbacks ManagerEffects)
    (hst : cb.stoppedCb = some ImageCopyCaptureManager.stopped)
    (hfr : ∀ f, cb.frameReadyCb = some f → ∀ s o,
      (f s o).active = o.active ∧ (f s o).stoppedCalls = o.stoppedCalls)
    (s : ImageCopyCaptureSession) (o : ManagerEffects) (e : SessionEvent) :
    ((ImageCopyCaptureSession.handle cb (s, o) e).2.stoppedCalls = o.stoppedCalls ∧
      (ImageCopyCaptureSession.handle cb (s, o) e).2.active = o.active) ∨
    ((ImageCopyCaptureSession.handle cb (s, o) e).2.stoppedCalls = o.stoppedCalls + 1 ∧
      (ImageCopyCaptureSession.handle cb (s, o) e).2.active = false) := by
  have hcs : ImageCopyCaptureSession.callStopped cb o = ImageCopyCaptureManager.stopped o := by
    simp [ImageCopyCaptureSession.callStopped, hst]
  have hstop : (ImageCopyCaptureManager.stopped o).stoppedCalls = o.stoppedCalls + 1 ∧
      (ImageCopyCaptureManager.stopped o).active = false := by
    simp [ImageCopyCaptureManager.stopped, ManagerEffects.stoppedCalls, List.count_append]
  cases e with
  | buffer_size w h => exact Or.inl ⟨rfl, rfl⟩
  | shm_format f => exact Or.inl ⟨rfl, rfl⟩
  | dmabuf_device => exact Or.inl ⟨rfl, rfl⟩
  | dmabuf_format f => exact Or.inl ⟨rfl, rfl⟩
  | done env =>
    simp only [ImageCopyCaptureSession.handle]
    rcases handleDone_effect cb env s o with h | h
    · rw [h]; exact Or.inl ⟨rfl, rfl⟩
    · rw [h, hcs]; exact Or.inr hstop
  | stopped =>
    simp only [ImageCopyCaptureSession.handle, ImageCopyCaptureSession.handleStopped, hcs]
    exact Or.inr hstop
  | transform t => exact Or.inl ⟨rfl, rfl⟩
  | damage x y w h => exact Or.inl ⟨rfl, rfl⟩
  | presentation_time a b c => exact Or.inl ⟨rfl, rfl⟩
  | ready env =>
    simp only [ImageCopyCaptureSession.handle, ImageCopyCaptureSession.handleFrameReady]
    by_cases hc : s.constraintsReady = false ∨ s.pool = none
    · rw [if_pos hc]; exact Or.inl ⟨rfl, rfl⟩
    · rw [if_neg hc]
      cases hf : cb.frameReadyCb with
      | none => exact Or.inl ⟨rfl, rfl⟩
      | some f =>
        obtain ⟨h1, h2⟩ := hfr f hf s o
        exact Or.inl ⟨h2, h1⟩
  | failed reason => exact Or.inl ⟨rfl, rfl⟩

/-- The effect of one event on the manager: the stopped callback is called at
most once, and when it is called `active` becomes false. -/
theorem manager_handle_effect (cfg : ManagerCallbacks) (m : ImageCopyCaptureManager)
    (e : ManagerEvent) :
    ((ImageCopyCaptureManager.handle cfg m e).effects.stoppedCalls = m.effects.stoppedCalls ∧
      (ImageCopyCaptureManager.handle cfg m e).effects.active = m.effects.active) ∨
    ((ImageCopyCaptureManager.handle cfg m e).effects.stoppedCalls =
        m.effects.stoppedCalls + 1 ∧
      (ImageCopyCaptureManager.handle cfg m e).effects.active = false) := by
  cases e with
  | session e =>
    cases hs : m.session with
    | none => simp [ImageCopyCaptureManager.handle, hs]
    | some s =>
      simp only [ImageCopyCaptureManager.handle, hs]
      exact session_handle_effect (ImageCopyCaptureManager.sessionCallbacks cfg) rfl
        (by
          intro f hf s o
          simp only [ImageCopyCaptureManager.sessionCallbacks, Option.some.injEq] at hf
          subst hf
          simp [ManagerEffects.stoppedCalls, List.count_append, List.count_cons])
        s m.effects e
  | cursor e =>
    cases hs : m.cursorSession with
    | none => simp [ImageCopyCaptureManager.handle, hs]
    | some cs =>
      simp only [ImageCopyCaptureManager.handle, hs]
      cases e with
      | enter => exact Or.inl ⟨rfl, rfl⟩
      | leave => exact Or.inl ⟨rfl, rfl⟩
      | position x y =>
        simp only [ImageCopyCaptureCursorSession.handle]
        cases cfg.cursorPosCb
        · exact Or.inl ⟨rfl, rfl⟩
        · left
          simp [ManagerEffects.stoppedCalls, List.count_append, List.count_cons]
      | hotspot x y => exact Or.inl ⟨rfl, rfl⟩
  | cursorCapture e =>
    cases hs : m.cursorSession with
    | none => simp [ImageCopyCaptureManager.handle, hs]
    | some cs =>
      cases hc : cs.captureSession with
      | none => simp [ImageCopyCaptureManager.handle, hs, hc]
      | some s =>
        simp only [ImageCopyCaptureManager.handle, hs, hc]
        exact session_handle_effect
          (ImageCopyCaptureManager.cursorCallbacks cfg cs.cursorHotspot) rfl
          (by
            intro f hf s o
            simp only [ImageCopyCaptureManager.cursorCallbacks, Option.some.injEq] at hf
            subst hf
            simp only [ImageCopyCaptureManager.cursorFrameCb]
            split_ifs <;>
              simp [ManagerEffects.stoppedCalls, List.count_append, List.count_cons])
          s m.effects e

/-- C17 as stated fails: on a manager with both sessions, a `stopped` event of
the capture session followed by a `stopped` event of the capture session of the
cursor session calls the caller-supplied stopped callback twice. -/
theorem C17_counterexample :
    ((ImageCopyCaptureManager.new.createSession true).bind
      (ImageCopyCaptureManager.createPointerCursorSession true true)) =
        some ImageCopyCaptureManager.started ∧
    (ImageCopyCaptureManager.handleAll ⟨some (pickShmFormat wl), true⟩
      [.session .stopped, .cursorCapture .stopped]
      ImageCopyCaptureManager.started).effects.calls =
        [ManagerCall.stoppedCb, ManagerCall.stoppedCb] ∧
    (ImageCopyCaptureManager.handleAll ⟨some (pickShmFormat wl), true⟩
      [.session .stopped, .cursorCapture .stopped]
      ImageCopyCaptureManager.started).effects.stoppedCalls = 2 := by
  decide

/-- C17 (amended): for every sequence of events delivered to the objects of a
manager, each event calls the caller-supplied stopped callback at most once,
every `stopped` event of the capture session or of the capture session of the
cursor session calls it once, so that it may be called several times in all;
when it has been called the `active` flag is false, and once false the flag
stays false. -/
theorem C17_stopped_calls (cfg : ManagerCallbacks) (events : List ManagerEvent)
    (m : ImageCopyCaptureManager) :
    m.effects.stoppedCalls ≤
      (ImageCopyCaptureManager.handleAll cfg events m).effects.stoppedCalls ∧
    (ImageCopyCaptureManager.handleAll cfg events m).effects.stoppedCalls ≤
      m.effects.stoppedCalls + events.length ∧
    (m.effects.stoppedCalls <
        (ImageCopyCaptureManager.handleAll cfg events m).effects.stoppedCalls →
      (ImageCopyCaptureManager.handleAll cfg events m).effects.active = false) ∧
    (m.effects.active = false →
      (ImageCopyCaptureManager.handleAll cfg events m).effects.active = false) ∧
    (m.session.isSome = true →
      (ImageCopyCaptureManager.handle cfg m (.session .stopped)).effects.stoppedCalls =
        m.effects.stoppedCalls + 1) ∧
    ((m.cursorSession.bind fun cs => cs.captureSession).isSome = true →
      (ImageCopyCaptureManager.handle cfg m (.cursorCapture .stopped)).effects.stoppedCalls =
        m.effects.stoppedCalls + 1) := by
  have hseq : ∀ (events : List ManagerEvent) (m : ImageCopyCaptureManager),
      m.effects.stoppedCalls ≤
        (ImageCopyCaptureManager.handleAll cfg events m).effects.stoppedCalls ∧
      (ImageCopyCaptureManager.handleAll cfg events m).effects.stoppedCalls ≤
        m.effects.stoppedCalls + events.length ∧
      (m.effects.stoppedCalls <
          (ImageCopyCaptureManager.handleAll cfg events m).effects.stoppedCalls →
        (ImageCopyCaptureManager.handleAll cfg events m).effects.active = false) ∧
      (m.effects.active = false →
        (ImageCopyCaptureManager.handleAll cfg events m).effects.active = false) := by
    intro events
    induction events with
    | nil =>
      intro m
      simp [ImageCopyCaptureManager.handleAll]
    | cons e es ih =>
      intro m
      obtain ⟨i1, i2, i3, i4⟩ := ih (ImageCopyCaptureManager.handle cfg m e)
      simp only [ImageCopyCaptureManager.handleAll, List.foldl_cons, List.length_cons] at *
      rcases manager_handle_effect cfg m e with ⟨h1, h2⟩ | ⟨h1, h2⟩
      · rw [h1] at i1 i2 i3
        rw [h2] at i4
        exact ⟨i1, by omega, i3, i4⟩
      · rw [h1] at i1 i2 i3
        exact ⟨by omega, by omega, fun _ => i4 h2, fun _ => i4 h2⟩
  obtain ⟨s1, s2, s3, s4⟩ := hseq events m
  refine ⟨s1, s2, s3, s4, ?_, ?_⟩
  · intro h
    cases hs : m.session with
    | none => simp [hs] at h
    | some s =>
      simp [ImageCopyCaptureManager.handle, hs, ImageCopyCaptureSession.handle,
        ImageCopyCaptureSession.handleStopped, ImageCopyCaptureSession.callStopped,
        ImageCopyCaptureManager.sessionCallbacks, ImageCopyCaptureManager.stopped,
        ManagerEffects.stoppedCalls, List.count_append]
  · intro h
    cases hs : m.cursorSession with
    | none => simp [hs] at h
    | some cs =>
      cases hc : cs.captureSession with
      | none => simp [hs, hc] at h
      | some s =>
        simp [ImageCopyCaptureManager.handle, hs, hc, ImageCopyCaptureSession.handle,
          ImageCopyCaptureSession.handleStopped, ImageCopyCaptureSession.callStopped,
          ImageCopyCaptureManager.cursorCallbacks, ImageCopyCaptureManager.stopped,
          ManagerEffects.stoppedCalls, List.count_append]

/-! ## The picker and `convertFormat` -/

/-- A successful `pickShmFormat` with a cell to write to leaves one of the six
recognized codes in the cell. -/
theorem pickShmFormat_success (c : ShmFormatCodes) (l : List Nat) (v : Nat)
    (h : (pickShmFormat c l (some v)).1 = true) :
    ∃ f, pickShmFormat c l (some v) = (true, some f) ∧ isRecognized c f = true := by
  rw [pickShmFormat_eq_find] at h ⊢
  cases hfd : l.find? (isCandidate c) with
  | none => simp [hfd] at h
  | some x =>
    have hx : isCandidate c x = true := List.find?_some hfd
    refine ⟨chosenFor c x, by simp [writeOut], ?_⟩
    unfold chosenFor
    by_cases h0 : x = 0
    · simp [h0, isRecognized, isAlphaFormat]
    · simpa [isCandidate, h0] using hx

/-- Candidates announced after a successful one do not change what
`pickShmFormat` answers. -/
theorem pickShmFormat_append (c : ShmFormatCodes) (l l' : List Nat) (out : Option Nat)
    (h : (pickShmFormat c l out).1 = true) :
    pickShmFormat c (l ++ l') out = pickShmFormat c l out := by
  rw [pickShmFormat_eq_find] at h
  rw [pickShmFormat_eq_find, pickShmFormat_eq_find, List.find?_append]
  cases hfd : l.find? (isCandidate c) with
  | none => simp [hfd] at h
  | some x => simp

/-- The function `convertFormat` returns a description exactly for the six
recognized codes. -/
theorem convertFormat_ok_iff (c : ShmFormatCodes) (f : Nat) :
    (∃ pf, convertFormat c f = .ok pf) ↔ isRecognized c f = true := by
  unfold convertFormat
  simp only [isRecognized, isAlphaFormat, isOpaqueFormat, Bool.or_eq_true, beq_iff_eq]
  split_ifs with h1 h2 h3
  · simp; tauto
  · simp; tauto
  · simp; tauto
  · simp; tauto

/-- C28: when `pickShmFormat` succeeds on a candidate list, the format `f` it
writes (also the one written for the sentinel 0) is one of the six recognized
codes, `convertFormat f` returns a description instead of raising, and
`imageCopyBufferEvent` with that format does not drop the frame: it passes it
to `bufferEvent` with that description. -/
theorem C28_picked_format_converts (c : ShmFormatCodes) (l : List Nat) (v : Nat)
    (h : (pickShmFormat c l (some v)).1 = true) :
    ∃ f pf, pickShmFormat c l (some v) = (true, some f) ∧ isRecognized c f = true ∧
      convertFormat c f = .ok pf ∧
      ∀ (outW outH : Nat) (damage : Region) (s : PixelBufferState),
        imageCopyBufferEvent c outW outH damage f s = bufferEvent outW outH damage pf s := by
  obtain ⟨f, hf, hr⟩ := pickShmFormat_success c l v h
  obtain ⟨pf, hpf⟩ := (convertFormat_ok_iff c f).2 hr
  refine ⟨f, pf, hf, hr, hpf, ?_⟩
  intro outW outH damage s
  simp [imageCopyBufferEvent, hpf]

/-- C28 on the list `[7, 0]`: the sentinel 0 is chosen, `ARGB8888` is written,
and `convertFormat` accepts it. -/
theorem C28_picked_format_converts_witness :
    (pickShmFormat wl [7, 0] (some 9)).1 = true ∧
    ∃ f pf, pickShmFormat wl [7, 0] (some 9) = (true, some f) ∧ isRecognized wl f = true ∧
      convertFormat wl f = .ok pf ∧
      ∀ (outW outH : Nat) (damage : Region) (s : PixelBufferState),
        imageCopyBufferEvent wl outW outH damage f s = bufferEvent outW outH damage pf s :=
  ⟨by decide, C28_picked_format_converts wl [7, 0] 9 (by decide)⟩

/-! ## The size of the pool -/

/-- C26 fails on the code: for the negotiated size 32768 by 32768 the product
`width * height * 4` is 2^32, but `handleDone` computes it in 32 bits and asks
`initPool` for a pool of 0 bytes, on which it then places a buffer of 32768
rows of 131072 bytes.  In general the size requested is the product modulo
2^32. -/
theorem C26_pool_size_wraps :
    32768 * 32768 * 4 = 2 ^ 32 ∧
    ImageCopyCaptureSession.poolSize 32768 32768 = 0 ∧
    (ImageCopyCaptureSession.handleAll (recording (some (pickShmFormat wl)))
      [.buffer_size 32768 32768, .shm_format wl.XRGB8888, .done Allocation.ok]
      (ImageCopyCaptureSession.new true, [])).1.pool = some 0 ∧
    (ImageCopyCaptureSession.handleAll (recording (some (pickShmFormat wl)))
      [.buffer_size 32768 32768, .shm_format wl.XRGB8888, .done Allocation.ok]
      (ImageCopyCaptureSession.new true, [])).1.buffer =
        some ⟨0, 0, 32768, 32768, 131072, wl.XRGB8888⟩ ∧
    (∀ w h : Nat, ImageCopyCaptureSession.poolSize w h = w * h * 4 % 2 ^ 32) := by
  refine ⟨by norm_num, by decide, by decide, by decide, ?_⟩
  intro w h
  unfold ImageCopyCaptureSession.poolSize
  omega

/-! ## Channel order of the two decoders -/

/-- C29 fails on the code for four of the six layouts.  For `ARGB8888` and
`XRGB8888` the loop of `convertCursorBuffer` reads red, green and blue from the
bytes 2, 1, 0, where the description of `convertFormat` places them.  For
`RGBA8888` and `RGBX8888` the loop reads them from the bytes 0, 1, 2 while the
description places them at 3, 2, 1; for `ABGR8888` and `XBGR8888` the loop
reads them from 3, 2, 1 while the description places them at 0, 1, 2.  So the
one `RGBX8888` pixel with bytes 10, 20, 30, 255 comes out of
`convertCursorBuffer` with red 10, the byte at which the description has no
channel. -/
theorem C29_channel_offsets_differ :
    cursorChannelOffsets wl wl.ARGB8888 = (2, 1, 0) ∧
    formatChannelOffsets wl wl.ARGB8888 = some (2, 1, 0) ∧
    cursorChannelOffsets wl wl.XRGB8888 = (2, 1, 0) ∧
    formatChannelOffsets wl wl.XRGB8888 = some (2, 1, 0) ∧
    cursorChannelOffsets wl wl.RGBA8888 = (0, 1, 2) ∧
    formatChannelOffsets wl wl.RGBA8888 = some (3, 2, 1) ∧
    cursorChannelOffsets wl wl.RGBX8888 = (0, 1, 2) ∧
    formatChannelOffsets wl wl.RGBX8888 = some (3, 2, 1) ∧
    cursorChannelOffsets wl wl.ABGR8888 = (3, 2, 1) ∧
    formatChannelOffsets wl wl.ABGR8888 = some (0, 1, 2) ∧
    cursorChannelOffsets wl wl.XBGR8888 = (3, 2, 1) ∧
    formatChannelOffsets wl wl.XBGR8888 = some (0, 1, 2) ∧
    convertCursorBuffer wl (some (memOf [10, 20, 30, 255])) wl.RGBX8888 1 1 [] =
      some [10, 20, 30, 255] := by
  decide

/-! ## The canonical pixel format of the synchronizer -/

/-- The function `syncBuffers` leaves the format and `firstFrame` as they are. -/
theorem syncBuffers_format (outW outH : Nat) (damage : Region) (s : PixelBufferState) :
    (syncBuffers outW outH damage s).format = s.format ∧
    (syncBuffers outW outH damage s).firstFrame = s.firstFrame := by
  unfold syncBuffers
  cases hr : s.resized <;> simp [PixelBufferState.setSize]

/-- After the first frame `bufferEvent` leaves the format as it is. -/
theorem bufferEvent_format_later (outW outH : Nat) (damage : Region) (pf : PixelFormat)
    (s : PixelBufferState) (h : s.firstFrame = false) :
    (bufferEvent outW outH damage pf s).format = s.format := by
  rcases s with ⟨ff, rs, sc, w, ht, fmt, log⟩
  simp only at h
  subst h
  by_cases hd : (outW ≠ w ∨ outH ≠ ht) <;> cases rs <;> cases sc <;>
    simp [bufferEvent, syncBuffers, PixelBufferState.setSize, hd]

/-- The first `bufferEvent` stores the format of its frame. -/
theorem bufferEvent_format_first (outW outH : Nat) (damage : Region) (pf : PixelFormat)
    (s : PixelBufferState) (h : s.firstFrame = true) :
    (bufferEvent outW outH damage pf s).format = pf := by
  rcases s with ⟨ff, rs, sc, w, ht, fmt, log⟩
  simp only at h
  subst h
  cases rs <;> simp [bufferEvent, syncBuffers, PixelBufferState.setSize]

/-- Calls made after the first frame leave the format as it is. -/
theorem syncCalls_format (calls : List SyncCall) (s : PixelBufferState)
    (h : s.firstFrame = false) :
    (syncCalls calls s).format = s.format := by
  induction calls generalizing s with
  | nil => rfl
  | cons call rest ih =>
    cases call with
    | bufferEvent f =>
      have h1 := (bufferEvent_later f.outW f.outH f.damage f.pf s h).1
      have h2 := bufferEvent_format_later f.outW f.outH f.damage f.pf s h
      exact (ih _ h1).trans h2
    | syncBuffers outW outH damage =>
      have h1 := syncBuffers_format outW outH damage s
      exact (ih _ (h1.2.trans h)).trans h1.1

/-- C30: on either backend the first `bufferEvent` sets the canonical format
to the pixel format of its frame, and it is still that format after every
sequence of later calls of `bufferEvent` and `syncBuffers`, whatever pixel
formats and output dimensions (hence resizes) the later frames carry. -/
theorem C30_format_fixed_by_first_frame (screencopyManager : Bool) (first : DeliveredFrame)
    (later : List SyncCall) :
    (bufferEvent first.outW first.outH first.damage first.pf
      (PixelBufferState.init screencopyManager)).format = first.pf ∧
    (syncCalls later (bufferEvent first.outW first.outH first.damage first.pf
      (PixelBufferState.init screencopyManager))).format = first.pf ∧
    (∀ frames : List DeliveredFrame,
      (bufferEvents (first :: frames) (PixelBufferState.init screencopyManager)).format =
        first.pf) := by
  have h1 := bufferEvent_format_first first.outW first.outH first.damage first.pf
    (PixelBufferState.init screencopyManager) rfl
  have h2 := (bufferEvent_first first.outW first.outH first.damage first.pf
    (PixelBufferState.init screencopyManager) rfl).1
  refine ⟨h1, (syncCalls_format later _ h2).trans h1, ?_⟩
  intro frames
  have h3 := syncCalls_format (frames.map SyncCall.bufferEvent) _ h2
  have h4 : ∀ (fs : List DeliveredFrame) (s : PixelBufferState),
      syncCalls (fs.map SyncCall.bufferEvent) s = bufferEvents fs s := by
    intro fs
    induction fs with
    | nil => intro s; rfl
    | cons f fs ih =>
      intro s
      simp only [syncCalls, bufferEvents, List.map_cons, List.foldl_cons] at ih ⊢
      exact ih _
  rw [h4] at h3
  exact h3.trans h1

/-! ## Invariants of the capture session -/

/-- A property of the session kept by every handler holds after every sequence
of events. -/
theorem handleAll_induction {σ : Type} (cb : SessionCallbacks σ)
    (P : ImageCopyCaptureSession → Prop)
    (hstep : ∀ s o e, P s → P (ImageCopyCaptureSession.handle cb (s, o) e).1)
    (events : List SessionEvent) (so : ImageCopyCaptureSession × σ) (h : P so.1) :
    P (ImageCopyCaptureSession.handleAll cb events so).1 := by
  induction events generalizing so with
  | nil => exact h
  | cons e es ih =>
    simp only [ImageCopyCaptureSession.handleAll, List.foldl_cons] at ih ⊢
    exact ih _ (hstep so.1 so.2 e h)

/-- The three outcomes of `handleDone`. -/
theorem handleDone_cases {σ : Type} (cb : SessionCallbacks σ) (env : Allocation)
    (s : ImageCopyCaptureSession) (o : σ) :
    ImageCopyCaptureSession.handleDone cb env (s, o) =
      (s, ImageCopyCaptureSession.callStopped cb o) ∨
    ∃ pick, cb.pickShmFormatCb = some pick ∧ (pick s.formats (some 0)).1 = true ∧
      s.session = true ∧ s.width ≠ 0 ∧ s.height ≠ 0 ∧
      (ImageCopyCaptureSession.handleDone cb env (s, o) =
        (ImageCopyCaptureSession.createFrame env
          { s with format := (pick s.formats (some 0)).2.getD 0, constraintsReady := true,
                   shm := true,
                   pool := some (ImageCopyCaptureSession.poolSize s.width s.height),
                   buffer :=
                     if env.createBuffer then
                       some ⟨s.buffersCreated, 0, s.width, s.height, s.width * 4 % 2 ^ 32,
                         (pick s.formats (some 0)).2.getD 0⟩
                     else none,
                   buffersCreated :=
                     if env.createBuffer then s.buffersCreated + 1 else s.buffersCreated }, o) ∨
       ImageCopyCaptureSession.handleDone cb env (s, o) =
        ({ s with format := (pick s.formats (some 0)).2.getD 0, constraintsReady := true,
                  shm := true, pool := none },
          ImageCopyCaptureSession.callStopped cb o)) := by
  by_cases he : s.session = false ∨ s.width = 0 ∨ s.height = 0 ∨ s.formats = [] ∨
      cb.pickShmFormatCb = none ∨
      ∃ pick, cb.pickShmFormatCb = some pick ∧ (pick s.formats (some 0)).1 = false
  · exact Or.inl (handleDone_early cb env s o he)
  · simp only [not_or, not_exists, not_and] at he
    obtain ⟨h1, h2, h3, h4, h5, h6⟩ := he
    cases hp : cb.pickShmFormatCb with
    | none => exact absurd hp h5
    | some pick =>
      have hpk : (pick s.formats (some 0)).1 = true := by
        have := h6 pick hp
        simpa using this
      have hs : s.session = true := by simpa using h1
      refine Or.inr ⟨pick, rfl, hpk, hs, h2, h3, ?_⟩
      rw [handleDone_picked cb env s o pick hs h2 h3 h4 hp hpk]
      by_cases hc : s.pool = some (ImageCopyCaptureSession.poolSize s.width s.height) ∨
          (env.memfd_create = true ∧ env.ftruncate = true)
      · rw [if_pos hc]
        exact Or.inl rfl
      · rw [if_neg hc]
        exact Or.inr rfl

/-- What `destroyFrame` does to the Frame and to the counters. -/
theorem destroyFrame_frames (s : ImageCopyCaptureSession) (h : s.framesBalanced) :
    s.destroyFrame.framesBalanced ∧ s.destroyFrame.frame = none ∧
    s.destroyFrame.framesCreated = s.framesCreated ∧
    s.destroyFrame.framesDestroyed = s.framesDestroyed + s.liveFrames := by
  unfold ImageCopyCaptureSession.framesBalanced ImageCopyCaptureSession.liveFrames at h ⊢
  unfold ImageCopyCaptureSession.destroyFrame
  cases hf : s.frame with
  | none => simpa [hf] using h
  | some fr => simpa [hf] using h

/-- What `createFrame` does to the Frame and to the counters: it issues a
request only when no Frame is live. -/
theorem createFrame_frames (env : Allocation) (s : ImageCopyCaptureSession)
    (h : s.framesBalanced) :
    (ImageCopyCaptureSession.createFrame env s).framesBalanced ∧
    (ImageCopyCaptureSession.createFrame env s).framesDestroyed = s.framesDestroyed ∧
    (ImageCopyCaptureSession.createFrame env s).framesCreated ≤ s.framesCreated + 1 ∧
    s.framesCreated ≤ (ImageCopyCaptureSession.createFrame env s).framesCreated ∧
    (s.frame.isSome = true → ImageCopyCaptureSession.createFrame env s = s) := by
  unfold ImageCopyCaptureSession.framesBalanced ImageCopyCaptureSession.liveFrames at h ⊢
  rw [createFrame_eq]
  cases hb : s.buffer with
  | none => simpa using h
  | some buf =>
    simp only
    by_cases hc : s.session = true ∧ s.frame = none ∧ env.create_frame = true
    · simp only [if_pos hc]
      obtain ⟨_, hf, _⟩ := hc
      simp [hf] at h ⊢
      omega
    · simp only [if_neg hc]
      simpa using h

/-- Every handler keeps the count of Frames balanced, creates at most one
Frame, and destroys at most one. -/
theorem handle_frames {σ : Type} (cb : SessionCallbacks σ) (s : ImageCopyCaptureSession)
    (o : σ) (e : SessionEvent) (h : s.framesBalanced) :
    (ImageCopyCaptureSession.handle cb (s, o) e).1.framesBalanced ∧
    (ImageCopyCaptureSession.handle cb (s, o) e).1.framesCreated ≤ s.framesCreated + 1 ∧
    s.framesCreated ≤ (ImageCopyCaptureSession.handle cb (s, o) e).1.framesCreated := by
  cases e with
  | buffer_size w ht =>
    simp only [ImageCopyCaptureSession.handle, ImageCopyCaptureSession.handleBufferSize]
    obtain ⟨d1, d2, d3, d4⟩ := destroyFrame_frames s h
    by_cases hc : s.hasSize = true ∧ (w ≠ s.width ∨ ht ≠ s.height)
    · rw [if_pos hc]
      unfold ImageCopyCaptureSession.framesBalanced ImageCopyCaptureSession.liveFrames at d1 ⊢
      simp only [d3] at d1 ⊢
      exact ⟨d1, by omega, le_refl _⟩
    · rw [if_neg hc]
      exact ⟨h, by simp, le_refl _⟩
  | shm_format f =>
    exact ⟨h, by simp [ImageCopyCaptureSession.handle, ImageCopyCaptureSession.handleShmFormat],
      le_refl _⟩
  | dmabuf_device => exact ⟨h, by simp [ImageCopyCaptureSession.handle], le_refl _⟩
  | dmabuf_format f => exact ⟨h, by simp [ImageCopyCaptureSession.handle], le_refl _⟩
  | done env =>
    simp only [ImageCopyCaptureSession.handle]
    rcases handleDone_cases cb env s o with hd | ⟨pick, _, _, _, _, _, hd | hd⟩
    · rw [hd]
      exact ⟨h, by simp, le_refl _⟩
    · rw [hd]
      have h2 := createFrame_frames env
        { s with format := (pick s.formats (some 0)).2.getD 0, constraintsReady := true,
                 shm := true,
                 pool := some (ImageCopyCaptureSession.poolSize s.width s.height),
                 buffer :=
                   if env.createBuffer then
                     some ⟨s.buffersCreated, 0, s.width, s.height, s.width * 4 % 2 ^ 32,
                       (pick s.formats (some 0)).2.getD 0⟩
                   else none,
                 buffersCreated :=
                   if env.createBuffer then s.buffersCreated + 1 else s.buffersCreated } h
      exact ⟨h2.1, h2.2.2.1, h2.2.2.2.1⟩
    · rw [hd]
      exact ⟨h, by simp, le_refl _⟩
  | stopped =>
    simp only [ImageCopyCaptureSession.handle, ImageCopyCaptureSession.handleStopped]
    obtain ⟨d1, d2, d3, d4⟩ := destroyFrame_frames { s with failed := true } h
    exact ⟨d1, by simp only [d3]; simp, by simp only [d3]; simp⟩
  | transform t => exact ⟨h, by simp [ImageCopyCaptureSession.handle], le_refl _⟩
  | damage x y w ht =>
    exact ⟨h, by simp [ImageCopyCaptureSession.handle, ImageCopyCaptureSession.handleFrameDamage],
      le_refl _⟩
  | presentation_time a b c => exact ⟨h, by simp [ImageCopyCaptureSession.handle], le_refl _⟩
  | ready env =>
    simp only [ImageCopyCaptureSession.handle, ImageCopyCaptureSession.handleFrameReady]
    by_cases hc : s.constraintsReady = false ∨ s.pool = none
    · rw [if_pos hc]
      exact ⟨h, by simp, le_refl _⟩
    · rw [if_neg hc]
      obtain ⟨d1, d2, d3, d4⟩ := destroyFrame_frames s h
      have h2 := createFrame_frames env
        { s.destroyFrame with damage := s.destroyFrame.damage.clear } d1
      refine ⟨h2.1, le_trans h2.2.2.1 ?_, le_trans ?_ h2.2.2.2.1⟩
      · show s.destroyFrame.framesCreated + 1 ≤ s.framesCreated + 1
        omega
      · show s.framesCreated ≤ s.destroyFrame.framesCreated
        omega
  | failed reason =>
    simp only [ImageCopyCaptureSession.handle, ImageCopyCaptureSession.handleFrameFailed]
    obtain ⟨d1, d2, d3, d4⟩ := destroyFrame_frames { s with failed := true } h
    exact ⟨d1, by simp only [d3]; simp, by simp only [d3]; simp⟩

/-- C23: in every state reached from a fresh session by a sequence of events,
with any callbacks, the Frames created are the Frames destroyed plus the live
one, of which there is at most one; `createFrame` issues no request while a
Frame is live; and when the next event creates a Frame it creates one only,
and every Frame created before it has been destroyed by then. -/
theorem C23_at_most_one_frame {σ : Type} (cb : SessionCallbacks σ) (session_ : Bool) (o : σ)
    (events : List SessionEvent) (e : SessionEvent) :
    (ImageCopyCaptureSession.handleAll cb events
      (ImageCopyCaptureSession.new session_, o)).1.framesCreated =
      (ImageCopyCaptureSession.handleAll cb events
        (ImageCopyCaptureSession.new session_, o)).1.framesDestroyed +
      (ImageCopyCaptureSession.handleAll cb events
        (ImageCopyCaptureSession.new session_, o)).1.liveFrames ∧
    (ImageCopyCaptureSession.handleAll cb events
      (ImageCopyCaptureSession.new session_, o)).1.liveFrames ≤ 1 ∧
    (∀ env, (ImageCopyCaptureSession.handleAll cb events
        (ImageCopyCaptureSession.new session_, o)).1.frame.isSome = true →
      ImageCopyCaptureSession.createFrame env (ImageCopyCaptureSession.handleAll cb events
        (ImageCopyCaptureSession.new session_, o)).1 =
      (ImageCopyCaptureSession.handleAll cb events
        (ImageCopyCaptureSession.new session_, o)).1) ∧
    (ImageCopyCaptureSession.handleAll cb (events ++ [e])
      (ImageCopyCaptureSession.new session_, o)).1.framesCreated ≤
      (ImageCopyCaptureSession.handleAll cb events
        (ImageCopyCaptureSession.new session_, o)).1.framesCreated + 1 ∧
    ((ImageCopyCaptureSession.handleAll cb events
        (ImageCopyCaptureSession.new session_, o)).1.framesCreated <
      (ImageCopyCaptureSession.handleAll cb (events ++ [e])
        (ImageCopyCaptureSession.new session_, o)).1.framesCreated →
      (ImageCopyCaptureSession.handleAll cb events
        (ImageCopyCaptureSession.new session_, o)).1.framesCreated ≤
      (ImageCopyCaptureSession.handleAll cb (events ++ [e])
        (ImageCopyCaptureSession.new session_, o)).1.framesDestroyed) := by
  have hinv : ∀ es : List SessionEvent, (ImageCopyCaptureSession.handleAll cb es
      (ImageCopyCaptureSession.new session_, o)).1.framesBalanced := by
    intro es
    apply handleAll_induction cb ImageCopyCaptureSession.framesBalanced
    · intro s o e h
      exact (handle_frames cb s o e h).1
    · show (ImageCopyCaptureSession.new session_).framesBalanced
      cases session_ <;> decide
  have h1 := hinv events
  have h2 := hinv (events ++ [e])
  have hstep : ImageCopyCaptureSession.handleAll cb (events ++ [e])
      (ImageCopyCaptureSession.new session_, o) =
      ImageCopyCaptureSession.handle cb (ImageCopyCaptureSession.handleAll cb events
        (ImageCopyCaptureSession.new session_, o)) e := by
    simp [ImageCopyCaptureSession.handleAll, List.foldl_append]
  have h3 := handle_frames cb (ImageCopyCaptureSession.handleAll cb events
      (ImageCopyCaptureSession.new session_, o)).1 (ImageCopyCaptureSession.handleAll cb events
      (ImageCopyCaptureSession.new session_, o)).2 e h1
  rw [← hstep] at h3
  have hl : ∀ s : ImageCopyCaptureSession, s.liveFrames ≤ 1 := by
    intro s
    unfold ImageCopyCaptureSession.liveFrames
    split_ifs <;> omega
  refine ⟨h1, hl _, ?_, h3.2.1, ?_⟩
  · intro env hf
    exact (createFrame_frames env _ h1).2.2.2.2 hf
  · intro hlt
    have h4 : (ImageCopyCaptureSession.handleAll cb (events ++ [e])
      (ImageCopyCaptureSession.new session_, o)).1.framesCreated =
      (ImageCopyCaptureSession.handleAll cb (events ++ [e])
        (ImageCopyCaptureSession.new session_, o)).1.framesDestroyed +
      (ImageCopyCaptureSession.handleAll cb (events ++ [e])
        (ImageCopyCaptureSession.new session_, o)).1.liveFrames := h2
    have h5 := hl (ImageCopyCaptureSession.handleAll cb (events ++ [e])
      (ImageCopyCaptureSession.new session_, o)).1
    omega

/-- The fields `destroyFrame` does not touch. -/
theorem destroyFrame_keeps (s : ImageCopyCaptureSession) :
    s.destroyFrame.formats = s.formats ∧ s.destroyFrame.format = s.format ∧
    s.destroyFrame.constraintsReady = s.constraintsReady ∧
    s.destroyFrame.width = s.width ∧ s.destroyFrame.height = s.height ∧
    s.destroyFrame.pool = s.pool ∧ s.destroyFrame.buffer = s.buffer ∧
    s.destroyFrame.hasSize = s.hasSize ∧ s.destroyFrame.session = s.session ∧
    s.destroyFrame.damage = s.damage ∧ s.destroyFrame.failed = s.failed ∧
    s.destroyFrame.framesCreated = s.framesCreated := by
  unfold ImageCopyCaptureSession.destroyFrame
  cases h : s.frame <;> simp [h]

/-- The candidate list, the chosen format and `constraintsReady` after an
event that is neither `buffer_size`, `shm_format` nor `done`. -/
theorem handle_keeps {σ : Type} (cb : SessionCallbacks σ) (s : ImageCopyCaptureSession)
    (o : σ) (e : SessionEvent)
    (he : (∀ w h, e ≠ .buffer_size w h) ∧ (∀ f, e ≠ .shm_format f) ∧ e.isDone = false) :
    (ImageCopyCaptureSession.handle cb (s, o) e).1.formats = s.formats ∧
    (ImageCopyCaptureSession.handle cb (s, o) e).1.format = s.format ∧
    (ImageCopyCaptureSession.handle cb (s, o) e).1.constraintsReady = s.constraintsReady := by
  obtain ⟨h1, h2, h3⟩ := he
  cases e with
  | buffer_size w ht => exact absurd rfl (h1 w ht)
  | shm_format f => exact absurd rfl (h2 f)
  | done env => simp [SessionEvent.isDone] at h3
  | dmabuf_device => exact ⟨rfl, rfl, rfl⟩
  | dmabuf_format f => exact ⟨rfl, rfl, rfl⟩
  | transform t => exact ⟨rfl, rfl, rfl⟩
  | presentation_time a b c => exact ⟨rfl, rfl, rfl⟩
  | damage x y w ht => exact ⟨rfl, rfl, rfl⟩
  | stopped =>
    obtain ⟨d1, d2, d3, _⟩ := destroyFrame_keeps { s with failed := true }
    exact ⟨d1, d2, d3⟩
  | failed reason =>
    obtain ⟨d1, d2, d3, _⟩ := destroyFrame_keeps { s with failed := true }
    exact ⟨d1, d2, d3⟩
  | ready env =>
    simp only [ImageCopyCaptureSession.handle, ImageCopyCaptureSession.handleFrameReady]
    by_cases hc : s.constraintsReady = false ∨ s.pool = none
    · rw [if_pos hc]
      exact ⟨rfl, rfl, rfl⟩
    · rw [if_neg hc]
      obtain ⟨d1, d2, d3, _⟩ := destroyFrame_keeps s
      have c1 := createFrame_fields env
        { s.destroyFrame with damage := s.destroyFrame.damage.clear }
      exact ⟨c1.2.2.2.2.2.2.2.2.2.1.trans d1, c1.2.2.2.2.2.1.trans d2,
        c1.2.2.2.2.2.2.2.1.trans d3⟩

/-- The function `handleDone` leaves the candidate list as it is. -/
theorem handleDone_formats {σ : Type} (cb : SessionCallbacks σ) (env : Allocation)
    (s : ImageCopyCaptureSession) (o : σ) :
    (ImageCopyCaptureSession.handleDone cb env (s, o)).1.formats = s.formats := by
  rcases handleDone_cases cb env s o with hd | ⟨pick, _, _, _, _, _, hd | hd⟩
  · rw [hd]
  · rw [hd]
    exact (createFrame_fields env _).2.2.2.2.2.2.2.2.2.1
  · rw [hd]

/-- Every handler keeps `formatChosen` when the picker is `pickShmFormat`. -/
theorem handle_formatChosen {σ : Type} (c : ShmFormatCodes) (cb : SessionCallbacks σ)
    (hp : cb.pickShmFormatCb = some (pickShmFormat c)) (s : ImageCopyCaptureSession)
    (o : σ) (e : SessionEvent) (h : s.formatChosen c) :
    (ImageCopyCaptureSession.handle cb (s, o) e).1.formatChosen c := by
  by_cases he : (∀ w h, e ≠ .buffer_size w h) ∧ (∀ f, e ≠ .shm_format f) ∧ e.isDone = false
  · obtain ⟨k1, k2, k3⟩ := handle_keeps cb s o e he
    unfold ImageCopyCaptureSession.formatChosen at h ⊢
    rw [k1, k2, k3]
    exact h
  · cases e with
    | buffer_size w ht =>
      unfold ImageCopyCaptureSession.formatChosen at h ⊢
      simp only [ImageCopyCaptureSession.handle, ImageCopyCaptureSession.handleBufferSize]
      by_cases hc : s.hasSize = true ∧ (w ≠ s.width ∨ ht ≠ s.height)
      · rw [if_pos hc]
        intro hcr
        simp at hcr
      · rw [if_neg hc]
        exact h
    | shm_format f =>
      unfold ImageCopyCaptureSession.formatChosen at h ⊢
      simp only [ImageCopyCaptureSession.handle, ImageCopyCaptureSession.handleShmFormat]
      intro hcr
      have h1 := h hcr
      rw [pickShmFormat_append c s.formats [f] (some 0) (by rw [h1])]
      exact h1
    | done env =>
      simp only [ImageCopyCaptureSession.handle]
      rcases handleDone_cases cb env s o with hd | ⟨pick, hpk, hok, _, _, _, hd | hd⟩
      · rw [hd]
        exact h
      · rw [hd]
        rw [hp] at hpk
        cases hpk
        obtain ⟨f, hf, _⟩ := pickShmFormat_success c s.formats 0 hok
        have c1 := createFrame_fields env
          { s with format := (pickShmFormat c s.formats (some 0)).2.getD 0,
                   constraintsReady := true, shm := true,
                   pool := some (ImageCopyCaptureSession.poolSize s.width s.height),
                   buffer :=
                     if env.createBuffer then
                       some ⟨s.buffersCreated, 0, s.width, s.height, s.width * 4 % 2 ^ 32,
                         (pickShmFormat c s.formats (some 0)).2.getD 0⟩
                     else none,
                   buffersCreated :=
                     if env.createBuffer then s.buffersCreated + 1 else s.buffersCreated }
        unfold ImageCopyCaptureSession.formatChosen
        rw [c1.2.2.2.2.2.2.2.2.2.1, c1.2.2.2.2.2.1]
        intro _
        show pickShmFormat c s.formats (some 0) =
          (true, some ((pickShmFormat c s.formats (some 0)).2.getD 0))
        rw [hf]
        rfl
      · rw [hd]
        rw [hp] at hpk
        cases hpk
        obtain ⟨f, hf, _⟩ := pickShmFormat_success c s.formats 0 hok
        unfold ImageCopyCaptureSession.formatChosen
        intro _
        show pickShmFormat c s.formats (some 0) =
          (true, some ((pickShmFormat c s.formats (some 0)).2.getD 0))
        rw [hf]
        rfl
    | dmabuf_device => exact absurd ⟨by simp, by simp, rfl⟩ he
    | dmabuf_format f => exact absurd ⟨by simp, by simp, rfl⟩ he
    | transform t => exact absurd ⟨by simp, by simp, rfl⟩ he
    | presentation_time a b c => exact absurd ⟨by simp, by simp, rfl⟩ he
    | damage x y w ht => exact absurd ⟨by simp, by simp, rfl⟩ he
    | stopped => exact absurd ⟨by simp, by simp, rfl⟩ he
    | failed reason => exact absurd ⟨by simp, by simp, rfl⟩ he
    | ready env => exact absurd ⟨by simp, by simp, rfl⟩ he

/-- An event other than `done` leaves the chosen format as it is and does not
set `constraintsReady`. -/
theorem handle_not_done {σ : Type} (cb : SessionCallbacks σ) (s : ImageCopyCaptureSession)
    (o : σ) (e : SessionEvent) (he : e.isDone = false) :
    (ImageCopyCaptureSession.handle cb (s, o) e).1.format = s.format ∧
    ((ImageCopyCaptureSession.handle cb (s, o) e).1.constraintsReady = true →
      s.constraintsReady = true) := by
  by_cases hk : (∀ w h, e ≠ .buffer_size w h) ∧ (∀ f, e ≠ .shm_format f) ∧ e.isDone = false
  · obtain ⟨_, k2, k3⟩ := handle_keeps cb s o e hk
    rw [k2, k3]
    exact ⟨rfl, id⟩
  · cases e with
    | buffer_size w ht =>
      simp only [ImageCopyCaptureSession.handle, ImageCopyCaptureSession.handleBufferSize]
      by_cases hc : s.hasSize = true ∧ (w ≠ s.width ∨ ht ≠ s.height)
      · rw [if_pos hc]
        refine ⟨(destroyFrame_keeps s).2.1, ?_⟩
        intro hcr
        simp at hcr
      · rw [if_neg hc]
        exact ⟨rfl, id⟩
    | shm_format f => exact ⟨rfl, id⟩
    | done env => simp [SessionEvent.isDone] at he
    | dmabuf_device => exact absurd ⟨by simp, by simp, rfl⟩ hk
    | dmabuf_format f => exact absurd ⟨by simp, by simp, rfl⟩ hk
    | transform t => exact absurd ⟨by simp, by simp, rfl⟩ hk
    | presentation_time a b c => exact absurd ⟨by simp, by simp, rfl⟩ hk
    | damage x y w ht => exact absurd ⟨by simp, by simp, rfl⟩ hk
    | stopped => exact absurd ⟨by simp, by simp, rfl⟩ hk
    | failed reason => exact absurd ⟨by simp, by simp, rfl⟩ hk
    | ready env => exact absurd ⟨by simp, by simp, rfl⟩ hk

/-- Events other than `done` leave the chosen format as it is and do not set
`constraintsReady`. -/
theorem handleAll_not_done {σ : Type} (cb : SessionCallbacks σ) (events : List SessionEvent)
    (so : ImageCopyCaptureSession × σ) (he : ∀ e ∈ events, e.isDone = false) :
    (ImageCopyCaptureSession.handleAll cb events so).1.format = so.1.format ∧
    ((ImageCopyCaptureSession.handleAll cb events so).1.constraintsReady = true →
      so.1.constraintsReady = true) := by
  induction events generalizing so with
  | nil => exact ⟨rfl, id⟩
  | cons e es ih =>
    simp only [ImageCopyCaptureSession.handleAll, List.foldl_cons] at ih ⊢
    obtain ⟨a1, a2⟩ := handle_not_done cb so.1 so.2 e (he e (List.mem_cons_self _ _))
    obtain ⟨b1, b2⟩ := ih (ImageCopyCaptureSession.handle cb so e)
      (fun x hx => he x (List.mem_cons_of_mem _ hx))
    exact ⟨b1.trans a1, fun h => a2 (b2 h)⟩

/-- C24: take a fresh session whose picker is `pickShmFormat`, any events
`pre`, a `done`, and any events `post` holding no `done`, so that this `done`
is the last one.  If `constraintsReady` is true afterwards, the chosen format
is one of the six recognized codes, it is what the picker returns for the
candidate list the session held at that `done`, and also for the list it holds
now.  And while no `done` has been handled `constraintsReady` is false. -/
theorem C24_format_chosen_by_picker {σ : Type} (c : ShmFormatCodes) (cb : SessionCallbacks σ)
    (hp : cb.pickShmFormatCb = some (pickShmFormat c)) (session_ : Bool) (o : σ)
    (pre : List SessionEvent) (env : Allocation) (post : List SessionEvent)
    (hpost : ∀ e ∈ post, e.isDone = false)
    (hcr : (ImageCopyCaptureSession.handleAll cb (pre ++ .done env :: post)
      (ImageCopyCaptureSession.new session_, o)).1.constraintsReady = true) :
    isRecognized c (ImageCopyCaptureSession.handleAll cb (pre ++ .done env :: post)
      (ImageCopyCaptureSession.new session_, o)).1.format = true ∧
    pickShmFormat c (ImageCopyCaptureSession.handleAll cb pre
        (ImageCopyCaptureSession.new session_, o)).1.formats (some 0) =
      (true, some (ImageCopyCaptureSession.handleAll cb (pre ++ .done env :: post)
        (ImageCopyCaptureSession.new session_, o)).1.format) ∧
    pickShmFormat c (ImageCopyCaptureSession.handleAll cb (pre ++ .done env :: post)
        (ImageCopyCaptureSession.new session_, o)).1.formats (some 0) =
      (true, some (ImageCopyCaptureSession.handleAll cb (pre ++ .done env :: post)
        (ImageCopyCaptureSession.new session_, o)).1.format) ∧
    (∀ es : List SessionEvent, (∀ e ∈ es, e.isDone = false) →
      (ImageCopyCaptureSession.handleAll cb es
        (ImageCopyCaptureSession.new session_, o)).1.constraintsReady = false) := by
  have hinv : ∀ es : List SessionEvent, (ImageCopyCaptureSession.handleAll cb es
      (ImageCopyCaptureSession.new session_, o)).1.formatChosen c := by
    intro es
    apply handleAll_induction cb (ImageCopyCaptureSession.formatChosen c)
    · intro s o e h
      exact handle_formatChosen c cb hp s o e h
    · show (ImageCopyCaptureSession.new session_).formatChosen c
      intro h
      simp [ImageCopyCaptureSession.new] at h
  have hsplit : ImageCopyCaptureSession.handleAll cb (pre ++ .done env :: post)
      (ImageCopyCaptureSession.new session_, o) =
      ImageCopyCaptureSession.handleAll cb post
        (ImageCopyCaptureSession.handleDone cb env
          (ImageCopyCaptureSession.handleAll cb pre
            (ImageCopyCaptureSession.new session_, o))) := by
    simp [ImageCopyCaptureSession.handleAll, List.foldl_append, ImageCopyCaptureSession.handle]
  have hnow := hinv (pre ++ .done env :: post) hcr
  have hd : ImageCopyCaptureSession.handleAll cb (pre ++ [.done env])
      (ImageCopyCaptureSession.new session_, o) =
      ImageCopyCaptureSession.handleDone cb env
        (ImageCopyCaptureSession.handleAll cb pre
          (ImageCopyCaptureSession.new session_, o)) := by
    simp [ImageCopyCaptureSession.handleAll, List.foldl_append, ImageCopyCaptureSession.handle]
  have hdone := hinv (pre ++ [.done env])
  rw [hd] at hdone
  obtain ⟨p1, p2⟩ := handleAll_not_done cb post
    (ImageCopyCaptureSession.handleDone cb env
      (ImageCopyCaptureSession.handleAll cb pre
        (ImageCopyCaptureSession.new session_, o))) hpost
  rw [← hsplit] at p1 p2
  have hdone2 := hdone (p2 hcr)
  rw [handleDone_formats, ← p1] at hdone2
  refine ⟨?_, hdone2, hnow, ?_⟩
  · obtain ⟨f, hf, hr⟩ := pickShmFormat_success c _ 0 (by rw [hnow])
    rw [hnow] at hf
    cases hf
    exact hr
  · intro es hes
    have := (handleAll_not_done cb es (ImageCopyCaptureSession.new session_, o) hes).2
    cases hx : (ImageCopyCaptureSession.handleAll cb es
        (ImageCopyCaptureSession.new session_, o)).1.constraintsReady with
    | false => rfl
    | true =>
      have h2 := this hx
      simp [ImageCopyCaptureSession.new] at h2

/-- C24 on the events `buffer_size 2 2`, `shm_format 7`, `shm_format XRGB8888`,
`done`, `shm_format ARGB8888`, `damage`: the chosen format is `XRGB8888`. -/
theorem C24_format_chosen_by_picker_witness :
    (ImageCopyCaptureSession.handleAll (recording (some (pickShmFormat wl)))
      ([.buffer_size 2 2, .shm_format 7, .shm_format wl.XRGB8888] ++
        .done Allocation.ok :: [.shm_format wl.ARGB8888, .damage 0 0 1 1])
      (ImageCopyCaptureSession.new true, [])).1.constraintsReady = true ∧
    pickShmFormat wl (ImageCopyCaptureSession.handleAll (recording (some (pickShmFormat wl)))
        [.buffer_size 2 2, .shm_format 7, .shm_format wl.XRGB8888]
        (ImageCopyCaptureSession.new true, [])).1.formats (some 0) =
      (true, some (ImageCopyCaptureSession.handleAll (recording (some (pickShmFormat wl)))
        ([.buffer_size 2 2, .shm_format 7, .shm_format wl.XRGB8888] ++
          .done Allocation.ok :: [.shm_format wl.ARGB8888, .damage 0 0 1 1])
        (ImageCopyCaptureSession.new true, [])).1.format) :=
  ⟨by decide,
    (C24_format_chosen_by_picker wl (recording (some (pickShmFormat wl))) rfl true []
      [.buffer_size 2 2, .shm_format 7, .shm_format wl.XRGB8888] Allocation.ok
      [.shm_format wl.ARGB8888, .damage 0 0 1 1] (by decide) (by decide)).2.1⟩

/-! ## Delivery of a frame -/

/-- The pixels of the damage accumulated over a sequence of events whose damage
rectangles have a far corner with `int32_t` coordinates. -/
theorem mem_damageAfter (events : List SessionEvent) (init : Region) (p : Int × Int)
    (hfit : ∀ r : DamageRect, r.event ∈ events → r.fits) :
    p ∈ damageAfter init events ↔
      p ∈ init ∨ ∃ r : DamageRect, r.event ∈ events ∧ r.contains p := by
  induction events generalizing init with
  | nil => simp [damageAfter]
  | cons e es ih =>
    have hes : ∀ r : DamageRect, r.event ∈ es → r.fits :=
      fun r hr => hfit r (List.mem_cons_of_mem _ hr)
    unfold damageAfter at ih ⊢
    rw [List.foldl_cons, ih _ hes]
    cases e with
    | damage x y w ht =>
      obtain ⟨f1, f2⟩ := hfit ⟨x, y, w, ht⟩ (List.mem_cons_self _ _)
      have g1 : wrapInt32 (x + w) = x + w := wrapInt32_of_isInt32 _ f1
      have g2 : wrapInt32 (y + ht) = y + ht := wrapInt32_of_isInt32 _ f2
      simp only [Finset.mem_union, mem_ofRect, List.mem_cons, or_assoc, g1, g2]
      constructor
      · rintro (h | h | ⟨r, hr, hp⟩)
        · exact Or.inl h
        · exact Or.inr ⟨⟨x, y, w, ht⟩, Or.inl rfl, h⟩
        · exact Or.inr ⟨r, Or.inr hr, hp⟩
      · rintro (h | ⟨r, hr | hr, hp⟩)
        · exact Or.inl h
        · obtain ⟨rx, ry, rw, rh⟩ := r
          simp only [DamageRect.event, SessionEvent.damage.injEq] at hr
          obtain ⟨h1, h2, h3, h4⟩ := hr
          subst h1 h2 h3 h4
          exact Or.inr (Or.inl hp)
        · exact Or.inr (Or.inr ⟨r, hr, hp⟩)
    | buffer_size w ht => simp [DamageRect.event]
    | shm_format f => simp [DamageRect.event]
    | dmabuf_device => simp [DamageRect.event]
    | dmabuf_format f => simp [DamageRect.event]
    | done env => simp [DamageRect.event]
    | stopped => simp [DamageRect.event]
    | transform t => simp [DamageRect.event]
    | presentation_time a b c => simp [DamageRect.event]
    | ready env => simp [DamageRect.event]
    | failed reason => simp [DamageRect.event]

/-- The events a Frame sends before it completes, handled in order: they only
add to the damage. -/
theorem handleAll_progress {σ : Type} (cb : SessionCallbacks σ) (events : List SessionEvent)
    (s : ImageCopyCaptureSession) (o : σ) (hev : ∀ e ∈ events, e.isFrameProgress = true) :
    ImageCopyCaptureSession.handleAll cb events (s, o) =
      ({ s with damage := damageAfter s.damage events }, o) := by
  induction events generalizing s with
  | nil => simp [ImageCopyCaptureSession.handleAll, damageAfter]
  | cons e es ih =>
    have he := hev e (List.mem_cons_self _ _)
    have hes : ∀ x ∈ es, x.isFrameProgress = true :=
      fun x hx => hev x (List.mem_cons_of_mem _ hx)
    simp only [ImageCopyCaptureSession.handleAll, damageAfter, List.foldl_cons] at ih ⊢
    cases e with
    | damage x y w ht =>
      simp only [ImageCopyCaptureSession.handle]
      rw [ih _ hes]
      simp [ImageCopyCaptureSession.handleFrameDamage, Region.assign_union]
    | transform t =>
      simp only [ImageCopyCaptureSession.handle]
      rw [ih _ hes]
    | presentation_time a b c =>
      simp only [ImageCopyCaptureSession.handle]
      rw [ih _ hes]
    | buffer_size w ht => simp [SessionEvent.isFrameProgress] at he
    | shm_format f => simp [SessionEvent.isFrameProgress] at he
    | dmabuf_device => simp [SessionEvent.isFrameProgress] at he
    | dmabuf_format f => simp [SessionEvent.isFrameProgress] at he
    | done env => simp [SessionEvent.isFrameProgress] at he
    | stopped => simp [SessionEvent.isFrameProgress] at he
    | ready env => simp [SessionEvent.isFrameProgress] at he
    | failed reason => simp [SessionEvent.isFrameProgress] at he

/-- While no Frame is live, an event other than `done` and `ready` creates
none. -/
theorem handle_no_frame {σ : Type} (cb : SessionCallbacks σ) (s : ImageCopyCaptureSession)
    (o : σ) (e : SessionEvent) (hf : s.frame = none) (hd : e.isDone = false)
    (hr : ∀ env, e ≠ .ready env) :
    (ImageCopyCaptureSession.handle cb (s, o) e).1.frame = none ∧
    (ImageCopyCaptureSession.handle cb (s, o) e).1.framesCreated = s.framesCreated := by
  have hdf : s.destroyFrame = s := by
    unfold ImageCopyCaptureSession.destroyFrame
    simp [hf]
  cases e with
  | buffer_size w ht =>
    by_cases hc : s.hasSize = true ∧ (w ≠ s.width ∨ ht ≠ s.height)
    · simp [ImageCopyCaptureSession.handle, ImageCopyCaptureSession.handleBufferSize, hdf, hc,
        hf]
    · simp [ImageCopyCaptureSession.handle, ImageCopyCaptureSession.handleBufferSize, hc, hf]
  | shm_format f => exact ⟨hf, rfl⟩
  | dmabuf_device => exact ⟨hf, rfl⟩
  | dmabuf_format f => exact ⟨hf, rfl⟩
  | done env => simp [SessionEvent.isDone] at hd
  | stopped =>
    simp [ImageCopyCaptureSession.handle, ImageCopyCaptureSession.handleStopped,
      ImageCopyCaptureSession.destroyFrame, hf]
  | transform t => exact ⟨hf, rfl⟩
  | damage x y w ht => exact ⟨hf, rfl⟩
  | presentation_time a b c => exact ⟨hf, rfl⟩
  | ready env => exact absurd rfl (hr env)
  | failed reason =>
    simp [ImageCopyCaptureSession.handle, ImageCopyCaptureSession.handleFrameFailed,
      ImageCopyCaptureSession.destroyFrame, hf]

/-- While no Frame is live, a delivered event other than `done` creates none:
the events of a frame are not delivered. -/
theorem dispatch_no_frame {σ : Type} (cb : SessionCallbacks σ) (s : ImageCopyCaptureSession)
    (o : σ) (e : SessionEvent) (hf : s.frame = none) (hd : e.isDone = false) :
    (ImageCopyCaptureSession.dispatch cb (s, o) e).1.frame = none ∧
    (ImageCopyCaptureSession.dispatch cb (s, o) e).1.framesCreated = s.framesCreated := by
  unfold ImageCopyCaptureSession.dispatch
  by_cases hfe : e.isFrameEvent = true
  · simp [hfe, hf]
  · have hr : ∀ env, e ≠ .ready env := by
      intro env h
      rw [h] at hfe
      exact hfe rfl
    simp only [hfe, Bool.false_eq_true, if_false]
    by_cases hs : s.session = true
    · simp only [hs, if_true]
      exact handle_no_frame cb s o e hf hd hr
    · simp [hs, hf]

/-- While no Frame is live, delivered events other than `done` create none. -/
theorem dispatchAll_no_frame {σ : Type} (cb : SessionCallbacks σ)
    (events : List SessionEvent) (so : ImageCopyCaptureSession × σ) (hf : so.1.frame = none)
    (hd : ∀ e ∈ events, e.isDone = false) :
    (ImageCopyCaptureSession.dispatchAll cb events so).1.frame = none ∧
    (ImageCopyCaptureSession.dispatchAll cb events so).1.framesCreated =
      so.1.framesCreated := by
  induction events generalizing so with
  | nil => exact ⟨hf, rfl⟩
  | cons e es ih =>
    simp only [ImageCopyCaptureSession.dispatchAll, List.foldl_cons] at ih ⊢
    obtain ⟨a1, a2⟩ := dispatch_no_frame cb so.1 so.2 e hf (hd e (List.mem_cons_self _ _))
    obtain ⟨b1, b2⟩ := ih (ImageCopyCaptureSession.dispatch cb so e) a1
      (fun x hx => hd x (List.mem_cons_of_mem _ hx))
    exact ⟨b1, b2.trans a2⟩

/-- While no Frame is live, handled events other than `done` and `ready`
create none. -/
theorem handleAll_no_frame {σ : Type} (cb : SessionCallbacks σ)
    (events : List SessionEvent) (so : ImageCopyCaptureSession × σ) (hf : so.1.frame = none)
    (hd : ∀ e ∈ events, e.isDone = false) (hr : ∀ e ∈ events, ∀ env, e ≠ .ready env) :
    (ImageCopyCaptureSession.handleAll cb events so).1.frame = none ∧
    (ImageCopyCaptureSession.handleAll cb events so).1.framesCreated =
      so.1.framesCreated := by
  induction events generalizing so with
  | nil => exact ⟨hf, rfl⟩
  | cons e es ih =>
    simp only [ImageCopyCaptureSession.handleAll, List.foldl_cons] at ih ⊢
    obtain ⟨a1, a2⟩ := handle_no_frame cb so.1 so.2 e hf (hd e (List.mem_cons_self _ _))
      (hr e (List.mem_cons_self _ _))
    obtain ⟨b1, b2⟩ := ih (ImageCopyCaptureSession.handle cb so e) a1
      (fun x hx => hd x (List.mem_cons_of_mem _ hx))
      (fun x hx => hr x (List.mem_cons_of_mem _ hx))
    exact ⟨b1, b2.trans a2⟩

/-- A `done` that creates a Frame on a session without one is a successful
one: the stopped callback is not called, and the session has
`constraintsReady`, a Pool and a Buffer. -/
theorem handleDone_creates {σ : Type} (cb : SessionCallbacks σ) (env : Allocation)
    (s : ImageCopyCaptureSession) (o : σ) (hf : s.frame = none)
    (h : (ImageCopyCaptureSession.handleDone cb env (s, o)).1.frame.isSome = true) :
    (ImageCopyCaptureSession.handleDone cb env (s, o)).2 = o ∧
    (ImageCopyCaptureSession.handleDone cb env (s, o)).1.constraintsReady = true ∧
    (ImageCopyCaptureSession.handleDone cb env (s, o)).1.pool =
      some (ImageCopyCaptureSession.poolSize s.width s.height) ∧
    (ImageCopyCaptureSession.handleDone cb env (s, o)).1.buffer.isSome = true := by
  rcases handleDone_cases cb env s o with hd | ⟨pick, _, _, _, _, _, hd | hd⟩
  · rw [hd] at h
    simp [hf] at h
  · rw [hd] at h ⊢
    have c1 := createFrame_fields env
      { s with format := (pick s.formats (some 0)).2.getD 0, constraintsReady := true,
               shm := true,
               pool := some (ImageCopyCaptureSession.poolSize s.width s.height),
               buffer :=
                 if env.createBuffer then
                   some ⟨s.buffersCreated, 0, s.width, s.height, s.width * 4 % 2 ^ 32,
                     (pick s.formats (some 0)).2.getD 0⟩
                 else none,
               buffersCreated :=
                 if env.createBuffer then s.buffersCreated + 1 else s.buffersCreated }
    refine ⟨rfl, c1.2.2.2.2.2.2.2.1, c1.2.1, ?_⟩
    rw [c1.2.2.1]
    cases hcb : env.createBuffer with
    | true => simp
    | false =>
      rw [createFrame_eq] at h
      simp [hcb, hf] at h
  · rw [hd] at h
    simp [hf] at h

/-- C22: `handleFrameFailed`, on any session and for any reason code, calls no
callback, destroys the current Frame and creates none, and leaves the size,
the candidate list, the chosen format, `constraintsReady`, the Pool and the
Buffer as they are.  After it, the events delivered to the session create no
Frame as long as none of them is a `done` (the events of a frame are delivered
only by a live Frame; among handled events only `done` and `ready` can create
one), and a `done` that creates the Frame is one that succeeds. -/
theorem C22_frame_failed {σ : Type} (cb : SessionCallbacks σ) (s : ImageCopyCaptureSession)
    (o : σ) (reason : Nat) (events : List SessionEvent)
    (hev : ∀ e ∈ events, e.isDone = false) :
    (ImageCopyCaptureSession.handle cb (s, o) (.failed reason)).2 = o ∧
    (ImageCopyCaptureSession.handle cb (s, o) (.failed reason)).1.frame = none ∧
    (ImageCopyCaptureSession.handle cb (s, o) (.failed reason)).1.framesDestroyed =
      s.framesDestroyed + s.liveFrames ∧
    (ImageCopyCaptureSession.handle cb (s, o) (.failed reason)).1.framesCreated =
      s.framesCreated ∧
    (ImageCopyCaptureSession.handle cb (s, o) (.failed reason)).1.width = s.width ∧
    (ImageCopyCaptureSession.handle cb (s, o) (.failed reason)).1.height = s.height ∧
    (ImageCopyCaptureSession.handle cb (s, o) (.failed reason)).1.formats = s.formats ∧
    (ImageCopyCaptureSession.handle cb (s, o) (.failed reason)).1.format = s.format ∧
    (ImageCopyCaptureSession.handle cb (s, o) (.failed reason)).1.constraintsReady =
      s.constraintsReady ∧
    (ImageCopyCaptureSession.handle cb (s, o) (.failed reason)).1.pool = s.pool ∧
    (ImageCopyCaptureSession.handle cb (s, o) (.failed reason)).1.buffer = s.buffer ∧
    (ImageCopyCaptureSession.dispatchAll cb events
      (ImageCopyCaptureSession.handle cb (s, o) (.failed reason))).1.frame = none ∧
    (ImageCopyCaptureSession.dispatchAll cb events
      (ImageCopyCaptureSession.handle cb (s, o) (.failed reason))).1.framesCreated =
        s.framesCreated ∧
    ((∀ e ∈ events, ∀ env, e ≠ .ready env) →
      (ImageCopyCaptureSession.handleAll cb events
        (ImageCopyCaptureSession.handle cb (s, o) (.failed reason))).1.frame = none ∧
      (ImageCopyCaptureSession.handleAll cb events
        (ImageCopyCaptureSession.handle cb (s, o) (.failed reason))).1.framesCreated =
          s.framesCreated) ∧
    (∀ (env : Allocation) (s1 : ImageCopyCaptureSession) (o1 : σ), s1.frame = none →
      (ImageCopyCaptureSession.handle cb (s1, o1) (.done env)).1.frame.isSome = true →
      (ImageCopyCaptureSession.handle cb (s1, o1) (.done env)).2 = o1 ∧
      (ImageCopyCaptureSession.handle cb (s1, o1) (.done env)).1.constraintsReady = true ∧
      (ImageCopyCaptureSession.handle cb (s1, o1) (.done env)).1.pool.isSome = true ∧
      (ImageCopyCaptureSession.handle cb (s1, o1) (.done env)).1.buffer.isSome = true) := by
  have hfn : (ImageCopyCaptureSession.handle cb (s, o) (.failed reason)).1.frame = none := by
    simp only [ImageCopyCaptureSession.handle, ImageCopyCaptureSession.handleFrameFailed]
    exact (destroyFrame_fields _).1
  have hfc : (ImageCopyCaptureSession.handle cb (s, o) (.failed reason)).1.framesCreated =
      s.framesCreated := by
    simp only [ImageCopyCaptureSession.handle, ImageCopyCaptureSession.handleFrameFailed]
    exact (destroyFrame_keeps _).2.2.2.2.2.2.2.2.2.2.2
  obtain ⟨k1, k2, k3, k4, k5, k6, k7, _⟩ := destroyFrame_keeps { s with failed := true }
  obtain ⟨d1, d2⟩ := dispatchAll_no_frame cb events
    (ImageCopyCaptureSession.handle cb (s, o) (.failed reason)) hfn hev
  refine ⟨rfl, hfn, ?_, hfc, k4, k5, k1, k2, k3, k6, k7, d1, d2.trans hfc, ?_, ?_⟩
  · simp only [ImageCopyCaptureSession.handle, ImageCopyCaptureSession.handleFrameFailed,
      ImageCopyCaptureSession.destroyFrame, ImageCopyCaptureSession.liveFrames]
    cases hf : s.frame <;> simp
  · intro hr
    obtain ⟨a1, a2⟩ := handleAll_no_frame cb events
      (ImageCopyCaptureSession.handle cb (s, o) (.failed reason)) hfn hev hr
    exact ⟨a1, a2.trans hfc⟩
  · intro env s1 o1 hf1 hsome
    obtain ⟨b1, b2, b3, b4⟩ := handleDone_creates cb env s1 o1 hf1 hsome
    refine ⟨b1, b2, ?_, b4⟩
    show (ImageCopyCaptureSession.handleDone cb env (s1, o1)).1.pool.isSome = true
    rw [b3]
    rfl

/-- C22 on a session that is capturing a 2 by 2 output: after the failure, a
`ready`, a `damage`, a `shm_format` and a `buffer_size` are sent, and no Frame
is created. -/
theorem C22_frame_failed_witness :
    capturing.1.frame.isSome = true ∧
    (ImageCopyCaptureSession.handle (recording (some (pickShmFormat wl))) capturing
      (.failed 0)).1.frame = none ∧
    (ImageCopyCaptureSession.dispatchAll (recording (some (pickShmFormat wl)))
      [.ready Allocation.ok, .damage 0 0 1 1, .shm_format 0, .buffer_size 2 2]
      (ImageCopyCaptureSession.handle (recording (some (pickShmFormat wl))) capturing
        (.failed 0))).1.frame = none :=
  ⟨by decide,
    (C22_frame_failed (recording (some (pickShmFormat wl))) capturing.1 capturing.2 0
      [.ready Allocation.ok, .damage 0 0 1 1, .shm_format 0, .buffer_size 2 2]
      (by decide)).2.1,
    (C22_frame_failed (recording (some (pickShmFormat wl))) capturing.1 capturing.2 0
      [.ready Allocation.ok, .damage 0 0 1 1, .shm_format 0, .buffer_size 2 2]
      (by decide)).2.2.2.2.2.2.2.2.2.2.2.1⟩

/-! ## The life of the pool -/

/-- The Pool and the size after an event that is neither `buffer_size` nor
`done`. -/
theorem handle_keeps_pool {σ : Type} (cb : SessionCallbacks σ) (s : ImageCopyCaptureSession)
    (o : σ) (e : SessionEvent) (he : (∀ w h, e ≠ .buffer_size w h) ∧ e.isDone = false) :
    (ImageCopyCaptureSession.handle cb (s, o) e).1.pool = s.pool ∧
    (ImageCopyCaptureSession.handle cb (s, o) e).1.width = s.width ∧
    (ImageCopyCaptureSession.handle cb (s, o) e).1.height = s.height ∧
    (ImageCopyCaptureSession.handle cb (s, o) e).1.hasSize = s.hasSize := by
  obtain ⟨h1, h3⟩ := he
  cases e with
  | buffer_size w ht => exact absurd rfl (h1 w ht)
  | shm_format f => exact ⟨rfl, rfl, rfl, rfl⟩
  | done env => simp [SessionEvent.isDone] at h3
  | dmabuf_device => exact ⟨rfl, rfl, rfl, rfl⟩
  | dmabuf_format f => exact ⟨rfl, rfl, rfl, rfl⟩
  | transform t => exact ⟨rfl, rfl, rfl, rfl⟩
  | presentation_time a b c => exact ⟨rfl, rfl, rfl, rfl⟩
  | damage x y w ht => exact ⟨rfl, rfl, rfl, rfl⟩
  | stopped =>
    obtain ⟨_, _, _, d4, d5, d6, _, d8, _⟩ := destroyFrame_keeps { s with failed := true }
    exact ⟨d6, d4, d5, d8⟩
  | failed reason =>
    obtain ⟨_, _, _, d4, d5, d6, _, d8, _⟩ := destroyFrame_keeps { s with failed := true }
    exact ⟨d6, d4, d5, d8⟩
  | ready env =>
    simp only [ImageCopyCaptureSession.handle, ImageCopyCaptureSession.handleFrameReady]
    by_cases hc : s.constraintsReady = false ∨ s.pool = none
    · rw [if_pos hc]
      exact ⟨rfl, rfl, rfl, rfl⟩
    · rw [if_neg hc]
      obtain ⟨_, _, _, d4, d5, d6, _, d8, _⟩ := destroyFrame_keeps s
      have c1 := createFrame_fields env
        { s.destroyFrame with damage := s.destroyFrame.damage.clear }
      exact ⟨c1.2.1.trans d6, c1.2.2.2.1.trans d4, c1.2.2.2.2.1.trans d5,
        c1.2.2.2.2.2.2.1.trans d8⟩

/-- What `handleDone` does to the Pool and to the size. -/
theorem handleDone_pool {σ : Type} (cb : SessionCallbacks σ) (env : Allocation)
    (s : ImageCopyCaptureSession) (o : σ) :
    (ImageCopyCaptureSession.handleDone cb env (s, o)).1.width = s.width ∧
    (ImageCopyCaptureSession.handleDone cb env (s, o)).1.height = s.height ∧
    (ImageCopyCaptureSession.handleDone cb env (s, o)).1.hasSize = s.hasSize ∧
    ((ImageCopyCaptureSession.handleDone cb env (s, o)).1.pool = s.pool ∨
      (s.width ≠ 0 ∧ s.pool ≠ some (ImageCopyCaptureSession.poolSize s.width s.height) ∧
        ((ImageCopyCaptureSession.handleDone cb env (s, o)).1.pool = none ∨
         (ImageCopyCaptureSession.handleDone cb env (s, o)).1.pool =
          some (ImageCopyCaptureSession.poolSize s.width s.height)))) := by
  by_cases he : s.session = false ∨ s.width = 0 ∨ s.height = 0 ∨ s.formats = [] ∨
      cb.pickShmFormatCb = none ∨
      ∃ pick, cb.pickShmFormatCb = some pick ∧ (pick s.formats (some 0)).1 = false
  · rw [handleDone_early cb env s o he]
    exact ⟨rfl, rfl, rfl, Or.inl rfl⟩
  · simp only [not_or, not_exists, not_and] at he
    obtain ⟨h1, h2, h3, h4, h5, h6⟩ := he
    cases hp : cb.pickShmFormatCb with
    | none => exact absurd hp h5
    | some pick =>
      have hpk : (pick s.formats (some 0)).1 = true := by
        have := h6 pick hp
        simpa using this
      have hs : s.session = true := by simpa using h1
      rw [handleDone_picked cb env s o pick hs h2 h3 h4 hp hpk]
      by_cases hc : s.pool = some (ImageCopyCaptureSession.poolSize s.width s.height) ∨
          (env.memfd_create = true ∧ env.ftruncate = true)
      · rw [if_pos hc]
        have c1 := createFrame_fields env
          { s with format := (pick s.formats (some 0)).2.getD 0, constraintsReady := true,
                   shm := true,
                   pool := some (ImageCopyCaptureSession.poolSize s.width s.height),
                   buffer :=
                     if env.createBuffer then
                       some ⟨s.buffersCreated, 0, s.width, s.height, s.width * 4 % 2 ^ 32,
                         (pick s.formats (some 0)).2.getD 0⟩
                     else none,
                   buffersCreated :=
                     if env.createBuffer then s.buffersCreated + 1 else s.buffersCreated }
        refine ⟨c1.2.2.2.1, c1.2.2.2.2.1, c1.2.2.2.2.2.2.1, ?_⟩
        by_cases hpool : s.pool = some (ImageCopyCaptureSession.poolSize s.width s.height)
        · exact Or.inl (c1.2.1.trans hpool.symm)
        · exact Or.inr ⟨h2, hpool, Or.inr c1.2.1⟩
      · rw [if_neg hc]
        simp only [not_or] at hc
        exact ⟨rfl, rfl, rfl, Or.inr ⟨h2, hc.1, Or.inl rfl⟩⟩

/-- Every handler keeps `poolMatches`. -/
theorem handle_poolMatches {σ : Type} (cb : SessionCallbacks σ) (s : ImageCopyCaptureSession)
    (o : σ) (e : SessionEvent) (h : s.poolMatches) :
    (ImageCopyCaptureSession.handle cb (s, o) e).1.poolMatches := by
  by_cases he : (∀ w h, e ≠ .buffer_size w h) ∧ e.isDone = false
  · obtain ⟨k1, k2, k3, k4⟩ := handle_keeps_pool cb s o e he
    unfold ImageCopyCaptureSession.poolMatches at h ⊢
    rw [k1, k2, k3, k4]
    exact h
  · cases e with
    | buffer_size w ht =>
      obtain ⟨i1, i2⟩ := h
      unfold ImageCopyCaptureSession.poolMatches
      simp only [ImageCopyCaptureSession.handle, ImageCopyCaptureSession.handleBufferSize]
      by_cases hc : s.hasSize = true ∧ (w ≠ s.width ∨ ht ≠ s.height)
      · rw [if_pos hc]
        simp
      · rw [if_neg hc]
        refine ⟨by simp, ?_⟩
        intro n hn
        have hn2 : s.pool = some n := hn
        cases hhs : s.hasSize with
        | false =>
          rw [(i1 hhs).1] at hn2
          cases hn2
        | true =>
          have hwh : w = s.width ∧ ht = s.height := by
            constructor
            · by_contra hne
              exact hc ⟨hhs, Or.inl hne⟩
            · by_contra hne
              exact hc ⟨hhs, Or.inr hne⟩
          show n = ImageCopyCaptureSession.poolSize w ht
          rw [hwh.1, hwh.2]
          exact i2 n hn2
    | done env =>
      obtain ⟨i1, i2⟩ := h
      obtain ⟨p1, p2, p3, p4⟩ := handleDone_pool cb env s o
      unfold ImageCopyCaptureSession.poolMatches
      simp only [ImageCopyCaptureSession.handle]
      rw [p1, p2, p3]
      rcases p4 with p4 | ⟨hw, _, p4 | p4⟩
      · rw [p4]
        exact ⟨i1, i2⟩
      · rw [p4]
        refine ⟨fun hhs => ⟨rfl, (i1 hhs).2⟩, ?_⟩
        intro n hn
        cases hn
      · rw [p4]
        refine ⟨fun hhs => absurd (i1 hhs).2 hw, ?_⟩
        intro n hn
        cases hn
        rfl
    | shm_format f => exact absurd ⟨by simp, rfl⟩ he
    | dmabuf_device => exact absurd ⟨by simp, rfl⟩ he
    | dmabuf_format f => exact absurd ⟨by simp, rfl⟩ he
    | transform t => exact absurd ⟨by simp, rfl⟩ he
    | presentation_time a b c => exact absurd ⟨by simp, rfl⟩ he
    | damage x y w ht => exact absurd ⟨by simp, rfl⟩ he
    | stopped => exact absurd ⟨by simp, rfl⟩ he
    | failed reason => exact absurd ⟨by simp, rfl⟩ he
    | ready env => exact absurd ⟨by simp, rfl⟩ he

/-- C25 as stated fails: after a 2 by 3 output is negotiated the session holds
a Pool of 24 bytes; a `buffer_size` event for 3 by 2, which needs 24 bytes
again, destroys that Pool, and the next `done` creates a new one. -/
theorem C25_counterexample :
    ImageCopyCaptureSession.poolSize 3 2 = ImageCopyCaptureSession.poolSize 2 3 ∧
    (ImageCopyCaptureSession.handleAll (recording (some (pickShmFormat wl)))
      [.buffer_size 2 3, .shm_format wl.XRGB8888, .done Allocation.ok]
      (ImageCopyCaptureSession.new true, [])).1.pool = some 24 ∧
    (ImageCopyCaptureSession.handleAll (recording (some (pickShmFormat wl)))
      [.buffer_size 2 3, .shm_format wl.XRGB8888, .done Allocation.ok, .buffer_size 3 2]
      (ImageCopyCaptureSession.new true, [])).1.pool = none ∧
    (ImageCopyCaptureSession.handleAll (recording (some (pickShmFormat wl)))
      [.buffer_size 2 3, .shm_format wl.XRGB8888, .done Allocation.ok, .buffer_size 3 2,
        .shm_format wl.XRGB8888, .done Allocation.ok]
      (ImageCopyCaptureSession.new true, [])).1.pool = some 24 := by
  decide

/-- C25 amended: in every state reached from a fresh session, a Pool that
exists has the byte size `handleDone` computes for the current width and
height.  A `buffer_size` event destroys it exactly when it changes the width or
the height, whether or not the byte size changes; a `done` keeps an existing
Pool, reusing it without allocating; without one, a `done` that chooses a
format (session handle, non-zero size, a candidate the picker accepts) creates
a Pool of that size when the allocation succeeds and none when it fails, and
no other `done` creates one. -/
theorem C25_pool_lifecycle {σ : Type} (cb : SessionCallbacks σ) (session_ : Bool) (o : σ)
    (events : List SessionEvent) (w h : Nat) (env : Allocation) :
    (∀ n, (ImageCopyCaptureSession.handleAll cb events
        (ImageCopyCaptureSession.new session_, o)).1.pool = some n →
      n = ImageCopyCaptureSession.poolSize
        (ImageCopyCaptureSession.handleAll cb events
          (ImageCopyCaptureSession.new session_, o)).1.width
        (ImageCopyCaptureSession.handleAll cb events
          (ImageCopyCaptureSession.new session_, o)).1.height) ∧
    (∀ n, (ImageCopyCaptureSession.handleAll cb events
        (ImageCopyCaptureSession.new session_, o)).1.pool = some n →
      ((ImageCopyCaptureSession.handleAll cb (events ++ [.buffer_size w h])
        (ImageCopyCaptureSession.new session_, o)).1.pool = none ↔
        (w ≠ (ImageCopyCaptureSession.handleAll cb events
          (ImageCopyCaptureSession.new session_, o)).1.width ∨
         h ≠ (ImageCopyCaptureSession.handleAll cb events
          (ImageCopyCaptureSession.new session_, o)).1.height)) ∧
      ((ImageCopyCaptureSession.handleAll cb (events ++ [.buffer_size w h])
        (ImageCopyCaptureSession.new session_, o)).1.pool = some n ↔
        (w = (ImageCopyCaptureSession.handleAll cb events
          (ImageCopyCaptureSession.new session_, o)).1.width ∧
         h = (ImageCopyCaptureSession.handleAll cb events
          (ImageCopyCaptureSession.new session_, o)).1.height)) ∧
      (ImageCopyCaptureSession.handleAll cb (events ++ [.done env])
        (ImageCopyCaptureSession.new session_, o)).1.pool = some n ∧
      ImageCopyCaptureSession.initPool env n (ImageCopyCaptureSession.handleAll cb events
        (ImageCopyCaptureSession.new session_, o)).1 =
        (true, (ImageCopyCaptureSession.handleAll cb events
          (ImageCopyCaptureSession.new session_, o)).1)) ∧
    ((ImageCopyCaptureSession.handleAll cb events
        (ImageCopyCaptureSession.new session_, o)).1.pool = none →
      (ImageCopyCaptureSession.handleAll cb (events ++ [.buffer_size w h])
        (ImageCopyCaptureSession.new session_, o)).1.pool = none ∧
      ((ImageCopyCaptureSession.handleAll cb (events ++ [.done env])
        (ImageCopyCaptureSession.new session_, o)).1.pool = none ∨
       (ImageCopyCaptureSession.handleAll cb (events ++ [.done env])
        (ImageCopyCaptureSession.new session_, o)).1.pool =
        some (ImageCopyCaptureSession.poolSize
          (ImageCopyCaptureSession.handleAll cb events
            (ImageCopyCaptureSession.new session_, o)).1.width
          (ImageCopyCaptureSession.handleAll cb events
            (ImageCopyCaptureSession.new session_, o)).1.height))) ∧
    (∀ pick, cb.pickShmFormatCb = some pick →
      (ImageCopyCaptureSession.handleAll cb events
        (ImageCopyCaptureSession.new session_, o)).1.pool = none →
      (ImageCopyCaptureSession.handleAll cb events
        (ImageCopyCaptureSession.new session_, o)).1.session = true →
      (ImageCopyCaptureSession.handleAll cb events
        (ImageCopyCaptureSession.new session_, o)).1.width ≠ 0 →
      (ImageCopyCaptureSession.handleAll cb events
        (ImageCopyCaptureSession.new session_, o)).1.height ≠ 0 →
      (ImageCopyCaptureSession.handleAll cb events
        (ImageCopyCaptureSession.new session_, o)).1.formats ≠ [] →
      (pick (ImageCopyCaptureSession.handleAll cb events
        (ImageCopyCaptureSession.new session_, o)).1.formats (some 0)).1 = true →
      (ImageCopyCaptureSession.handleAll cb (events ++ [.done env])
        (ImageCopyCaptureSession.new session_, o)).1.pool =
        if env.memfd_create = true ∧ env.ftruncate = true then
          some (ImageCopyCaptureSession.poolSize
            (ImageCopyCaptureSession.handleAll cb events
        (ImageCopyCaptureSession.new session_, o)).1.width
            (ImageCopyCaptureSession.handleAll cb events
        (ImageCopyCaptureSession.new session_, o)).1.height)
        else none) ∧
    ((ImageCopyCaptureSession.handleAll cb events
        (ImageCopyCaptureSession.new session_, o)).1.pool = none →
      (ImageCopyCaptureSession.handleAll cb (events ++ [.done env])
        (ImageCopyCaptureSession.new session_, o)).1.pool ≠ none →
      (ImageCopyCaptureSession.handleAll cb events
        (ImageCopyCaptureSession.new session_, o)).1.session = true ∧
      (ImageCopyCaptureSession.handleAll cb events
        (ImageCopyCaptureSession.new session_, o)).1.width ≠ 0 ∧
      (ImageCopyCaptureSession.handleAll cb events
        (ImageCopyCaptureSession.new session_, o)).1.height ≠ 0 ∧
      (ImageCopyCaptureSession.handleAll cb events
        (ImageCopyCaptureSession.new session_, o)).1.formats ≠ [] ∧
      (∃ pick, cb.pickShmFormatCb = some pick ∧
        (pick (ImageCopyCaptureSession.handleAll cb events
        (ImageCopyCaptureSession.new session_, o)).1.formats (some 0)).1 = true) ∧
      env.memfd_create = true ∧ env.ftruncate = true) := by
  have hinv : (ImageCopyCaptureSession.handleAll cb events
      (ImageCopyCaptureSession.new session_, o)).1.poolMatches := by
    apply handleAll_induction cb ImageCopyCaptureSession.poolMatches
    · intro s o e h
      exact handle_poolMatches cb s o e h
    · show (ImageCopyCaptureSession.new session_).poolMatches
      unfold ImageCopyCaptureSession.poolMatches
      simp [ImageCopyCaptureSession.new]
  have hstep : ∀ e, ImageCopyCaptureSession.handleAll cb (events ++ [e])
      (ImageCopyCaptureSession.new session_, o) =
      ImageCopyCaptureSession.handle cb (ImageCopyCaptureSession.handleAll cb events
        (ImageCopyCaptureSession.new session_, o)) e := by
    intro e
    simp [ImageCopyCaptureSession.handleAll, List.foldl_append]
  rw [hstep, hstep]
  generalize ImageCopyCaptureSession.handleAll cb events
      (ImageCopyCaptureSession.new session_, o) = so at hinv ⊢
  obtain ⟨s, o1⟩ := so
  obtain ⟨i1, i2⟩ := hinv
  simp only at i1 i2
  obtain ⟨p1, p2, p3, p4⟩ := handleDone_pool cb env s o1
  refine ⟨i2, ?_, ?_, ?_, ?_⟩
  · intro n hn0
    have hn : s.pool = some n := hn0
    have hhs : s.hasSize = true := by
      cases hx : s.hasSize with
      | true => rfl
      | false =>
        rw [(i1 hx).1] at hn
        cases hn
    have hsz := i2 n hn
    refine ⟨?_, ?_, ?_, ?_⟩
    · simp only [ImageCopyCaptureSession.handle, ImageCopyCaptureSession.handleBufferSize]
      by_cases hc : w ≠ s.width ∨ h ≠ s.height
      · simp [hhs, hc]
      · simp [hhs, hc, hn]
    · simp only [ImageCopyCaptureSession.handle, ImageCopyCaptureSession.handleBufferSize]
      by_cases hc : w ≠ s.width ∨ h ≠ s.height
      · simp only [hhs, hc, and_self, if_true]
        simp only [ne_eq] at hc
        constructor
        · intro hx
          cases hx
        · intro hx
          tauto
      · simp only [hhs, hc, and_false, if_false, hn, true_iff]
        simp only [ne_eq, not_or, not_not] at hc
        exact hc
    · show (ImageCopyCaptureSession.handleDone cb env (s, o1)).1.pool = some n
      rcases p4 with p4 | ⟨_, hne, _⟩
      · rw [p4, hn]
      · rw [hn, hsz] at hne
        exact absurd rfl hne
    · simp [ImageCopyCaptureSession.initPool, hn]
  · intro hn0
    have hn : s.pool = none := hn0
    refine ⟨?_, ?_⟩
    · simp only [ImageCopyCaptureSession.handle, ImageCopyCaptureSession.handleBufferSize]
      by_cases hc : s.hasSize = true ∧ (w ≠ s.width ∨ h ≠ s.height)
      · rw [if_pos hc]
      · rw [if_neg hc]
        exact hn
    · show (ImageCopyCaptureSession.handleDone cb env (s, o1)).1.pool = none ∨
        (ImageCopyCaptureSession.handleDone cb env (s, o1)).1.pool =
          some (ImageCopyCaptureSession.poolSize s.width s.height)
      rcases p4 with p4 | ⟨_, _, p4 | p4⟩
      · exact Or.inl (p4.trans hn)
      · exact Or.inl p4
      · exact Or.inr p4
  · intro pick hpick hn0 hs hw hh hfm hpk
    have hn : s.pool = none := hn0
    show (ImageCopyCaptureSession.handleDone cb env (s, o1)).1.pool = _
    rw [handleDone_picked cb env s o1 pick hs hw hh hfm hpick hpk]
    by_cases hc : env.memfd_create = true ∧ env.ftruncate = true
    · rw [if_pos (Or.inr hc), if_pos hc]
      exact (createFrame_fields env _).2.1
    · have hc2 : ¬(s.pool = some (ImageCopyCaptureSession.poolSize s.width s.height) ∨
          (env.memfd_create = true ∧ env.ftruncate = true)) := by
        rw [hn]
        simp [hc]
      rw [if_neg hc2, if_neg hc]
  · intro hn0 hsome
    have hn : s.pool = none := hn0
    have hsome2 : (ImageCopyCaptureSession.handleDone cb env (s, o1)).1.pool ≠ none := hsome
    by_cases he : s.session = false ∨ s.width = 0 ∨ s.height = 0 ∨ s.formats = [] ∨
        cb.pickShmFormatCb = none ∨
        ∃ pick, cb.pickShmFormatCb = some pick ∧ (pick s.formats (some 0)).1 = false
    · rw [handleDone_early cb env s o1 he] at hsome2
      exact absurd hn hsome2
    · simp only [not_or, not_exists, not_and] at he
      obtain ⟨h1, h2, h3, h4, h5, h6⟩ := he
      cases hpc : cb.pickShmFormatCb with
      | none => exact absurd hpc h5
      | some pick =>
        have hpk : (pick s.formats (some 0)).1 = true := by
          have := h6 pick hpc
          simpa using this
        have hs : s.session = true := by simpa using h1
        refine ⟨hs, h2, h3, h4, ⟨pick, rfl, hpk⟩, ?_⟩
        by_contra hc
        have hc2 : ¬(s.pool = some (ImageCopyCaptureSession.poolSize s.width s.height) ∨
            (env.memfd_create = true ∧ env.ftruncate = true)) := by
          rw [hn]
          simp only [reduceCtorEq, false_or]
          exact hc
        rw [handleDone_picked cb env s o1 pick hs h2 h3 h4 hpc hpk, if_neg hc2] at hsome2
        exact hsome2 rfl

/-! ## The cursor session -/

/-- The cursor session after one event of the manager: it is still there, and
its hotspot is the one of the event when the event is a `hotspot`, and the
hotspot it had otherwise. -/
theorem manager_handle_hotspot (cfg : ManagerCallbacks) (m : ImageCopyCaptureManager)
    (cs : ImageCopyCaptureCursorSession) (e : ManagerEvent) (hm : m.cursorSession = some cs) :
    ∃ cs1, (ImageCopyCaptureManager.handle cfg m e).cursorSession = some cs1 ∧
      cs1.cursorHotspot = hotspotAfter cs.cursorHotspot [e] := by
  cases e with
  | session e1 =>
    refine ⟨cs, ?_, rfl⟩
    simp only [ImageCopyCaptureManager.handle]
    cases hs : m.session with
    | none => exact hm
    | some s => exact hm
  | cursor e1 =>
    simp only [ImageCopyCaptureManager.handle, hm]
    cases e1 with
    | enter => exact ⟨cs, rfl, rfl⟩
    | leave => exact ⟨cs, rfl, rfl⟩
    | position x y =>
      refine ⟨cs, ?_, rfl⟩
      simp only [ImageCopyCaptureCursorSession.handle]
      cases cfg.cursorPosCb <;> rfl
    | hotspot x y => exact ⟨{ cs with cursorHotspot := ⟨x, y⟩ }, rfl, rfl⟩
  | cursorCapture e1 =>
    simp only [ImageCopyCaptureManager.handle, hm]
    cases hc : cs.captureSession with
    | none => exact ⟨cs, hm, rfl⟩
    | some s => exact ⟨_, rfl, rfl⟩

/-- The hotspot the cursor session holds after a sequence of events of the
manager is the one of the most recent `hotspot` event, or the one it had. -/
theorem manager_handleAll_hotspot (cfg : ManagerCallbacks) (events : List ManagerEvent)
    (m : ImageCopyCaptureManager) (cs : ImageCopyCaptureCursorSession)
    (hm : m.cursorSession = some cs) :
    ∃ cs1, (ImageCopyCaptureManager.handleAll cfg events m).cursorSession = some cs1 ∧
      cs1.cursorHotspot = hotspotAfter cs.cursorHotspot events := by
  induction events generalizing m cs with
  | nil => exact ⟨cs, hm, rfl⟩
  | cons e es ih =>
    obtain ⟨cs1, h1, h2⟩ := manager_handle_hotspot cfg m cs e hm
    obtain ⟨cs2, h3, h4⟩ := ih (ImageCopyCaptureManager.handle cfg m e) cs1 h1
    refine ⟨cs2, ?_, ?_⟩
    · simpa [ImageCopyCaptureManager.handleAll] using h3
    · rw [h4, h2]
      simp [hotspotAfter]

end WaylandPixelBuffer
